import Mathlib

/-!
Biometric_sample: event queue, dispatcher and MQTT mailbox.

A shallow embedding of the event dispatch core of the application
(`actionMain.c`, `util.c`, `action.c`, `mosquitto.c`) and proofs about it: the event
queue, the dispatcher loop, the mailbox protocol between producers and the sender thread,
the comparison of MQTT topics, the delivery callback that turns messages into events, the
splitting of command-line arguments (`getArg`) and the event handlers of `action.c` that
parse a JSON payload (`handleEvt_intentRecognized`, `handleEvt_intentNotRecognized`,
`handleEvt_MQTTuserIdentified`).

Conventions of the embedding

* A C string is the list of its characters before the terminating NUL.
* Pointers to queue nodes are addresses (`Nat`) into an explicit heap; `none` is `NULL`.
* Functions that can block for ever or run into undefined behaviour return
  `Except Stuck`; loops of the source are recursions on a step budget, and the theorems
  show that the budget given is enough.
* The dispatcher `app_eventloop` is given for any behaviour of the functions it calls
  (`Handlers`: a call returns a value and a state, or does not return); `actionHandlers`
  are the functions of `action.c` themselves.
* An array of characters is modelled with its capacity: `strcpy` of a text that does not
  fit with its terminator, and a read behind a terminator, are undefined behaviour.
* Library calls (locking, sleeping, signalling the condition variable, publishing) and
  error messages are appended to `World.trace`.
* `dbg_out` diagnostics of the levels below `DBG_ERROR` have no effect on the
  state and are left out; what `dbg_out` does inside its own 2048-byte buffer is not
  modelled, only a `NULL` argument for `%s` is.
* The cJSON library is outside the sources: the parser and the printer are parameters of
  the handlers, a parsed object is a function from member names to items, and an item has
  the fields `valuestring` (`none` is `NULL`) and `valueint`. The value of `time(NULL)` and
  the `static` variables of a handler are passed in and out; between the calls made by the
  dispatcher the `static` variables are kept in the state.
* The mailbox code is given in two views: as functions of one thread, in which the other
  threads act on the mailbox at the points where the caller does not own the mutex
  (`Interference`), and as a transition system with one step per statement (`step`). The
  section "The two views of getMQTTsendAccess agree" relates them.
-/

namespace Biometric

deriving instance DecidableEq for Except

/-! ## Data model (actionMain.h) -/

/-- A C string: the characters before the terminating NUL. -/
abbrev CString := List Char

/-- Ways in which a call does not return. -/
inductive Stuck
  /-- The call waits for ever (no other thread is there to wake it). -/
  | blocks
  /-- The call runs into undefined behaviour (buffer overflow, use of freed memory). -/
  | undefined
  /-- The step budget given to a loop of the model is used up. -/
  | fuel
  deriving DecidableEq, Repr

/-- The enumeration `APPLICATION_EVENT`. -/
inductive APPLICATION_EVENT
  | EVT_MQTT_WAKEWORD
  | EVT_MQTT_PING
  | EVT_MQTT_PONG
  | EVT_MQTT_INTENT_RECOGNIZED
  | EVT_MQTT_INTENT_NOT_RECOGNIZED
  | EVT_KEYPRESS
  | EVT_STARTUP
  | EVT_MQTT_BIOM_IDENTIFICATION
  | EVT_APP_STOP
  deriving DecidableEq, Repr

/-- The struct `APPLICATION_EVENTDATA`: `payloadPtr` is a heap pointer (`none` is `NULL`),
`topicPayload` is the text held in the array `char topicPayload[10240]`. -/
structure APPLICATION_EVENTDATA where
  payloadPtr : Option Nat
  topicPayload : CString
  deriving DecidableEq, Repr

/-- The struct `EVENTNODE_T`, a node of the linked event list. -/
structure EVENTNODE_T where
  eventType : APPLICATION_EVENT
  eventData : APPLICATION_EVENTDATA
  next : Option Nat
  deriving DecidableEq, Repr

/-- The struct `mqtt_Data_type`, the mailbox: the texts in the buffers `pTopic` and
`pPayload`, and the flag `dataSent` (0 = this block is not sent yet). -/
structure mqtt_Data_type where
  pTopic : CString
  pPayload : CString
  dataSent : Int
  deriving DecidableEq, Repr

/-- Threads of the program that use the mailbox: the MQTT sender thread and the
threads that call the producer functions. -/
inductive Tid
  | sender
  | producer (p : Nat)
  deriving DecidableEq, Repr

/-- The fields of `globalData_type` used by the dispatch core. `mqttSendMutex` is the
owner of the mutex (`none` = unlocked), `eventSemap` the count of the semaphore. -/
structure globalData_type where
  mqttSendMutex : Option Tid
  mqttSharedData : mqtt_Data_type
  eventListHead : Option Nat
  eventListTail : Option Nat
  eventSemap : Nat
  mutexError : Int
  appExit : Int
  deriving DecidableEq, Repr

/-- Calls into the libraries (pthread, libc, mosquitto) and error messages, in the order in
which they happen. -/
inductive Effect
  /-- The call `pthread_mutex_lock(&mqttSendMutex)` by thread `t` has returned. -/
  | mutex_lock (t : Tid)
  /-- The call `pthread_mutex_unlock(&mqttSendMutex)` by thread `t`. -/
  | mutex_unlock (t : Tid)
  /-- The call `usleep(us)`. -/
  | usleep (us : Nat)
  /-- The call `pthread_cond_signal(&pGlobalData->mqttSend_cv)`. -/
  | cond_signal
  /-- The call `mosquitto_publish(client, NULL, topic, strlen(payload), payload, 2, false)`. -/
  | mosquitto_publish (topic payload : CString)
  /-- A call of `dbg_out(DBG_ERROR, ...)`. -/
  | dbg_error (msg : String)
  deriving DecidableEq, Repr

/-- The `static short` variables of `handleEvt_intentRecognized`. -/
structure IntentStatics where
  patternOn : Int
  routesOn : Int
  rangeOn : Int
  bearingScaleOn : Int
  tacticalFigOn : Int
  deriving DecidableEq, Repr

/-- The `static` variables of `handleEvt_intentRecognized` at program start. -/
def IntentStatics.init : IntentStatics := ⟨0, 0, 0, 0, 0⟩

/-- The state of the program: the global data block `*pGlobalData`, the heap of event
nodes (address = index, `none` = freed), the effects so far, and the function-local
`static` variables of `action.c`: those of `handleEvt_intentRecognized` and the variable
`previousSpeech` of `handleEvt_MQTTuserIdentified`. -/
structure World where
  pGlobalData : globalData_type
  heap : List (Option EVENTNODE_T)
  trace : List Effect
  intentStatics : IntentStatics
  previousSpeech : Int
  deriving DecidableEq, Repr

/-- An event as it travels through the queue: kind and data. -/
abbrev Event := APPLICATION_EVENT × APPLICATION_EVENTDATA

/-- Size of the array `topicPayload` of `APPLICATION_EVENTDATA`. -/
def TOPIC_PAYLOAD_SIZE : Nat := 10240

/-- The library call `strcpy(dst, src)` into an array of `cap` bytes: the text and its
terminator must fit, otherwise the copy overflows the array. -/
def strcpy (cap : Nat) (src : CString) : Except Stuck CString :=
  if src.length < cap then .ok src else .error .undefined

/-- The content of heap cell `a`, `none` when no live node is stored there. -/
def cell (heap : List (Option EVENTNODE_T)) (a : Nat) : Option EVENTNODE_T :=
  heap.getD a none

/-- The node stored at address `p`, `none` when `p` is not a live node. -/
def World.node (w : World) (p : Nat) : Option EVENTNODE_T :=
  cell w.heap p

/-- The global data after `main` has initialised it (`memset` to zero, `appExit = 0`,
`dataSent = 1`) and `app_init` has created the semaphore with count 0; the mailbox
buffers come from `malloc`, their content `topic`, `payload` is arbitrary. The `static`
variables of `action.c` have their initial value 0. -/
def main_init (topic payload : CString) : World :=
  { pGlobalData :=
      { mqttSendMutex := none
        mqttSharedData := { pTopic := topic, pPayload := payload, dataSent := 1 }
        eventListHead := none
        eventListTail := none
        eventSemap := 0
        mutexError := 0
        appExit := 0 }
    heap := []
    trace := []
    intentStatics := IntentStatics.init
    previousSpeech := 0 }

/-! ## Event queue (actionMain.c) -/

/-- Modelled from the spec: `mt_semaphore_release` of `mt_semaphore.h`, which is not part of
the sources; it adds one unit to the wait-count. -/
def mt_semaphore_release (w : World) : World :=
  { w with pGlobalData.eventSemap := w.pGlobalData.eventSemap + 1 }

/-- Modelled from the spec: `mt_semaphore_acquire` of `mt_semaphore.h`, which is not part of
the sources; it takes one unit from the wait-count and blocks while the count is zero. -/
def mt_semaphore_acquire (w : World) : Except Stuck World :=
  if w.pGlobalData.eventSemap = 0 then .error .blocks
  else .ok { w with pGlobalData.eventSemap := w.pGlobalData.eventSemap - 1 }

/-- The function `pushEvent`. The node comes from `malloc` (a fresh address, the result is
not checked in the source and allocation is taken to succeed); the part between
`mt_mutex_lock` and `mt_mutex_unlock` is one atomic step. Writing `next` through a tail
pointer to a freed node is undefined behaviour. -/
def pushEvent (event : APPLICATION_EVENT) (eventData : APPLICATION_EVENTDATA) (w : World) :
    Except Stuck World := do
  let newEvent := w.heap.length
  let text ← strcpy TOPIC_PAYLOAD_SIZE eventData.topicPayload
  let node : EVENTNODE_T :=
    { eventType := event
      eventData := { payloadPtr := eventData.payloadPtr, topicPayload := text }
      next := none }
  let w1 : World := { w with heap := w.heap ++ [some node] }
  let w2 : World :=
    if w1.pGlobalData.eventListHead = none then
      { w1 with pGlobalData.eventListHead := some newEvent }
    else w1
  let w3 ← match w2.pGlobalData.eventListTail with
    | none => pure { w2 with pGlobalData.eventListTail := some newEvent }
    | some t =>
      match w2.node t with
      | none => throw Stuck.undefined
      | some last =>
        pure { w2 with
                heap := w2.heap.set t (some { last with next := some newEvent })
                pGlobalData.eventListTail := some newEvent }
  pure (mt_semaphore_release w3)

/-- The function `popEvent`; `event` and `eventData` are the values of the two output
parameters before the call, the result holds their values after it. -/
def popEvent (event : APPLICATION_EVENT) (eventData : APPLICATION_EVENTDATA) (w : World) :
    Except Stuck (APPLICATION_EVENT × APPLICATION_EVENTDATA × World) := do
  let w1 ← mt_semaphore_acquire w
  match w1.pGlobalData.eventListHead with
  | none => pure (event, eventData, w1)
  | some h =>
    match w1.node h with
    | none => throw Stuck.undefined
    | some eventNode =>
      let text ← strcpy TOPIC_PAYLOAD_SIZE eventNode.eventData.topicPayload
      let w2 : World := { w1 with pGlobalData.eventListHead := eventNode.next }
      let w3 : World :=
        if w2.pGlobalData.eventListHead = none then
          { w2 with pGlobalData.eventListTail := none }
        else w2
      pure (eventNode.eventType,
            { payloadPtr := eventNode.eventData.payloadPtr, topicPayload := text },
            { w3 with heap := w3.heap.set h none })

/-- Loop of `emptyEventList`: unlink and free the head node while the head is not `NULL`.
`fuel` bounds the number of passes. -/
def emptyEventList_loop : Nat → World → Except Stuck World
  | fuel, w =>
    match w.pGlobalData.eventListHead with
    | none => .ok w
    | some h =>
      match w.node h with
      | none => .error .undefined
      | some eventNode =>
        match fuel with
        | 0 => .error .fuel
        | fuel + 1 =>
          emptyEventList_loop fuel
            { w with
                pGlobalData.eventListHead := eventNode.next
                heap := w.heap.set h none }

/-- The function `emptyEventList` (the loop runs between `mt_mutex_lock` and
`mt_mutex_unlock`). Every pass of the loop frees a live node, so the number of heap
cells bounds the number of passes. -/
def emptyEventList (w : World) : Except Stuck World :=
  emptyEventList_loop w.heap.length w

/-- Push a list of events in order. -/
def pushEvents : List Event → World → Except Stuck World
  | [], w => .ok w
  | e :: es, w => do
    let w1 ← pushEvent e.1 e.2 w
    pushEvents es w1

/-- Call `popEvent` `n` times in a row, each call reusing the output variables of the one
before; returns the values delivered by the calls and the final state. -/
def popEvents : Nat → APPLICATION_EVENT → APPLICATION_EVENTDATA → World →
    Except Stuck (List Event × World)
  | 0, _, _, w => .ok ([], w)
  | n + 1, event, eventData, w => do
    let (event1, eventData1, w1) ← popEvent event eventData w
    let (rest, w2) ← popEvents n event1 eventData1 w1
    pure ((event1, eventData1) :: rest, w2)

/-! ## Mailbox and sender thread (util.c) -/

/-- Size of the buffer `pTopic` of the mailbox. -/
def MQTT_SEND_TOPIC_SIZE : Nat := 512

/-- Size of the buffer `pPayload` of the mailbox. -/
def MQTT_SEND_PAYLOAD_SIZE : Nat := 32768

/-- What the other threads do to the mailbox while the calling thread does not hold the
mutex `mqttSendMutex`. -/
abbrev Interference := mqtt_Data_type → mqtt_Data_type

/-- Append an effect to the trace. -/
def World.emit (w : World) (e : Effect) : World :=
  { w with trace := w.trace ++ [e] }

/-- The other threads run on the mailbox. -/
def World.interfere (w : World) (others : Interference) : World :=
  { w with pGlobalData.mqttSharedData := others w.pGlobalData.mqttSharedData }

/-- The state after thread `t` has taken the mutex. -/
def World.locked (w : World) (t : Tid) : World :=
  ({ w with pGlobalData.mqttSendMutex := some t } : World).emit (.mutex_lock t)

/-- The state after thread `t` has released the mutex. -/
def World.unlocked (w : World) (t : Tid) : World :=
  ({ w with pGlobalData.mqttSendMutex := none } : World).emit (.mutex_unlock t)

/-- The function `request_mutex_lock` (`pthread_mutex_lock`) called by thread `me` on
`mqttSendMutex`. The call returns once the other threads have released the mutex; locking a
mutex that the caller already owns never returns. -/
def request_mutex_lock (me : Tid) (w : World) : Except Stuck World :=
  if w.pGlobalData.mqttSendMutex = some me then .error .blocks
  else .ok (w.locked me)

/-- The function `release_mutex_lock` (`pthread_mutex_unlock`) called by thread `me` on
`mqttSendMutex`; unlocking a mutex that the caller does not own is undefined. -/
def release_mutex_lock (me : Tid) (w : World) : Except Stuck World :=
  if w.pGlobalData.mqttSendMutex = some me then
    .ok (w.unlocked me)
  else .error .undefined

/-- The function `wakeMQTTsender`: `pthread_cond_signal` on `mqttSend_cv`. -/
def wakeMQTTsender (w : World) : World :=
  w.emit .cond_signal

/-- The library call `pthread_cond_wait(&mqttSend_cv, &mqttSendMutex)` by thread `me`: the
mutex is released, the other threads run (`others`), and the mutex is owned again on
return. -/
def pthread_cond_wait (me : Tid) (others : Interference) (w : World) : Except Stuck World := do
  let w1 ← release_mutex_lock me w
  request_mutex_lock me (w1.interfere others)

/-- The largest value of the C type `int`. -/
def INT_MAX : Int := 2147483647

/-- The statements `pGlobalData->mutexError++; dbg_out(DBG_ERROR, ...)` at the end of
`getMQTTsendAccess`; the increment of an `int` that holds `INT_MAX` is undefined. -/
def countMutexError (w : World) : Except Stuck World :=
  if w.pGlobalData.mutexError < INT_MAX then
    .ok (({ w with pGlobalData.mutexError := w.pGlobalData.mutexError + 1 } : World).emit
      (.dbg_error "getMQTTsendAccess FAILED to get mutex lock"))
  else .error .undefined

/-- The loop `while (i)` of `getMQTTsendAccess` and the statements behind it; `i` is the loop
counter, `attempt` counts the passes from 0 and `others attempt` is what the other threads do
before the caller gets the mutex in that pass. -/
def getMQTTsendAccess_loop (me : Tid) (others : Nat → Interference) :
    Nat → Nat → World → Except Stuck (Int × World)
  | 0, _, w => do
    let w1 ← countMutexError w
    pure (-1, w1)
  | i + 1, attempt, w => do
    let w1 ← request_mutex_lock me (w.interfere (others attempt))
    if w1.pGlobalData.mqttSharedData.dataSent = 1 then
      pure (0, w1)
    else
      let w2 ← release_mutex_lock me w1
      getMQTTsendAccess_loop me others i (attempt + 1) (w2.emit (.usleep 100000))

/-- The function `getMQTTsendAccess` called by thread `me`. -/
def getMQTTsendAccess (me : Tid) (others : Nat → Interference) (w : World) :
    Except Stuck (Int × World) :=
  getMQTTsendAccess_loop me others 100 0 w

/-- The function `sendMQTTtopic` called by thread `me`. -/
def sendMQTTtopic (me : Tid) (w : World) : Except Stuck (Int × World) := do
  let w1 : World := { w with pGlobalData.mqttSharedData.dataSent := 0 }
  let w2 := wakeMQTTsender w1
  let w3 ← release_mutex_lock me w2
  pure (0, w3)

/-- The value `MOSQ_ERR_SUCCESS` of the mosquitto library. -/
def MOSQ_ERR_SUCCESS : Int := 0

/-- The statements of `mqtt_sender` around `mosquitto_publish`: the call with the topic and
payload of the mailbox, and the error message when the value returned, `iRet`, is not
`MOSQ_ERR_SUCCESS`. -/
def World.publish (w : World) (iRet : Int) : World :=
  let w1 := w.emit
    (.mosquitto_publish w.pGlobalData.mqttSharedData.pTopic w.pGlobalData.mqttSharedData.pPayload)
  if MOSQ_ERR_SUCCESS ≠ iRet then w1.emit (.dbg_error "MQTT publish error") else w1

/-- One pass of the loop `while(1)` of `mqtt_sender`. `others` is what the other threads do
while the sender waits on the condition variable, `iRet` the value returned by
`mosquitto_publish`. The time measurement only feeds a diagnostic message. -/
def mqtt_sender_iteration (others : Interference) (iRet : Int) (w : World) :
    Except Stuck World := do
  let w1 ← request_mutex_lock .sender w
  let w2 ←
    if w1.pGlobalData.mqttSharedData.dataSent = 0 then pure w1
    else pthread_cond_wait .sender others w1
  let w3 := w2.publish iRet
  let w4 : World := { w3 with pGlobalData.mqttSharedData.dataSent := 1 }
  release_mutex_lock .sender w4

/-- The mailbox at the moment the sender reaches `mosquitto_publish` in a pass that starts in
state `w`: the mailbox of `w` when a message is pending, else the mailbox as the other
threads leave it during the wait on the condition variable. -/
def mailboxAtPublish (others : Interference) (w : World) : mqtt_Data_type :=
  if w.pGlobalData.mqttSharedData.dataSent = 0 then w.pGlobalData.mqttSharedData
  else others w.pGlobalData.mqttSharedData

/-- The topic/payload pairs handed to `mosquitto_publish`, in order. -/
def publishes : List Effect → List (CString × CString)
  | [] => []
  | .mosquitto_publish t p :: es => (t, p) :: publishes es
  | _ :: es => publishes es

/-- The number of `pthread_cond_signal` calls in a trace. -/
def signals (tr : List Effect) : Nat :=
  tr.count .cond_signal

/-- The durations of the `usleep` calls in a trace, in order (microseconds). -/
def sleeps : List Effect → List Nat
  | [] => []
  | .usleep us :: es => us :: sleeps es
  | _ :: es => sleeps es

/-- The number of times thread `t` has locked the mutex in a trace. -/
def locks (t : Tid) (tr : List Effect) : Nat :=
  tr.count (.mutex_lock t)

/-- `seen others k n m` is the mailbox after the other threads have run ahead of each of the
`n` attempts `k`, ..., `k + n - 1` of `getMQTTsendAccess`, when it was `m` before. With
attempts counted from 1, attempt `j` finds the mailbox `seen others 0 j m`. -/
def seen (others : Nat → Interference) : Nat → Nat → mqtt_Data_type → mqtt_Data_type
  | _, 0, m => m
  | k, n + 1, m => seen others (k + 1) n (others k m)

/-! ## Producers (action.c) -/

/-- The cJSON library is not part of the sources. `cJSON_compose fields` is the text that
`cJSON_PrintUnformatted` returns for the object built from the string items `fields`
(`none` = `NULL`). -/
abbrev cJSON_compose := List (CString × CString) → Option CString

/-- A composer for values that need no escaping: `{"k1":"v1","k2":"v2"}`. -/
def cJSON_plain : cJSON_compose := fun fields =>
  some ("\x7b".toList ++
    ",".toList.intercalate
      (fields.map (fun kv => "\"".toList ++ kv.1 ++ "\":\"".toList ++ kv.2 ++ "\"".toList)) ++
    "\x7d".toList)

/-- The function `action_JustRespondSpeech` called by thread `me`; `objectOk` tells whether
`cJSON_CreateObject` returned an object. -/
def action_JustRespondSpeech (me : Tid) (others : Nat → Interference) (objectOk : Bool)
    (json : cJSON_compose) (pUtterance : CString) (w : World) : Except Stuck (Int × World) :=
  if !objectOk then
    .ok (-10, w.emit (.dbg_error "action_JustRespondSpeech() Fatal error creating JSON object"))
  else
    match json [("utterance".toList, pUtterance)] with
    | none =>
      .ok (-10, w.emit (.dbg_error
        "action_JustRespondSpeech() Fatal error in creating creoir/talk/speak JSON payload"))
    | some pPayloadOut => do
      let (rc, w1) ← getMQTTsendAccess me others w
      if rc < 0 then
        pure (-100, w1.emit (.dbg_error
          "Did not get mutex lock for action_JustRespondSpeech(). Aborting MQTT publish."))
      else
        let topic ← strcpy MQTT_SEND_TOPIC_SIZE "creoir/talk/speak".toList
        let w2 : World := { w1 with pGlobalData.mqttSharedData.pTopic := topic }
        let payload ← strcpy MQTT_SEND_PAYLOAD_SIZE pPayloadOut
        let w3 : World := { w2 with pGlobalData.mqttSharedData.pPayload := payload }
        let (_, w4) ← sendMQTTtopic me w3
        pure (0, w4)

/-! ## Dispatcher (actionMain.c) -/

/-- The calls that `app_eventloop` makes into `action.c`. -/
inductive HandlerCall
  | handleEvt_onWakeword (eventData : APPLICATION_EVENTDATA)
  | handleEvt_intentRecognized (eventData : APPLICATION_EVENTDATA)
  | handleEvt_intentNotRecognized (eventData : APPLICATION_EVENTDATA)
  | handleEvt_MQTTuserIdentified (eventData : APPLICATION_EVENTDATA)
  | handleEvt_onStartup (eventData : APPLICATION_EVENTDATA)
  | setGrammar (pGrammarName : String) (iTimeout : Int) (pActionAfterResult : String)
  deriving DecidableEq, Repr

/-- The behaviour of the functions of `action.c` as seen from `app_eventloop`: the value a
call returns and the state it leaves, or the way in which the call does not return. -/
abbrev Handlers := HandlerCall → World → Except Stuck (Int × World)

/-- The handlers work on the mailbox only: a call that returns leaves the event list, the
semaphore, the heap of nodes and the flag `appExit` as they are (no function of `action.c`
called from the loop touches them). -/
def Handlers.KeepQueue (handlers : Handlers) : Prop :=
  ∀ c w r, handlers c w = .ok r → (r.2.heap = w.heap ∧
    r.2.pGlobalData.eventListHead = w.pGlobalData.eventListHead ∧
    r.2.pGlobalData.eventListTail = w.pGlobalData.eventListTail ∧
    r.2.pGlobalData.eventSemap = w.pGlobalData.eventSemap ∧
    r.2.pGlobalData.appExit = w.pGlobalData.appExit)

/-- The character `s[0]` of the array that holds the text `s` (NUL for the empty text). -/
def firstChar (s : CString) : Char :=
  s.headD (Char.ofNat 0)

/-- The `switch (applicationEvent)` of `app_eventloop`. The values returned by the handlers
are not used; a call that does not return stops the `switch` there. -/
def dispatch (handlers : Handlers) (applicationEvent : APPLICATION_EVENT)
    (eventData : APPLICATION_EVENTDATA) (w : World) : Except Stuck World :=
  match applicationEvent with
  | .EVT_MQTT_WAKEWORD => do
    let (_, w1) ← handlers (.handleEvt_onWakeword eventData) w
    pure w1
  | .EVT_MQTT_INTENT_RECOGNIZED => do
    let (_, w1) ← handlers (.handleEvt_intentRecognized eventData) w
    pure w1
  | .EVT_MQTT_INTENT_NOT_RECOGNIZED => do
    let (_, w1) ← handlers (.handleEvt_intentNotRecognized eventData) w
    pure w1
  | .EVT_MQTT_BIOM_IDENTIFICATION => do
    let (_, w1) ← handlers (.handleEvt_MQTTuserIdentified eventData) w
    pure w1
  | .EVT_KEYPRESS => do
    let (_, w1) ← handlers (.handleEvt_onWakeword eventData) w
    if ' ' = firstChar eventData.topicPayload then do
      let (_, w2) ← handlers (.setGrammar "MAIN_9LV" 4000 "resumeToIdle") w1
      pure w2
    else if 'w' = firstChar eventData.topicPayload ∨ 'W' = firstChar eventData.topicPayload then do
      let (_, w2) ← handlers (.setGrammar "MAIN_9LV" 4000 "goToAutomaticMode") w1
      pure w2
    else pure w1
  | .EVT_STARTUP => do
    let (_, w1) ← handlers (.handleEvt_onStartup eventData) w
    pure w1
  | .EVT_APP_STOP => pure { w with pGlobalData.appExit := 1 }
  | _ => pure (w.emit (.dbg_error "Unknown event received"))

/-- The result of `app_eventloop`: the value returned, the events the `switch` was run on
(one per pass of the loop, in order) and the final state. -/
structure LoopResult where
  ret : Int
  handled : List Event
  world : World

/-- The function `app_eventloop`. `fuel` bounds the number of passes of the `do ... while`
loop; `applicationEvent` and `eventData` are the (uninitialised) local variables. -/
def app_eventloop (handlers : Handlers) :
    Nat → APPLICATION_EVENT → APPLICATION_EVENTDATA → World → Except Stuck LoopResult
  | 0, _, _, _ => .error .fuel
  | fuel + 1, applicationEvent, eventData, w => do
    let (applicationEvent1, eventData1, w1) ← popEvent applicationEvent eventData w
    let w2 ← dispatch handlers applicationEvent1 eventData1 w1
    if w2.pGlobalData.appExit ≠ 0 then
      pure { ret := 0, handled := [(applicationEvent1, eventData1)], world := w2 }
    else do
      let r ← app_eventloop handlers fuel applicationEvent1 eventData1 w2
      pure { r with handled := (applicationEvent1, eventData1) :: r.handled }

/-! ## The mailbox protocol as a transition system

The threads run the statements of `getMQTTsendAccess`, of the producer functions of
`action.c` (write topic, write payload, `sendMQTTtopic`) and of `mqtt_sender`, one statement
per step, interleaved in any order. -/

/-- Where a producer thread stands. `i` is the loop counter of `getMQTTsendAccess`. -/
inductive ProducerPc
  /-- Not inside a producer function. -/
  | idle
  /-- `getMQTTsendAccess`: at `request_mutex_lock(pMutex)`. -/
  | lock (i : Nat)
  /-- `getMQTTsendAccess`: owns the mutex, at `if (dataSent == 1)`. -/
  | test (i : Nat)
  /-- `getMQTTsendAccess`: at `release_mutex_lock(pMutex)`. -/
  | unlock (i : Nat)
  /-- `getMQTTsendAccess`: at `usleep(100000U); i--;` and the loop test. -/
  | sleep (i : Nat)
  /-- `getMQTTsendAccess`: the loop is left, at `mutexError++; return -1`. -/
  | fail
  /-- `getMQTTsendAccess` returned 0: at `sprintf(pTopic, ...)`. -/
  | writeTopic
  /-- At `strcpy(pPayload, ...)`. -/
  | writePayload
  /-- `sendMQTTtopic`: at `dataSent = 0`. -/
  | setFlag
  /-- `sendMQTTtopic`: at `wakeMQTTsender(&mqttSend_cv)`. -/
  | signal
  /-- `sendMQTTtopic`: at `release_mutex_lock(&mqttSendMutex)`. -/
  | release
  deriving DecidableEq, Repr

/-- A producer thread: where it stands and the message it is sending. -/
structure Producer where
  pc : ProducerPc
  topic : CString
  payload : CString
  deriving DecidableEq, Repr

/-- Where the sender thread stands in the loop of `mqtt_sender`. -/
inductive SenderPc
  /-- At `request_mutex_lock(&mqttSendMutex)`. -/
  | lock
  /-- Owns the mutex, at `if (dataSent == 0)`. -/
  | test
  /-- Inside `pthread_cond_wait`, mutex released, asleep. -/
  | wait
  /-- Inside `pthread_cond_wait`, woken up, taking the mutex again. -/
  | wake
  /-- At `mosquitto_publish(...)`. -/
  | publish
  /-- At `dataSent = 1`. -/
  | setFlag
  /-- At `release_mutex_lock(&mqttSendMutex)`. -/
  | unlock
  deriving DecidableEq, Repr

/-- The state of the mailbox protocol. The last three fields are history variables:
`grants` counts the returns of `getMQTTsendAccess` with 0, `committed` lists the mailbox
content at each `dataSent = 0` of `sendMQTTtopic`, `clears` counts the times the sender
changed `dataSent` from 0 to 1. -/
structure System where
  world : World
  sender : SenderPc
  producers : Nat → Producer
  grants : Nat
  committed : List (CString × CString)
  clears : Nat

/-- One step of the protocol. -/
inductive Action
  /-- Producer `p` enters a producer function with the message `topic`, `payload`. -/
  | call (p : Nat) (topic payload : CString)
  /-- Producer `p` runs its next statement. -/
  | producer (p : Nat)
  /-- The sender runs its next statement; `iRet` is the value `mosquitto_publish` returns if
  that is the statement. -/
  | sender (iRet : Int)
  /-- The sender's `pthread_cond_wait` wakes up without a signal (allowed by POSIX). -/
  | spurious
  deriving DecidableEq, Repr

/-- Move producer `p` to `pc`. -/
def System.goto (s : System) (p : Nat) (pc : ProducerPc) : System :=
  { s with producers := Function.update s.producers p { s.producers p with pc := pc } }

/-- Thread `t` takes the mutex if it is free. -/
def tryLock (t : Tid) (w : World) : Option World :=
  if w.pGlobalData.mqttSendMutex = none then (request_mutex_lock t w).toOption else none

/-- The next statement of producer `p`; `none` when the thread cannot move (it is idle, it
waits for the mutex, or the statement overflows a buffer). -/
def stepProducer (p : Nat) (s : System) : Option System :=
  match (s.producers p).pc with
  | .idle => none
  | .lock i =>
    (tryLock (.producer p) s.world).map fun w => ({ s with world := w } : System).goto p (.test i)
  | .test i =>
    if s.world.pGlobalData.mqttSharedData.dataSent = 1 then
      some (({ s with grants := s.grants + 1 } : System).goto p .writeTopic)
    else some (s.goto p (.unlock i))
  | .unlock i =>
    (release_mutex_lock (.producer p) s.world).toOption.map fun w =>
      ({ s with world := w } : System).goto p (.sleep i)
  | .sleep i =>
    some (({ s with world := s.world.emit (.usleep 100000) } : System).goto p
      (if i - 1 = 0 then .fail else .lock (i - 1)))
  | .fail =>
    (countMutexError s.world).toOption.map fun w =>
      ({ s with world := w } : System).goto p .idle
  | .writeTopic =>
    match strcpy MQTT_SEND_TOPIC_SIZE (s.producers p).topic with
    | .ok t =>
      some (({ s with world.pGlobalData.mqttSharedData.pTopic := t } : System).goto p
        .writePayload)
    | .error _ => none
  | .writePayload =>
    match strcpy MQTT_SEND_PAYLOAD_SIZE (s.producers p).payload with
    | .ok t =>
      some (({ s with world.pGlobalData.mqttSharedData.pPayload := t } : System).goto p .setFlag)
    | .error _ => none
  | .setFlag =>
    some (({ s with
      world.pGlobalData.mqttSharedData.dataSent := 0
      committed := s.committed ++
        [(s.world.pGlobalData.mqttSharedData.pTopic,
          s.world.pGlobalData.mqttSharedData.pPayload)] } : System).goto p .signal)
  | .signal =>
    some (({ s with
      world := wakeMQTTsender s.world
      sender := if s.sender = .wait then .wake else s.sender } : System).goto p .release)
  | .release =>
    (release_mutex_lock (.producer p) s.world).toOption.map fun w =>
      ({ s with world := w } : System).goto p .idle

/-- The next statement of the sender; `none` when it cannot move (it waits for the mutex or
for a signal). -/
def stepSender (iRet : Int) (s : System) : Option System :=
  match s.sender with
  | .lock => (tryLock .sender s.world).map fun w => { s with world := w, sender := .test }
  | .test =>
    if s.world.pGlobalData.mqttSharedData.dataSent = 0 then some { s with sender := .publish }
    else
      (release_mutex_lock .sender s.world).toOption.map fun w =>
        { s with world := w, sender := .wait }
  | .wait => none
  | .wake => (tryLock .sender s.world).map fun w => { s with world := w, sender := .publish }
  | .publish => some { s with world := s.world.publish iRet, sender := .setFlag }
  | .setFlag =>
    some { s with
      world.pGlobalData.mqttSharedData.dataSent := 1
      clears := if s.world.pGlobalData.mqttSharedData.dataSent = 0 then s.clears + 1 else s.clears
      sender := .unlock }
  | .unlock =>
    (release_mutex_lock .sender s.world).toOption.map fun w =>
      { s with world := w, sender := .lock }

/-- The step function of the protocol; `none` when the action is not possible in `s`. -/
def step (s : System) : Action → Option System
  | .call p topic payload =>
    if (s.producers p).pc = .idle then
      some { s with
        producers := Function.update s.producers p
          { pc := .lock 100, topic := topic, payload := payload } }
    else none
  | .producer p => stepProducer p s
  | .sender iRet => stepSender iRet s
  | .spurious => if s.sender = .wait then some { s with sender := .wake } else none

/-- The protocol when the program starts: the state left by `main`, the sender at the top of
its loop, no producer active. -/
def System.init (topic payload : CString) : System :=
  { world := main_init topic payload
    sender := .lock
    producers := fun _ => { pc := .idle, topic := [], payload := [] }
    grants := 0
    committed := []
    clears := 0 }

/-- Run a list of actions. -/
def run : List Action → System → Option System
  | [], s => some s
  | a :: as, s => (step s a).bind (run as)

/-- The states the protocol can reach. -/
inductive Reachable : System → Prop
  | init (topic payload : CString) : Reachable (System.init topic payload)
  | step {s s1 : System} (a : Action) : Reachable s → step s a = some s1 → Reachable s1

/-- The steps of the protocol, one rule per statement, with the state after the step written
out; `step_sound` shows that every step of `step` is one of these. -/
inductive Step : System → Action → System → Prop
  | call (s : System) (p : Nat) (topic payload : CString) :
    (s.producers p).pc = .idle →
    Step s (.call p topic payload)
      { s with
        producers := Function.update s.producers p
          { pc := .lock 100, topic := topic, payload := payload } }
  | lock (s : System) (p i : Nat) :
    (s.producers p).pc = .lock i → s.world.pGlobalData.mqttSendMutex = none →
    Step s (.producer p)
      (({ s with world := s.world.locked (.producer p) } : System).goto p (.test i))
  | granted (s : System) (p i : Nat) :
    (s.producers p).pc = .test i → s.world.pGlobalData.mqttSharedData.dataSent = 1 →
    Step s (.producer p) (({ s with grants := s.grants + 1 } : System).goto p .writeTopic)
  | busy (s : System) (p i : Nat) :
    (s.producers p).pc = .test i → s.world.pGlobalData.mqttSharedData.dataSent ≠ 1 →
    Step s (.producer p) (s.goto p (.unlock i))
  | unlock (s : System) (p i : Nat) :
    (s.producers p).pc = .unlock i →
    s.world.pGlobalData.mqttSendMutex = some (.producer p) →
    Step s (.producer p)
      (({ s with world := s.world.unlocked (.producer p) } : System).goto p (.sleep i))
  | sleep (s : System) (p i : Nat) :
    (s.producers p).pc = .sleep i →
    Step s (.producer p)
      (({ s with world := s.world.emit (.usleep 100000) } : System).goto p
        (if i - 1 = 0 then .fail else .lock (i - 1)))
  | fail (s : System) (p : Nat) :
    (s.producers p).pc = .fail → s.world.pGlobalData.mutexError < INT_MAX →
    Step s (.producer p)
      (({ s with
        world := ({ s.world with
          pGlobalData.mutexError := s.world.pGlobalData.mutexError + 1 } : World).emit
            (.dbg_error "getMQTTsendAccess FAILED to get mutex lock") } : System).goto p .idle)
  | writeTopic (s : System) (p : Nat) :
    (s.producers p).pc = .writeTopic →
    (s.producers p).topic.length < MQTT_SEND_TOPIC_SIZE →
    Step s (.producer p)
      (({ s with world.pGlobalData.mqttSharedData.pTopic := (s.producers p).topic } :
        System).goto p .writePayload)
  | writePayload (s : System) (p : Nat) :
    (s.producers p).pc = .writePayload →
    (s.producers p).payload.length < MQTT_SEND_PAYLOAD_SIZE →
    Step s (.producer p)
      (({ s with world.pGlobalData.mqttSharedData.pPayload := (s.producers p).payload } :
        System).goto p .setFlag)
  | commit (s : System) (p : Nat) :
    (s.producers p).pc = .setFlag →
    Step s (.producer p)
      (({ s with
        world.pGlobalData.mqttSharedData.dataSent := 0
        committed := s.committed ++
          [(s.world.pGlobalData.mqttSharedData.pTopic,
            s.world.pGlobalData.mqttSharedData.pPayload)] } : System).goto p .signal)
  | signal (s : System) (p : Nat) :
    (s.producers p).pc = .signal →
    Step s (.producer p)
      (({ s with
        world := wakeMQTTsender s.world
        sender := if s.sender = .wait then .wake else s.sender } : System).goto p .release)
  | release (s : System) (p : Nat) :
    (s.producers p).pc = .release →
    s.world.pGlobalData.mqttSendMutex = some (.producer p) →
    Step s (.producer p)
      (({ s with world := s.world.unlocked (.producer p) } : System).goto p .idle)
  | senderLock (s : System) (iRet : Int) :
    s.sender = .lock → s.world.pGlobalData.mqttSendMutex = none →
    Step s (.sender iRet) { s with world := s.world.locked .sender, sender := .test }
  | senderPending (s : System) (iRet : Int) :
    s.sender = .test → s.world.pGlobalData.mqttSharedData.dataSent = 0 →
    Step s (.sender iRet) { s with sender := .publish }
  | senderWait (s : System) (iRet : Int) :
    s.sender = .test → s.world.pGlobalData.mqttSharedData.dataSent ≠ 0 →
    s.world.pGlobalData.mqttSendMutex = some .sender →
    Step s (.sender iRet) { s with world := s.world.unlocked .sender, sender := .wait }
  | senderWake (s : System) (iRet : Int) :
    s.sender = .wake → s.world.pGlobalData.mqttSendMutex = none →
    Step s (.sender iRet) { s with world := s.world.locked .sender, sender := .publish }
  | senderPublish (s : System) (iRet : Int) :
    s.sender = .publish →
    Step s (.sender iRet) { s with world := s.world.publish iRet, sender := .setFlag }
  | senderClear (s : System) (iRet : Int) :
    s.sender = .setFlag →
    Step s (.sender iRet)
      { s with
        world.pGlobalData.mqttSharedData.dataSent := 1
        clears :=
          if s.world.pGlobalData.mqttSharedData.dataSent = 0 then s.clears + 1 else s.clears
        sender := .unlock }
  | senderUnlock (s : System) (iRet : Int) :
    s.sender = .unlock → s.world.pGlobalData.mqttSendMutex = some .sender →
    Step s (.sender iRet) { s with world := s.world.unlocked .sender, sender := .lock }
  | spurious (s : System) :
    s.sender = .wait → Step s .spurious { s with sender := .wake }

/-- Producer statements at which the thread owns the mutex. -/
def ProducerPc.ownsMutex : ProducerPc → Bool
  | .test _ | .unlock _ | .writeTopic | .writePayload | .setFlag | .signal | .release => true
  | _ => false

/-- Producer statements at which the thread holds the send slot: from the return of
`getMQTTsendAccess` with 0 to the unlock in `sendMQTTtopic`. -/
def ProducerPc.holdsSlot : ProducerPc → Bool
  | .writeTopic | .writePayload | .setFlag | .signal | .release => true
  | _ => false

/-- Producer statements at which the slot is held and the message is not committed yet. -/
def ProducerPc.beforeCommit : ProducerPc → Bool
  | .writeTopic | .writePayload | .setFlag => true
  | _ => false

/-- Sender statements at which the thread owns the mutex. -/
def SenderPc.ownsMutex : SenderPc → Bool
  | .test | .publish | .setFlag | .unlock => true
  | _ => false

/-! ## Well-formed queue states -/

/-- `Chain heap p as L`: starting from pointer `p` the `next` links visit the live nodes at the
addresses `as`, which hold the events `L` in order, and then reach `NULL`. -/
def Chain (heap : List (Option EVENTNODE_T)) : Option Nat → List Nat → List Event → Prop
  | p, [], [] => p = none
  | p, a :: as, e :: L =>
    p = some a ∧ ∃ nxt, cell heap a = some ⟨e.1, e.2, nxt⟩ ∧ Chain heap nxt as L
  | _, _, _ => False

/-- `QueueHolds w as L`: the event list of `w` is well formed, its nodes are at the addresses
`as` and hold the events `L` (first to last), `eventListTail` points to the last node, the
wait-count equals the number of events and every payload text fits its array. -/
def QueueHolds (w : World) (as : List Nat) (L : List Event) : Prop :=
  Chain w.heap w.pGlobalData.eventListHead as L ∧ as.Nodup ∧
    w.pGlobalData.eventListTail = as.getLast? ∧ w.pGlobalData.eventSemap = L.length ∧
    ∀ e ∈ L, e.2.topicPayload.length < TOPIC_PAYLOAD_SIZE

/-- The queue is empty: no head, no tail, wait-count zero. -/
def QueueEmpty (w : World) : Prop :=
  w.pGlobalData.eventListHead = none ∧ w.pGlobalData.eventListTail = none ∧
    w.pGlobalData.eventSemap = 0

/-- The state left by `main` with a message pending in the mailbox (`dataSent == 0`) that
nobody sends: the sender is blocked. -/
def senderBlocked : World :=
  { main_init "creoir/talk/speak".toList "pending".toList with
      pGlobalData.mqttSharedData.dataSent := 0 }

/-- Producer 0 calls a producer function with the message of scenario C, takes the mutex and
passes the test of `getMQTTsendAccess`: it stands at the write of the topic. -/
def toWriteTopic : List Action :=
  [.call 0 "creoir/talk/speak".toList "\x7b\"utterance\":\"Routes are now visible.\"\x7d".toList,
    .producer 0, .producer 0]

/-- Scenario B: producers 0 and 1 call a producer function on the initial mailbox
(`dataSent == 1`) and producer 0 gets the mutex first. -/
def scenarioB : List Action :=
  [.call 0 "creoir/talk/speak".toList "first".toList,
    .call 1 "creoir/talk/speak".toList "second".toList, .producer 0]

/-- Scenario B continued: producer 0 passes the test, writes its message and commits
(`sendMQTTtopic` to the end); the sender has not run. -/
def scenarioB_committed : List Action :=
  scenarioB ++ [.producer 0, .producer 0, .producer 0, .producer 0, .producer 0, .producer 0]

/-- Scenario B to the end: then the sender runs one pass (lock, test, publish, `dataSent = 1`,
unlock), after which producer 1 locks and tests. -/
def scenarioB_cleared : List Action :=
  scenarioB_committed ++ [.sender 0, .sender 0, .sender 0, .sender 0, .sender 0,
    .producer 1, .producer 1]

/-- `QueueFrame w w1`: the states `w` and `w1` have the same heap of nodes, event list,
wait-count and flag `appExit`. -/
def QueueFrame (w w1 : World) : Prop :=
  w1.heap = w.heap ∧
    w1.pGlobalData.eventListHead = w.pGlobalData.eventListHead ∧
    w1.pGlobalData.eventListTail = w.pGlobalData.eventListTail ∧
    w1.pGlobalData.eventSemap = w.pGlobalData.eventSemap ∧
    w1.pGlobalData.appExit = w.pGlobalData.appExit

/-- Scenario A: the events Startup, Wakeword, Stop and one more event behind the stop
event. -/
def scenarioA : List Event :=
  [(.EVT_STARTUP, ⟨none, []⟩), (.EVT_MQTT_WAKEWORD, ⟨none, "hey".toList⟩),
    (.EVT_APP_STOP, ⟨none, []⟩), (.EVT_KEYPRESS, ⟨none, " ".toList⟩)]

/-- The state after the events of scenario A have been pushed onto the queue left by
`main`. -/
def scenarioA_queue : World :=
  match pushEvents scenarioA (main_init [] []) with
  | .ok w => w
  | .error _ => main_init [] []

/-- Mutex discipline: a thread owns the mutex exactly when it stands at a statement inside
a locked region. -/
structure MutexInv (s : System) : Prop where
  producerOwns : ∀ p, (s.producers p).pc.ownsMutex = true ↔
    s.world.pGlobalData.mqttSendMutex = some (.producer p)
  senderOwns : s.sender.ownsMutex = true ↔ s.world.pGlobalData.mqttSendMutex = some .sender

/-- The number of grants that are not committed yet: 1 when the owner of the mutex is a
producer between the return of `getMQTTsendAccess` and `dataSent = 0`, else 0. -/
def System.pendingGrant (s : System) : Nat :=
  match s.world.pGlobalData.mqttSendMutex with
  | some (.producer p) => if (s.producers p).pc.beforeCommit then 1 else 0
  | _ => 0

/-- Slot discipline: while a producer holds the slot and has not committed, `dataSent` is 1;
`dataSent` is 0 or 1; every grant but a pending one has been committed, and every commit but
a pending one (`dataSent == 0`) has been cleared by the sender. -/
structure SlotInv (s : System) : Prop where
  slotFlag : ∀ p, (s.producers p).pc.beforeCommit = true →
    s.world.pGlobalData.mqttSharedData.dataSent = 1
  flag01 : s.world.pGlobalData.mqttSharedData.dataSent = 0 ∨
    s.world.pGlobalData.mqttSharedData.dataSent = 1
  grantsEq : s.grants = s.committed.length + s.pendingGrant
  commitsEq : s.committed.length =
    s.clears + (if s.world.pGlobalData.mqttSharedData.dataSent = 0 then 1 else 0)

/-- The state left by `main` after producer 0 has got the send slot from
`getMQTTsendAccess`. -/
def slotAcquired : World :=
  { main_init [] [] with pGlobalData.mqttSendMutex := some (.producer 0) }

/-- The handler code for the intent DISPLAY_ROUTES followed by one pass of the sender loop,
from the state left by `main`: `action_JustRespondSpeech("Routes are now visible.")`, then
`mqtt_sender`. -/
def displayRoutesThenSender : Except Stuck World := do
  let (_, w1) ← action_JustRespondSpeech (.producer 0) (fun _ m => m) true cJSON_plain
    "Routes are now visible.".toList (main_init [] [])
  mqtt_sender_iteration (fun m => m) MOSQ_ERR_SUCCESS w1

/-- The states the protocol can reach when `pthread_cond_wait` returns only after a
signal (no spurious wake-up). -/
inductive ReachableQuiet : System → Prop
  | init (topic payload : CString) : ReachableQuiet (System.init topic payload)
  | step {s s1 : System} (a : Action) : a ≠ .spurious → ReachableQuiet s →
    step s a = some s1 → ReachableQuiet s1

/-- Publish discipline, valid as long as no spurious wake-up occurs: from the wake-up to
the statement `dataSent = 1` the sender finds `dataSent == 0`; a producer about to signal
has set `dataSent` to 0; and the committed messages are the published ones, followed by the
content of the mailbox when a message is pending and not published yet. -/
structure PublishInv (s : System) : Prop where
  wakeFlag : s.sender = .wake → s.world.pGlobalData.mqttSharedData.dataSent = 0
  publishFlag : s.sender = .publish → s.world.pGlobalData.mqttSharedData.dataSent = 0
  setFlagFlag : s.sender = .setFlag → s.world.pGlobalData.mqttSharedData.dataSent = 0
  signalFlag : ∀ p, (s.producers p).pc = .signal →
    s.world.pGlobalData.mqttSharedData.dataSent = 0
  published : s.committed = publishes s.world.trace ++
    (if s.world.pGlobalData.mqttSharedData.dataSent = 0 ∧ s.sender ≠ .setFlag then
      [(s.world.pGlobalData.mqttSharedData.pTopic, s.world.pGlobalData.mqttSharedData.pPayload)]
    else [])

/-- A producer calls with the message of scenario C and runs to the end of
`sendMQTTtopic`; the sender runs one pass and publishes the message, starts the next pass
and waits on the condition variable; the wait ends without a signal and the sender
publishes again. -/
def duplicateSend : List Action :=
  [.call 0 "creoir/talk/speak".toList "\x7b\"utterance\":\"Routes are now visible.\"\x7d".toList,
    .producer 0, .producer 0, .producer 0, .producer 0, .producer 0, .producer 0, .producer 0,
    .sender 0, .sender 0, .sender 0, .sender 0, .sender 0,
    .sender 0, .sender 0, .spurious, .sender 0, .sender 0]

/-- Scenario C: producer 0 owns the send slot and has written the topic `creoir/talk/speak`
and the payload `{"utterance":"Routes are now visible."}` into the mailbox. -/
def scenarioC : World :=
  { main_init [] [] with
      pGlobalData.mqttSendMutex := some (.producer 0)
      pGlobalData.mqttSharedData.pTopic := "creoir/talk/speak".toList
      pGlobalData.mqttSharedData.pPayload :=
        "\x7b\"utterance\":\"Routes are now visible.\"\x7d".toList }

instance (w : World) : Decidable (QueueEmpty w) := by
  unfold QueueEmpty
  infer_instance

/-- `QueueShape w as L`: the list structure of a well-formed queue, without the wait-count:
the nodes are at the addresses `as` and hold the events `L` (first to last),
`eventListTail` points to the last node and every payload text fits its array. -/
def QueueShape (w : World) (as : List Nat) (L : List Event) : Prop :=
  Chain w.heap w.pGlobalData.eventListHead as L ∧ as.Nodup ∧
    w.pGlobalData.eventListTail = as.getLast? ∧
    ∀ e ∈ L, e.2.topicPayload.length < TOPIC_PAYLOAD_SIZE

/-! ## Sequences of queue operations -/

/-- A call of one of the three functions that work on the event queue; for `popEvent` the
two arguments are the values that its output parameters hold before the call. -/
inductive QueueOp
  | push (event : APPLICATION_EVENT) (eventData : APPLICATION_EVENTDATA)
  | pop (event : APPLICATION_EVENT) (eventData : APPLICATION_EVENTDATA)
  | drain
  deriving DecidableEq, Repr

/-- The state after one queue operation (`push` is `pushEvent`, `pop` is `popEvent`, `drain`
is `emptyEventList`). -/
def QueueOp.call : QueueOp → World → Except Stuck World
  | .push event eventData, w => pushEvent event eventData w
  | .pop event eventData, w => do
    let (_, _, w1) ← popEvent event eventData w
    pure w1
  | .drain, w => emptyEventList w

/-- The state after a sequence of queue operations, each of which returns. -/
def QueueOp.calls : List QueueOp → World → Except Stuck World
  | [], w => .ok w
  | op :: ops, w => do
    let w1 ← op.call w
    QueueOp.calls ops w1

/-- The states of the queue that can be reached from the state left by `main` and
`app_init` by calls of `pushEvent`, `popEvent` and `emptyEventList` that return. -/
inductive QueueReachable : World → Prop
  | init (topic payload : CString) : QueueReachable (main_init topic payload)
  | call {w w1 : World} (op : QueueOp) : QueueReachable w → op.call w = .ok w1 →
    QueueReachable w1

/-- The events found by following the `next` links from pointer `p`, at most `fuel` nodes. -/
def queuedEvents_from (heap : List (Option EVENTNODE_T)) :
    Nat → Option Nat → Except Stuck (List Event)
  | _, none => .ok []
  | 0, some _ => .error .fuel
  | fuel + 1, some a =>
    match cell heap a with
    | none => .error .undefined
    | some node => do
      let rest ← queuedEvents_from heap fuel node.next
      pure ((node.eventType, node.eventData) :: rest)

/-- The events the queue holds: those of the nodes reachable from `eventListHead`. -/
def queuedEvents (w : World) : Except Stuck (List Event) :=
  queuedEvents_from w.heap w.heap.length w.pGlobalData.eventListHead

/-- Number of live nodes in the heap. -/
def liveNodes (heap : List (Option EVENTNODE_T)) : Nat :=
  (heap.filter Option.isSome).length

/-- The queue after `app_init` has pushed the start-up event. -/
def startupQueue : World :=
  match pushEvent .EVT_STARTUP ⟨none, []⟩ (main_init [] []) with
  | .ok w => w
  | .error _ => main_init [] []

/-- The queue left by `app_init` after `emptyEventList` has run on it. -/
def drainedQueue : World :=
  match emptyEventList startupQueue with
  | .ok w => w
  | .error _ => startupQueue

/-- The handlers `handlers` with the values they return replaced by `codes` (what they do
to the state is kept, and a call that does not return still does not). -/
def Handlers.returning (handlers : Handlers) (codes : HandlerCall → World → Int) : Handlers :=
  fun c w => (handlers c w).map (fun r => (codes c w, r.2))

/-- The run that the loop of `app_eventloop` is compared with: the events `es` are taken
from the head of the queue one after the other, and the `switch` is run on each in the state
that the one before has left. -/
def handleEvents (handlers : Handlers) : List Event → World → Except Stuck World
  | [], w => .ok w
  | e :: es, w => do
    let (_, _, w1) ← popEvent e.1 e.2 w
    let w2 ← dispatch handlers e.1 e.2 w1
    handleEvents handlers es w2

/-! ## Topic comparison (util.c) -/

/-- The character NUL, which ends a C string. -/
def NUL : Char := Char.ofNat 0

/-- The character `s[i]` of the array that holds the text `s` and its terminator: position
`strlen(s)` holds NUL, a read behind the terminator is outside the string. -/
def charAt (s : CString) (i : Nat) : Except Stuck Char :=
  if i < s.length then .ok (s.getD i NUL)
  else if i = s.length then .ok NUL
  else .error .undefined

/-- The library call `strlen`. -/
def strlen (s : CString) : Nat := s.length

/-- The loop `while (needle[iPos])` of `mqtt_topic_compare` and the statements behind it;
`fuel` bounds the number of passes. -/
def mqtt_topic_compare_loop (haystack needle : CString) : Nat → Nat → Except Stuck Int
  | 0, _ => .error .fuel
  | fuel + 1, iPos => do
    let n ← charAt needle iPos
    if n ≠ NUL then
      let h ← charAt haystack iPos
      if n ≠ h ∧ h ≠ '#' then pure 0
      else if h = '#' then pure 1
      else if h = NUL then pure 0
      else mqtt_topic_compare_loop haystack needle fuel (iPos + 1)
    else if strlen needle ≠ strlen haystack then pure 0
    else pure 1

/-- The function `mqtt_topic_compare(haystack, needle)`: `haystack` is the expected topic
(with a possible wildcard), `needle` the topic to compare. The loop makes at most
`strlen(needle) + 1` passes. -/
def mqtt_topic_compare (haystack needle : CString) : Except Stuck Int :=
  mqtt_topic_compare_loop haystack needle (strlen needle + 1) 0

/-- The comparison of `mqtt_topic_compare` on the parts of the two texts that the loop has
not read yet. -/
def topicMatch : CString → CString → Int
  | [], [] => 1
  | _ :: _, [] => 0
  | [], _ :: _ => 0
  | x :: h, c :: n => if c ≠ x ∧ x ≠ '#' then 0 else if x = '#' then 1 else topicMatch h n

/-! ## Delivery callback (mosquitto.c, action.c) -/

/-- The function `handle_MQTTonWakeword(pTopic, pData)`, called when a message on the topic
`creoir/asr/wakewordDetected` arrives; `pData` is `none` for `NULL`. The local `eventData` is
zero-filled, then the payload is copied into its array with `strcpy`. -/
def handle_MQTTonWakeword (_pTopic : CString) (pData : Option CString) (w : World) :
    Except Stuck (Int × World) :=
  match pData with
  | none => .ok (-1, w.emit (.dbg_error "No MQTT data in topic."))
  | some data => do
    let text ← strcpy TOPIC_PAYLOAD_SIZE data
    let eventData : APPLICATION_EVENTDATA := { payloadPtr := none, topicPayload := text }
    let w1 ← pushEvent .EVT_MQTT_WAKEWORD eventData w
    pure (0, w1)

/-- The function `handle_MQTTintentRecognized(pTopic, pData)`, called when a message on the topic
`creoir/asr/intentRecognized` arrives; `pData` is `none` for `NULL`. The local `eventData` is
zero-filled, then the payload is copied into its array with `strcpy`. -/
def handle_MQTTintentRecognized (_pTopic : CString) (pData : Option CString) (w : World) :
    Except Stuck (Int × World) :=
  match pData with
  | none => .ok (-1, w.emit (.dbg_error "No MQTT data in topic."))
  | some data => do
    let text ← strcpy TOPIC_PAYLOAD_SIZE data
    let eventData : APPLICATION_EVENTDATA := { payloadPtr := none, topicPayload := text }
    let w1 ← pushEvent .EVT_MQTT_INTENT_RECOGNIZED eventData w
    pure (0, w1)

/-- The function `handle_MQTTintentNotRecognized(pTopic, pData)`, called when a message on the topic
`creoir/asr/intentNotRecognized` arrives; `pData` is `none` for `NULL`. The local `eventData` is
zero-filled, then the payload is copied into its array with `strcpy`. -/
def handle_MQTTintentNotRecognized (_pTopic : CString) (pData : Option CString) (w : World) :
    Except Stuck (Int × World) :=
  match pData with
  | none => .ok (-1, w.emit (.dbg_error "No MQTT data in topic."))
  | some data => do
    let text ← strcpy TOPIC_PAYLOAD_SIZE data
    let eventData : APPLICATION_EVENTDATA := { payloadPtr := none, topicPayload := text }
    let w1 ← pushEvent .EVT_MQTT_INTENT_NOT_RECOGNIZED eventData w
    pure (0, w1)

/-- The function `handle_MQTTuserIdentified(pTopic, pData)`, called when a message on the topic
`creoir/biometrics/identification` arrives; `pData` is `none` for `NULL`. The local `eventData` is
zero-filled, then the payload is copied into its array with `strcpy`. -/
def handle_MQTTuserIdentified (_pTopic : CString) (pData : Option CString) (w : World) :
    Except Stuck (Int × World) :=
  match pData with
  | none => .ok (-1, w.emit (.dbg_error "No MQTT data in topic."))
  | some data => do
    let text ← strcpy TOPIC_PAYLOAD_SIZE data
    let eventData : APPLICATION_EVENTDATA := { payloadPtr := none, topicPayload := text }
    let w1 ← pushEvent .EVT_MQTT_BIOM_IDENTIFICATION eventData w
    pure (0, w1)

/-- The function `handleMQTT_app_stop(pTopic, pData)`, called when a message on the topic
`creoir/app/stop` arrives; `pData` is `none` for `NULL`. The local `eventData` is
zero-filled, then the payload is copied into its array with `strcpy`. -/
def handleMQTT_app_stop (_pTopic : CString) (pData : Option CString) (w : World) :
    Except Stuck (Int × World) :=
  match pData with
  | none => .ok (-1, w.emit (.dbg_error "No MQTT data in topic."))
  | some data => do
    let text ← strcpy TOPIC_PAYLOAD_SIZE data
    let eventData : APPLICATION_EVENTDATA := { payloadPtr := none, topicPayload := text }
    let w1 ← pushEvent .EVT_APP_STOP eventData w
    pure (0, w1)

/-- The struct `mqtt_action`: an incoming topic and the function to call for it. -/
structure mqtt_action where
  topic : CString
  function : CString → Option CString → World → Except Stuck (Int × World)

/-- The table `mqttActionRegister` of actionMain.h. -/
def mqttActionRegister : List mqtt_action :=
  [⟨"creoir/asr/wakewordDetected".toList, handle_MQTTonWakeword⟩,
    ⟨"creoir/asr/intentRecognized".toList, handle_MQTTintentRecognized⟩,
    ⟨"creoir/asr/intentNotRecognized".toList, handle_MQTTintentNotRecognized⟩,
    ⟨"creoir/biometrics/identification".toList, handle_MQTTuserIdentified⟩,
    ⟨"creoir/app/stop".toList, handleMQTT_app_stop⟩]

/-- The `for` loop of `on_message` over the entries of the register that are still to be
checked: every entry whose topic matches has its function called; the value the function
returns is not used. -/
def on_message_loop : List mqtt_action → CString → Option CString → World → Except Stuck World
  | [], _, _, w => .ok w
  | a :: rest, topic, payload, w => do
    let m ← mqtt_topic_compare a.topic topic
    if m = 1 then
      let (_, w1) ← a.function topic payload w
      on_message_loop rest topic payload w1
    else on_message_loop rest topic payload w

/-- The callback `on_message` for a message with topic `topic` and payload `payload`. -/
def on_message (topic : CString) (payload : Option CString) (w : World) : Except Stuck World :=
  on_message_loop mqttActionRegister topic payload w

/-- A payload text of 10240 characters. -/
@[irreducible] def longPayload : CString := List.replicate 10240 'a'

/-- The number of times the `default` branch of the `switch` of `app_eventloop` has reported
an unknown event. -/
def unknownEvents (tr : List Effect) : Nat :=
  (tr.filter (fun e => e = .dbg_error "Unknown event received")).length

/-- The handlers never write the message of the `default` branch of the `switch`. -/
def Handlers.KeepUnknown (handlers : Handlers) : Prop :=
  ∀ c w r, handlers c w = .ok r → unknownEvents r.2.trace = unknownEvents w.trace

/-- The event kinds for which the `switch` of `app_eventloop` has no `case`. -/
def noCase (event : APPLICATION_EVENT) : Bool :=
  match event with
  | .EVT_MQTT_PING => true
  | .EVT_MQTT_PONG => true
  | _ => false

/-- A queue that holds a ping event, a pong event and the stop event. -/
def pingPongQueue : World :=
  match pushEvents [(.EVT_MQTT_PING, ⟨none, []⟩), (.EVT_MQTT_PONG, ⟨none, []⟩),
      (.EVT_APP_STOP, ⟨none, []⟩)] (main_init [] []) with
  | .ok w => w
  | .error _ => main_init [] []

/-! ## Command line (actionMain.c) -/

/-- The C string that starts at index `i` of the character array `buf`: the characters from
`i` up to the next NUL (the end of `buf` stands for the terminator of the array). -/
def cstringAt (buf : List Char) (i : Nat) : CString :=
  (buf.drop i).takeWhile (fun c => c ≠ NUL)

/-- The library call `strchr(s, c)` for a character `c` other than NUL: the index of the
first `c` in `s`, `none` (`NULL`) when `s` does not contain `c`. -/
def strchr : CString → Char → Option Nat
  | [], _ => none
  | x :: s, c => if x = c then some 0 else (strchr s c).map (fun i => i + 1)

/-- The result of `getArg`: the value returned, the array `arg` points to (`none` for a
`NULL` argument) and the two output parameters, as indices into that array (`none` when the
caller has not assigned them). -/
structure GetArgResult where
  ret : Int
  arg : Option (List Char)
  prop : Option Nat
  value : Option Nat
  deriving DecidableEq, Repr

/-- The function `getArg(arg, &prop, &value)`; `prop` and `value` are what the two output
parameters hold before the call. The statement `*q = 0` writes NUL over the first `=`. -/
def getArg (arg : Option (List Char)) (prop value : Option Nat) : GetArgResult :=
  match arg with
  | none => { ret := 1, arg := none, prop := prop, value := value }
  | some p =>
    match strchr p '=' with
    | none => { ret := 2, arg := some p, prop := prop, value := value }
    | some q => { ret := 0, arg := some (p.set q NUL), prop := some 0, value := some (q + 1) }

/-! ## Event handlers (action.c) -/

/-- The cJSON library is not part of the sources. A parsed JSON item as the handlers read
it: the members `valuestring` (`NULL` unless the item is a string) and `valueint` of the
struct `cJSON`. -/
structure cJSON where
  valuestring : Option CString
  valueint : Int
  deriving DecidableEq, Repr

/-- A parsed JSON object, given by what `cJSON_GetObjectItem(jsonAll, key)` returns for
every key (`none` is `NULL`: no such member). -/
abbrev cJSON_object := CString → Option cJSON

/-- The library call `cJSON_Parse(text)`: the parsed object, `none` (`NULL`) when the text
cannot be parsed. -/
abbrev cJSON_Parse := CString → Option cJSON_object

/-- A value put into an outgoing JSON object by `setGrammar`: a string, a number or an
array of strings. -/
inductive cJSON_value
  | string (s : CString)
  | number (n : Int)
  | stringArray (items : List CString)
  deriving DecidableEq, Repr

/-- The library call `cJSON_PrintUnformatted` on an object with the given members: the
text, `none` (`NULL`) when the text cannot be made. -/
abbrev cJSON_PrintUnformatted := List (CString × cJSON_value) → Option CString

/-- The function `action_saveTacticalSituation(iConfidence, jsonSlotArray)` called by thread
`me`; neither argument is used by the function. -/
def action_saveTacticalSituation (me : Tid) (others : Nat → Interference) (objectOk : Bool)
    (json : cJSON_compose) (_iConfidence : Int) (_jsonSlotArray : Option cJSON) (w : World) :
    Except Stuck (Int × World) :=
  if !objectOk then
    .ok (-10, w.emit (.dbg_error "action_saveTacticalSituation() Fatal error creating JSON object"))
  else
    match json [("utterance".toList, "Tactical situation dump saved.".toList)] with
    | none =>
      .ok (-10, w.emit (.dbg_error "Fatal error in creating creoir/talk/speak JSON payload"))
    | some pPayloadOut => do
      let (rc, w1) ← getMQTTsendAccess me others w
      if rc < 0 then
        pure (-100, w1.emit (.dbg_error
          "Did not get mutex lock for action_saveTacticalSituation(). Aborting MQTT publish."))
      else
        let topic ← strcpy MQTT_SEND_TOPIC_SIZE "creoir/talk/speak".toList
        let w2 : World := { w1 with pGlobalData.mqttSharedData.pTopic := topic }
        let payload ← strcpy MQTT_SEND_PAYLOAD_SIZE pPayloadOut
        let w3 : World := { w2 with pGlobalData.mqttSharedData.pPayload := payload }
        let (_, w4) ← sendMQTTtopic me w3
        pure (0, w4)

/-- The function `action_playLowConfidence` called by thread `me`. -/
def action_playLowConfidence (me : Tid) (others : Nat → Interference) (objectOk : Bool)
    (json : cJSON_compose) (w : World) : Except Stuck (Int × World) :=
  if !objectOk then
    .ok (-10, w.emit (.dbg_error "action_playLowConfidence() Fatal error creating JSON object"))
  else
    match json [("file".toList, "/usr/share/creoir/low_confidence.wav".toList)] with
    | none =>
      .ok (-10, w.emit (.dbg_error "Fatal error in creating creoir/talk/speak JSON payload"))
    | some pPayloadOut => do
      let (rc, w1) ← getMQTTsendAccess me others w
      if rc < 0 then
        pure (-100, w1.emit (.dbg_error
          "Did not get mutex lock for action_playLowConfidence(). Aborting MQTT publish."))
      else
        let topic ← strcpy MQTT_SEND_TOPIC_SIZE "creoir/talk/speak".toList
        let w2 : World := { w1 with pGlobalData.mqttSharedData.pTopic := topic }
        let payload ← strcpy MQTT_SEND_PAYLOAD_SIZE pPayloadOut
        let w3 : World := { w2 with pGlobalData.mqttSharedData.pPayload := payload }
        let (_, w4) ← sendMQTTtopic me w3
        pure (0, w4)

/-- The function `setGrammar(pGrammarName, iTimeout, pActionAfterResult)` called by thread
`me`; `print` is `cJSON_PrintUnformatted` on the object built. -/
def setGrammar (me : Tid) (others : Nat → Interference) (objectOk : Bool)
    (print : cJSON_PrintUnformatted) (pGrammarName : CString) (iTimeout : Int)
    (pActionAfterResult : CString) (w : World) : Except Stuck (Int × World) :=
  if !objectOk then
    .ok (-10, w.emit (.dbg_error "setGrammar() Fatal error creating JSON object"))
  else
    match print [("contextNames".toList, .stringArray [pGrammarName]),
        ("timeOut".toList, .number iTimeout),
        ("actionAfterResult".toList, .string pActionAfterResult)] with
    | none =>
      .ok (-10, w.emit (.dbg_error "Fatal error in creating creoir/asr/setContext JSON payload"))
    | some pPayloadOut => do
      let (rc, w1) ← getMQTTsendAccess me others w
      if rc < 0 then
        pure (-100, w1.emit (.dbg_error
          "Did not get mutex lock for setGrammar(). Aborting MQTT publish."))
      else
        let topic ← strcpy MQTT_SEND_TOPIC_SIZE "creoir/asr/setContext".toList
        let w2 : World := { w1 with pGlobalData.mqttSharedData.pTopic := topic }
        let payload ← strcpy MQTT_SEND_PAYLOAD_SIZE pPayloadOut
        let w3 : World := { w2 with pGlobalData.mqttSharedData.pPayload := payload }
        let (_, w4) ← sendMQTTtopic me w3
        pure (0, w4)

/-- The call made in a branch of the chain `if (strcmp(jsonIntent->valuestring, ...) == 0)`
of `handleEvt_intentRecognized`. -/
inductive IntentAction
  | saveTacticalSituation
  | respond (pUtterance : String)
  | nothing
  deriving DecidableEq, Repr

/-- The chain `if (strcmp(jsonIntent->valuestring, INTENT_...) == 0) ... else if ...` of
`handleEvt_intentRecognized`: the assignment to a `static` variable made in the branch for
`intent`, and the call made there. -/
def intentBranch (intent : CString) (st : IntentStatics) : IntentStatics × IntentAction :=
  if intent = "SAVE_TSP_DUMP".toList then (st, .saveTacticalSituation)
  else if intent = "SAVE_MAIN_DISPLAY_DUMP".toList then
    (st, .respond "Main display dump saved.")
  else if intent = "OPEN_OWN_SHIP_SETTINGS".toList then
    (st, .respond "Ship settings available at left side display.")
  else if intent = "DISPLAY_PATTERNS".toList then
    ({ st with patternOn := 1 }, .respond "Display patterns enabled.")
  else if intent = "HIDE_PATTERNS".toList then
    ({ st with patternOn := 0 }, .respond "Display patterns disabled.")
  else if intent = "DISPLAY_ROUTES".toList then
    ({ st with routesOn := 1 }, .respond "Routes are now visible.")
  else if intent = "HIDE_ROUTES".toList then
    ({ st with routesOn := 0 }, .respond "Routes are now hidden.")
  else if intent = "MAP_NORTH_UP".toList then
    (st, .respond "Map orientation is north up.")
  else if intent = "MAP_HEADING_UP".toList then
    (st, .respond "Map orientation is ship heading up.")
  else if intent = "MAP_TRUE_MOTION".toList then
    (st, .respond "True motion mode on map is active.")
  else if intent = "DISPLAY_MAP_RANGE_RINGS".toList then
    ({ st with rangeOn := 1 }, .respond "Map range rings enabled.")
  else if intent = "HIDE_MAP_RANGE_RINGS".toList then
    ({ st with rangeOn := 0 }, .respond "Map range rings hidden.")
  else if intent = "DISPLAY_BEARING_SCALE_RANGE".toList then
    ({ st with bearingScaleOn := 1 }, .respond "Bearing scale range enabled.")
  else if intent = "HIDE_BEARING_SCALE_RANGE".toList then
    ({ st with bearingScaleOn := 0 }, .respond "Bearing scale range hidden.")
  else if intent = "SWITCH_TO_DAY_MODE".toList then
    (st, .respond "Day mode activated.")
  else if intent = "SWITCH_TO_DUSK_MODE".toList then
    (st, .respond "Dusk mode activated.")
  else if intent = "SWITCH_TO_NIGHT_MODE".toList then
    (st, .respond "Night mode activated.")
  else if intent = "CENTRE_MAP_TO_OWN_SHIP".toList then
    (st, .respond "Map center set to ship position.")
  else if intent = "DISPLAY_TACTICAL_FIGURES".toList then
    ({ st with tacticalFigOn := 1 }, .respond "Tactical figures shown.")
  else if intent = "HIDE_TACTICAL_FIGURES".toList then
    ({ st with tacticalFigOn := 0 }, .respond "Tactical figures hidden.")
  else if intent = "REDUCE_MAP_SIZE".toList then
    (st, .respond "Changed to small map window size.")
  else if intent = "GO_TO_NORMAL_MAP_SIZE".toList then
    (st, .respond "Changed to full map window size.")
  else if intent = "SAVE_ACTIVE_WINDOW".toList then
    (st, .respond "Active window saved.")
  else if intent = "MINIMIZE_ALL_WINDOWS".toList then
    (st, .respond "All windows minimized.")
  else if intent = "DISPLAY_ALL_WINDOWS".toList then
    (st, .respond "All windows shown.")
  else if intent = "TOGGLE_PATTERNS".toList then
    if st.patternOn ≠ 0 then ({ st with patternOn := 0 }, .respond "Patterns disabled.")
    else ({ st with patternOn := 1 }, .respond "Patterns enabled.")
  else if intent = "TOGGLE_ROUTES".toList then
    if st.routesOn ≠ 0 then ({ st with routesOn := 0 }, .respond "Route display disabled.")
    else ({ st with routesOn := 1 }, .respond "Route display enabled.")
  else if intent = "TOGGLE_MAP_RANGE_RINGS".toList then
    if st.rangeOn ≠ 0 then ({ st with rangeOn := 0 }, .respond "Map range rings disabled.")
    else ({ st with rangeOn := 1 }, .respond "Map range rings enabled.")
  else if intent = "TOGGLE_BEARING_SCALE_RANGE".toList then
    if st.bearingScaleOn ≠ 0 then ({ st with bearingScaleOn := 0 }, .respond "Bearing scale range disabled.")
    else ({ st with bearingScaleOn := 1 }, .respond "Bearing scale range enabled.")
  else if intent = "TOGGLE_TACTICAL_FIGURES".toList then
    if st.tacticalFigOn ≠ 0 then ({ st with tacticalFigOn := 0 }, .respond "Tactical figures hidden.")
    else ({ st with tacticalFigOn := 1 }, .respond "Tactical figures shown.")
  else (st, .nothing)

/-- The function `handleEvt_intentRecognized(eventData)` called by thread `me`; `eventData`
is `none` for a `NULL` pointer, `parse` is `cJSON_Parse`, `st` holds the `static` variables
before the call and the result holds them after it. The string member of the intent item is
passed to `dbg_out` for `%s` and to `strcmp` without a test for `NULL`. The values returned
by the `action_` functions are not used. -/
def handleEvt_intentRecognized (me : Tid) (others : Nat → Interference) (objectOk : Bool)
    (json : cJSON_compose) (parse : cJSON_Parse) (st : IntentStatics)
    (eventData : Option APPLICATION_EVENTDATA) (w : World) :
    Except Stuck (Int × IntentStatics × World) :=
  match eventData with
  | none =>
    .ok (-1, st, w.emit (.dbg_error "handleEvt_intentRecognized() No payload. Nothing to parse!"))
  | some eventData =>
    match parse eventData.topicPayload with
    | none =>
      .ok (-2, st, w.emit (.dbg_error "handleEvt_intentRecognized() Cannot parse topic payload"))
    | some jsonAll =>
      match jsonAll "intent".toList with
      | none => .ok (-100, st, w.emit (.dbg_error "No intent in recognition result"))
      | some jsonIntent =>
        match jsonAll "confidence".toList with
        | none => .ok (-100, st, w.emit (.dbg_error "No confidence in recognition result"))
        | some jsonConfidence =>
          match jsonIntent.valuestring with
          | none => .error .undefined
          | some intent =>
            match intentBranch intent st with
            | (st1, .saveTacticalSituation) => do
              let (_, w1) ← action_saveTacticalSituation me others objectOk json
                jsonConfidence.valueint (jsonAll "slots".toList) w
              pure (0, st1, w1)
            | (st1, .respond pUtterance) => do
              let (_, w1) ← action_JustRespondSpeech me others objectOk json pUtterance.toList w
              pure (0, st1, w1)
            | (st1, .nothing) => pure (0, st1, w)

/-- The function `handleEvt_intentNotRecognized(eventData)` called by thread `me`. The
string members of the reason text and of the intent item are passed to `dbg_out` for `%s`
without a test for `NULL`. -/
def handleEvt_intentNotRecognized (me : Tid) (others : Nat → Interference) (objectOk : Bool)
    (json : cJSON_compose) (parse : cJSON_Parse) (eventData : Option APPLICATION_EVENTDATA)
    (w : World) : Except Stuck (Int × World) :=
  match eventData with
  | none =>
    .ok (-1, w.emit (.dbg_error "handleEvt_intentNotRecognized() No payload. Nothing to parse!"))
  | some eventData =>
    match parse eventData.topicPayload with
    | none =>
      .ok (-2, w.emit (.dbg_error "handleEvt_intentNotRecognized() Cannot parse topic payload"))
    | some jsonAll =>
      match jsonAll "reasonCode".toList with
      | none => .ok (-100, w.emit (.dbg_error "No reasonCode in intentNotRecognized"))
      | some jsonReasonCode =>
        match jsonAll "reasonText".toList with
        | none => .ok (-100, w.emit (.dbg_error "No reasonText in intentNotRecognized"))
        | some jsonReasonText =>
          match jsonReasonText.valuestring with
          | none => .error .undefined
          | some _ =>
            match (jsonAll "intent".toList).map (fun jsonIntent => jsonIntent.valuestring) with
            | some none => .error .undefined
            | _ =>
              if 2 = jsonReasonCode.valueint ∨ 1 = jsonReasonCode.valueint then do
                let (_, w1) ← action_playLowConfidence me others objectOk json w
                pure (0, w1)
              else pure (0, w)

/-- Size of the local array `szPrompt` of `handleEvt_MQTTuserIdentified`. -/
def PROMPT_SIZE : Nat := 512

/-- The function `handleEvt_MQTTuserIdentified(eventData)` called by thread `me`. `timeNow`
is the value that `time(NULL)` returns (seconds since the epoch), `previousSpeech` is the
value of the `static` variable of that name before the call; the result holds the value
returned, the value of `previousSpeech` after the call and the state. -/
def handleEvt_MQTTuserIdentified (me : Tid) (others : Nat → Interference) (objectOk : Bool)
    (json : cJSON_compose) (parse : cJSON_Parse) (timeNow : Int) (previousSpeech : Int)
    (eventData : Option APPLICATION_EVENTDATA) (w : World) :
    Except Stuck (Int × Int × World) :=
  match eventData with
  | none =>
    .ok (-1, previousSpeech,
      w.emit (.dbg_error "handleEvt_MQTTuserIdentified() No payload. Nothing to parse!"))
  | some eventData =>
    match parse eventData.topicPayload with
    | none =>
      .ok (-2, previousSpeech,
        w.emit (.dbg_error "handleEvt_MQTTuserIdentified() Cannot parse topic payload"))
    | some jsonAll =>
      match jsonAll "name".toList with
      | none => .ok (-100, previousSpeech, w)
      | some jsonName =>
        match jsonName.valuestring with
        | none =>
          .ok (-100, previousSpeech,
            w.emit (.dbg_error "Name is not a string in biometrics/identification"))
        | some name =>
          if timeNow - previousSpeech < 10000 then .ok (0, previousSpeech, w)
          else do
            let szPrompt ← strcpy PROMPT_SIZE
              ("Well hello my friend ".toList ++ name ++ ". How are you today?".toList)
            if !objectOk then
              pure (-10, previousSpeech, w.emit (.dbg_error
                "handleEvt_MQTTuserIdentified() Fatal error creating JSON object"))
            else
              match json [("utterance".toList, szPrompt)] with
              | none =>
                pure (-10, previousSpeech, w.emit (.dbg_error
                  "Fatal error in creating creoir/talk/speak JSON payload"))
              | some pPayloadOut => do
                let (rc, w1) ← getMQTTsendAccess me others w
                if rc < 0 then
                  pure (-100, previousSpeech, w1.emit (.dbg_error
                    ("Did not get mutex lock for handleEvt_MQTTuserIdentified(). " ++
                      "Aborting MQTT publish.")))
                else
                  let topic ← strcpy MQTT_SEND_TOPIC_SIZE "creoir/talk/speak".toList
                  let w2 : World := { w1 with pGlobalData.mqttSharedData.pTopic := topic }
                  let payload ← strcpy MQTT_SEND_PAYLOAD_SIZE pPayloadOut
                  let w3 : World := { w2 with pGlobalData.mqttSharedData.pPayload := payload }
                  let (_, w4) ← sendMQTTtopic me w3
                  pure (0, previousSpeech, w4)

/-- The function `handleEvt_onWakeword(eventData)` called by thread `me`. A `NULL` argument
is reported and the function goes on; `json` gives the text of the object with the member
`file` (`none` when `cJSON_PrintUnformatted` returns `NULL`; the result of
`cJSON_CreateObject` is not tested by the function, a failure there shows as a `NULL`
text). -/
def handleEvt_onWakeword (me : Tid) (others : Nat → Interference) (json : cJSON_compose)
    (eventData : Option APPLICATION_EVENTDATA) (w : World) : Except Stuck (Int × World) :=
  let w0 : World :=
    match eventData with
    | none => w.emit (.dbg_error "handleEvt_onWakeword() eventData null pointer error")
    | some _ => w
  match json [("file".toList, "/usr/share/creoir/wakeup.wav".toList)] with
  | none =>
    .ok (-1, w0.emit (.dbg_error "Fatal error creating payload at handleEvt_onWakeword()"))
  | some pPayload => do
    let (rc, w1) ← getMQTTsendAccess me others w0
    if rc < 0 then
      pure (-1, w1.emit (.dbg_error
        "Did not get mutex lock for handleEvt_onWakeword(). Aborting MQTT publish."))
    else
      let topic ← strcpy MQTT_SEND_TOPIC_SIZE "creoir/talk/speak".toList
      let w2 : World := { w1 with pGlobalData.mqttSharedData.pTopic := topic }
      let payload ← strcpy MQTT_SEND_PAYLOAD_SIZE pPayload
      let w3 : World := { w2 with pGlobalData.mqttSharedData.pPayload := payload }
      let (_, w4) ← sendMQTTtopic me w3
      pure (0, w4)

/-- The function `handleEvt_onStartup(eventData)` called by thread `me`. A `NULL` argument
is reported and the function goes on; `json` gives the text of the object with the member
`file` (`none` when `cJSON_PrintUnformatted` returns `NULL`; the result of
`cJSON_CreateObject` is not tested by the function, a failure there shows as a `NULL`
text). -/
def handleEvt_onStartup (me : Tid) (others : Nat → Interference) (json : cJSON_compose)
    (eventData : Option APPLICATION_EVENTDATA) (w : World) : Except Stuck (Int × World) :=
  let w0 : World :=
    match eventData with
    | none => w.emit (.dbg_error "handleEvt_onStartup() eventData null pointer error")
    | some _ => w
  match json [("file".toList, "/usr/share/creoir/startup.wav".toList)] with
  | none =>
    .ok (-1, w0.emit (.dbg_error "Fatal error creating payload at handleEvt_onStartup()"))
  | some pPayload => do
    let (rc, w1) ← getMQTTsendAccess me others w0
    if rc < 0 then
      pure (-1, w1.emit (.dbg_error
        "Did not get mutex lock for handleEvt_onStartup(). Aborting MQTT publish."))
    else
      let topic ← strcpy MQTT_SEND_TOPIC_SIZE "creoir/talk/speak".toList
      let w2 : World := { w1 with pGlobalData.mqttSharedData.pTopic := topic }
      let payload ← strcpy MQTT_SEND_PAYLOAD_SIZE pPayload
      let w3 : World := { w2 with pGlobalData.mqttSharedData.pPayload := payload }
      let (_, w4) ← sendMQTTtopic me w3
      pure (0, w4)

/-- The functions of `action.c` as `app_eventloop` calls them: every call passes the address
of the local variable `eventData` (never `NULL`) and runs in the thread `me` of the loop.
The environment is given by `others` (what the other threads do to the mailbox ahead of each
attempt of `getMQTTsendAccess`), `objectOk`, `json`, `print`, `parse` (the cJSON library)
and `clock` (the value `time(NULL)` returns in a state). The `static` variables are read
from the state and written back to it. -/
def actionHandlers (me : Tid) (others : Nat → Interference) (objectOk : Bool)
    (json : cJSON_compose) (print : cJSON_PrintUnformatted) (parse : cJSON_Parse)
    (clock : World → Int) : Handlers := fun c w =>
  match c with
  | .handleEvt_onWakeword eventData => handleEvt_onWakeword me others json (some eventData) w
  | .handleEvt_intentRecognized eventData => do
    let (ret, st, w1) ← handleEvt_intentRecognized me others objectOk json parse
      w.intentStatics (some eventData) w
    pure (ret, { w1 with intentStatics := st })
  | .handleEvt_intentNotRecognized eventData =>
    handleEvt_intentNotRecognized me others objectOk json parse (some eventData) w
  | .handleEvt_MQTTuserIdentified eventData => do
    let (ret, previousSpeech, w1) ← handleEvt_MQTTuserIdentified me others objectOk json parse
      (clock w) w.previousSpeech (some eventData) w
    pure (ret, { w1 with previousSpeech := previousSpeech })
  | .handleEvt_onStartup eventData => handleEvt_onStartup me others json (some eventData) w
  | .setGrammar pGrammarName iTimeout pActionAfterResult =>
    setGrammar me others objectOk print pGrammarName.toList iTimeout
      pActionAfterResult.toList w

/-- A stand-in for `cJSON_Parse` on the payload texts of the examples: an intent with a
confidence, an intent that is a number, a payload without intent, a payload without
confidence, payloads without reason code or reason text, and identifications with a name
that is a number or a string; every other text is taken as unparsable. -/
def cJSON_sample : cJSON_Parse := fun text =>
  if text = "\x7b\"intent\":\"DISPLAY_ROUTES\",\"confidence\":9000\x7d".toList then
    some (fun key =>
      if key = "intent".toList then some ⟨some "DISPLAY_ROUTES".toList, 0⟩
      else if key = "confidence".toList then some ⟨none, 9000⟩
      else none)
  else if text = "\x7b\"intent\":42,\"confidence\":9000\x7d".toList then
    some (fun key =>
      if key = "intent".toList then some ⟨none, 42⟩
      else if key = "confidence".toList then some ⟨none, 9000⟩
      else none)
  else if text = "\x7b\"confidence\":9000\x7d".toList then
    some (fun key => if key = "confidence".toList then some ⟨none, 9000⟩ else none)
  else if text = "\x7b\"intent\":\"DISPLAY_ROUTES\"\x7d".toList then
    some (fun key =>
      if key = "intent".toList then some ⟨some "DISPLAY_ROUTES".toList, 0⟩ else none)
  else if text = "\x7b\"reasonText\":\"noise\"\x7d".toList then
    some (fun key =>
      if key = "reasonText".toList then some ⟨some "noise".toList, 0⟩ else none)
  else if text = "\x7b\"reasonCode\":2\x7d".toList then
    some (fun key => if key = "reasonCode".toList then some ⟨none, 2⟩ else none)
  else if text = "\x7b\"name\":7\x7d".toList then
    some (fun key => if key = "name".toList then some ⟨none, 7⟩ else none)
  else if text = "\x7b\"name\":\"Ann\",\"score\":90\x7d".toList then
    some (fun key =>
      if key = "name".toList then some ⟨some "Ann".toList, 0⟩
      else if key = "score".toList then some ⟨none, 90⟩
      else none)
  else none

/-- A printer for outgoing objects whose strings need no escaping, standing for
`cJSON_PrintUnformatted`: `{"k1":"v1","k2":7,"k3":["a","b"]}`. -/
def cJSON_printPlain : cJSON_PrintUnformatted := fun members =>
  some ("\x7b".toList ++
    ",".toList.intercalate
      (members.map (fun kv => "\"".toList ++ kv.1 ++ "\":".toList ++
        (match kv.2 with
          | .string s => "\"".toList ++ s ++ "\"".toList
          | .number n => (toString n).toList
          | .stringArray items =>
            "[".toList ++ ",".toList.intercalate
              (items.map (fun s => "\"".toList ++ s ++ "\"".toList)) ++ "]".toList))) ++
    "\x7d".toList)

/-- The state in which `getMQTTsendAccess`, called by producer 0, has given up on the
blocked mailbox `senderBlocked`. -/
def accessDenied : World :=
  match getMQTTsendAccess (.producer 0) (fun _ m => m) senderBlocked with
  | .ok r => r.2
  | .error _ => senderBlocked

/-- The payload of an identification event with the name Ann. -/
def identificationAnn : APPLICATION_EVENTDATA :=
  ⟨none, "\x7b\"name\":\"Ann\",\"score\":90\x7d".toList⟩

/-- Two identification events for Ann handled one after the other from the state after
`main_init`, the first when `time(NULL)` returns `t1` and the second when it returns `t2`.
The `static` variable `previousSpeech` starts at 0 and the second call gets the value the
first call leaves. The sender thread makes one pass after each call. The result holds the
two values returned, the value of `previousSpeech` at the end, and the state. -/
def twoIdentifications (t1 t2 : Int) : Except Stuck ((Int × Int) × Int × World) := do
  let (r1, p1, w1) ← handleEvt_MQTTuserIdentified (.producer 0) (fun _ m => m) true
    cJSON_plain cJSON_sample t1 0 (some identificationAnn) (main_init [] [])
  let w2 ← mqtt_sender_iteration (fun m => m) MOSQ_ERR_SUCCESS w1
  let (r2, p2, w3) ← handleEvt_MQTTuserIdentified (.producer 0) (fun _ m => m) true
    cJSON_plain cJSON_sample t2 p1 (some identificationAnn) w2
  let w4 ← mqtt_sender_iteration (fun m => m) MOSQ_ERR_SUCCESS w3
  pure ((r1, r2), p2, w4)

/-- The sender thread has published what was pending and cleared the mailbox ahead of every
attempt of `getMQTTsendAccess`. -/
def senderClears : Nat → Interference := fun _ m => { m with dataSent := 1 }

/-- The functions of `action.c` called from the dispatcher thread, next to a sender thread
that keeps up (`senderClears`), with cJSON calls that succeed, the sample parser and the
clock at 1700000000. -/
def dispatcherHandlers : Handlers :=
  actionHandlers (.producer 0) senderClears true cJSON_plain cJSON_printPlain cJSON_sample
    (fun _ => 1700000000)

/-- A recognised intent whose member `intent` is the number 42, and the stop event. -/
def intentNumber : List Event :=
  [(.EVT_MQTT_INTENT_RECOGNIZED, ⟨none, "\x7b\"intent\":42,\"confidence\":9000\x7d".toList⟩),
    (.EVT_APP_STOP, ⟨none, []⟩)]

/-- The state after the events `intentNumber` have been pushed onto the queue left by
`main`. -/
def intentNumber_queue : World :=
  match pushEvents intentNumber (main_init [] []) with
  | .ok w => w
  | .error _ => main_init [] []

/-- A queue that holds a key press of `w`, a ping event and the stop event. -/
def keypressQueue : World :=
  match pushEvents [(.EVT_KEYPRESS, ⟨none, "w".toList⟩), (.EVT_MQTT_PING, ⟨none, []⟩),
      (.EVT_APP_STOP, ⟨none, []⟩)] (main_init [] []) with
  | .ok w => w
  | .error _ => main_init [] []

/-! # Theorems -/

/-! ## Heap cells -/

theorem cell_lt {heap : List (Option EVENTNODE_T)} {a : Nat} {n : EVENTNODE_T}
    (h : cell heap a = some n) : a < heap.length := by
  unfold cell at h
  by_contra hc
  rw [List.getD_eq_default _ _ (by omega)] at h
  cases h

theorem cell_append_left (heap : List (Option EVENTNODE_T)) (x : Option EVENTNODE_T) {a : Nat}
    (h : a < heap.length) : cell (heap ++ [x]) a = cell heap a := by
  unfold cell
  rw [List.getD_append _ _ _ _ h]

theorem cell_append_length (heap : List (Option EVENTNODE_T)) (x : Option EVENTNODE_T) :
    cell (heap ++ [x]) heap.length = x := by
  unfold cell
  simp [List.getD_eq_getElem?_getD]

theorem cell_set_self (heap : List (Option EVENTNODE_T)) (x : Option EVENTNODE_T) {a : Nat}
    (h : a < heap.length) : cell (heap.set a x) a = x := by
  unfold cell
  simp [List.getD_eq_getElem?_getD, h]

theorem cell_set_ne (heap : List (Option EVENTNODE_T)) (x : Option EVENTNODE_T) {a b : Nat}
    (h : a ≠ b) : cell (heap.set a x) b = cell heap b := by
  unfold cell
  simp [List.getD_eq_getElem?_getD, List.getElem?_set_ne h]

/-! ## Chains -/

theorem chain_length {heap : List (Option EVENTNODE_T)} :
    ∀ {as : List Nat} {L : List Event} {p : Option Nat}, Chain heap p as L →
      as.length = L.length
  | [], [], _, _ => rfl
  | [], _ :: _, _, h => by simp [Chain] at h
  | _ :: _, [], _, h => by simp [Chain] at h
  | _ :: as, _ :: L, _, h => by
    obtain ⟨_, nxt, _, hc⟩ := h
    simp [chain_length hc]

theorem chain_lt {heap : List (Option EVENTNODE_T)} :
    ∀ {as : List Nat} {L : List Event} {p : Option Nat}, Chain heap p as L →
      ∀ a ∈ as, a < heap.length
  | [], _, _, _ => by simp
  | _ :: _, [], _, h => by simp [Chain] at h
  | b :: as, _ :: L, _, h => by
    obtain ⟨_, nxt, hb, hc⟩ := h
    intro a ha
    rcases List.mem_cons.1 ha with rfl | ha
    · exact cell_lt hb
    · exact chain_lt hc a ha

theorem chain_head_none {heap : List (Option EVENTNODE_T)} {as : List Nat} {L : List Event}
    (h : Chain heap none as L) : as = [] ∧ L = [] := by
  cases as <;> cases L <;> simp [Chain] at h ⊢

theorem chain_head_some {heap : List (Option EVENTNODE_T)} {as : List Nat} {L : List Event}
    {a : Nat} (h : Chain heap (some a) as L) :
    ∃ as1 e L1 nxt, as = a :: as1 ∧ L = e :: L1 ∧ cell heap a = some ⟨e.1, e.2, nxt⟩ ∧
      Chain heap nxt as1 L1 := by
  cases as <;> cases L <;> simp [Chain] at h
  obtain ⟨rfl, nxt, h1, h2⟩ := h
  exact ⟨_, _, _, nxt, rfl, rfl, h1, h2⟩

/-- Cells outside the chain may change. -/
theorem chain_congr {heap heap1 : List (Option EVENTNODE_T)} :
    ∀ {as : List Nat} {L : List Event} {p : Option Nat}, Chain heap p as L →
      (∀ a ∈ as, cell heap1 a = cell heap a) → Chain heap1 p as L
  | [], [], _, h, _ => h
  | [], _ :: _, _, h, _ => by simp [Chain] at h
  | _ :: _, [], _, h, _ => by simp [Chain] at h
  | b :: as, _ :: L, _, h, hs => by
    obtain ⟨hp, nxt, hb, hc⟩ := h
    refine ⟨hp, nxt, ?_, chain_congr hc (fun a ha => hs a (List.mem_cons_of_mem _ ha))⟩
    rw [hs b (List.mem_cons_self _ _)]
    exact hb

/-- Appending a node: the last node of the chain gets the new node as successor. -/
theorem chain_snoc {heap heap1 : List (Option EVENTNODE_T)} {new : Nat} {e : Event} :
    ∀ {as : List Nat} {L : List Event} {p : Option Nat} (t : Nat), Chain heap p as L →
      (t :: as).getLast? = some t → as ≠ [] → (as ++ [new]).Nodup →
      (∀ a ∈ as, a ≠ t → cell heap1 a = cell heap a) →
      (∀ n, cell heap t = some n → cell heap1 t = some { n with next := some new }) →
      cell heap1 new = some ⟨e.1, e.2, none⟩ →
      Chain heap1 p (as ++ [new]) (L ++ [e])
  | [], _, _, _, _, _, h, _, _, _, _ => absurd rfl h
  | _ :: _, [], _, _, h, _, _, _, _, _, _ => by simp [Chain] at h
  | [b], [e0], _, t, h, ht, _, _, _, hlast, hnew => by
    obtain ⟨hp, nxt, hb, hc⟩ := h
    simp [Chain] at hc
    simp at ht
    subst hc ht
    exact ⟨hp, some new, hlast _ hb, rfl, none, hnew, rfl⟩
  | [_], _ :: _ :: _, _, _, h, _, _, _, _, _, _ => by
    obtain ⟨_, _, _, hc⟩ := h
    simp [Chain] at hc
  | b :: c :: as, e0 :: L, _, t, h, ht, _, hnd, hother, hlast, hnew => by
    obtain ⟨hp, nxt, hb, hc⟩ := h
    have ht1 : (t :: c :: as).getLast? = some t := by
      simpa [List.getLast?_cons_cons] using ht
    have htmem : t ∈ c :: as := by
      have := List.mem_of_getLast?_eq_some (show (c :: as).getLast? = some t by
        simpa [List.getLast?_cons_cons] using ht)
      exact this
    have hbt : b ≠ t := by
      intro hbt
      subst hbt
      simp only [List.cons_append, List.nodup_cons] at hnd
      exact hnd.1 (List.mem_append_left _ htmem)
    refine ⟨hp, nxt, ?_, ?_⟩
    · rw [hother b (List.mem_cons_self _ _) hbt]
      exact hb
    · exact chain_snoc t hc ht1 (by simp) (List.Nodup.of_cons hnd)
        (fun a ha hat => hother a (List.mem_cons_of_mem _ ha) hat) hlast hnew

/-! ## Queue operations on well-formed states -/

theorem queueHolds_nil_iff (w : World) : QueueHolds w [] [] ↔ QueueEmpty w := by
  simp [QueueHolds, QueueEmpty, Chain]

/-- What `pushEvent` does to a well-formed queue. -/
theorem pushEvent_holds {w : World} {as : List Nat} {L : List Event} (e : Event)
    (hq : QueueHolds w as L) (he : e.2.topicPayload.length < TOPIC_PAYLOAD_SIZE) :
    ∃ w1, pushEvent e.1 e.2 w = .ok w1 ∧ QueueHolds w1 (as ++ [w.heap.length]) (L ++ [e]) ∧
      w1.pGlobalData.eventListTail = some w.heap.length ∧
      w1.pGlobalData.appExit = w.pGlobalData.appExit ∧
      w1.pGlobalData.mqttSharedData = w.pGlobalData.mqttSharedData ∧
      w1.pGlobalData.mqttSendMutex = w.pGlobalData.mqttSendMutex ∧
      w1.pGlobalData.mutexError = w.pGlobalData.mutexError ∧ w1.trace = w.trace := by
  obtain ⟨hc, hnd, htail, hsem, hfit⟩ := hq
  have hlen := chain_length hc
  have hlt := chain_lt hc
  have hfit1 : ∀ x ∈ L ++ [e], x.2.topicPayload.length < TOPIC_PAYLOAD_SIZE := by
    intro x hx
    rcases List.mem_append.1 hx with hx | hx
    · exact hfit x hx
    · simp at hx
      subst hx
      exact he
  have hnew : w.heap.length ∉ as := fun hm => Nat.lt_irrefl _ (hlt _ hm)
  have hnd1 : (as ++ [w.heap.length]).Nodup := by
    rw [List.nodup_append]
    refine ⟨hnd, by simp, ?_⟩
    intro a ha hb
    simp at hb
    subst hb
    exact hnew ha
  rcases List.eq_nil_or_concat as with has | ⟨as0, t, has⟩
  · -- empty queue
    subst has
    have hL : L = [] := by
      cases L
      · rfl
      · simp at hlen
    subst hL
    simp only [Chain] at hc
    simp only [List.getLast?_nil] at htail
    have hpush : pushEvent e.1 e.2 w = .ok
        { w with
            heap := w.heap ++ [some (EVENTNODE_T.mk e.1 e.2 none)]
            pGlobalData := { w.pGlobalData with
              eventListHead := some w.heap.length
              eventListTail := some w.heap.length
              eventSemap := w.pGlobalData.eventSemap + 1 } } := by
      simp [pushEvent, strcpy, he, hc, htail, bind, Except.bind, pure, Except.pure,
        mt_semaphore_release]
    refine ⟨_, hpush, ?_⟩
    simp [QueueHolds, Chain, cell_append_length, hsem, he]
  · -- non-empty queue: the tail node is live
    have htail1 : w.pGlobalData.eventListTail = some t := by
      rw [htail, has]
      simp
    have htmem : t ∈ as := by
      rw [has]
      simp
    obtain ⟨a0, hhead⟩ : ∃ a0, w.pGlobalData.eventListHead = some a0 := by
      cases hh : w.pGlobalData.eventListHead with
      | none =>
        rw [hh] at hc
        have := (chain_head_none hc).1
        rw [this] at htmem
        simp at htmem
      | some a0 => exact ⟨a0, rfl⟩
    have htlt : t < w.heap.length := hlt t htmem
    obtain ⟨last, hlast⟩ : ∃ last, cell w.heap t = some last := by
      have : ∀ {as : List Nat} {L : List Event} {p : Option Nat}, Chain w.heap p as L →
          t ∈ as → ∃ last, cell w.heap t = some last := by
        intro as
        induction as with
        | nil => intro L p _ hm; simp at hm
        | cons b as ih =>
          intro L p hch hm
          cases L with
          | nil => simp [Chain] at hch
          | cons e0 L =>
            obtain ⟨_, nxt, hb, hch1⟩ := hch
            rcases List.mem_cons.1 hm with rfl | hm
            · exact ⟨_, hb⟩
            · exact ih hch1 hm
      exact this hc htmem
    have hlast1 : cell (w.heap ++ [some
        { eventType := e.1
          eventData := { payloadPtr := e.2.payloadPtr, topicPayload := e.2.topicPayload }
          next := none }]) t = some last := by
      rw [cell_append_left _ _ htlt]
      exact hlast
    have hpush : pushEvent e.1 e.2 w = .ok
        { w with
            heap := (w.heap ++ [some (EVENTNODE_T.mk e.1 e.2 none)]).set t
              (some { last with next := some w.heap.length })
            pGlobalData := { w.pGlobalData with
              eventListTail := some w.heap.length
              eventSemap := w.pGlobalData.eventSemap + 1 } } := by
      simp [pushEvent, strcpy, he, hhead, htail1, World.node, hlast1, bind, Except.bind, pure,
        Except.pure, mt_semaphore_release]
    refine ⟨_, hpush, ?_⟩
    · refine ⟨⟨?_, hnd1, by simp, by simp [hsem], hfit1⟩, rfl, rfl, rfl, rfl, rfl, rfl⟩
      have hne : as ≠ [] := by
        rw [has]
        simp
      have hgl : (t :: as).getLast? = some t := by
        rw [has, List.concat_eq_append, ← List.cons_append, List.getLast?_append]
        simp
      refine chain_snoc t hc hgl hne hnd1 ?_ ?_ ?_
      · intro a ha hat
        rw [cell_set_ne _ _ (Ne.symm hat), cell_append_left _ _ (hlt a ha)]
      · intro n hn
        rw [hlast] at hn
        cases hn
        rw [cell_set_self _ _ (by simp; omega)]
      · rw [cell_set_ne _ _ (by omega), cell_append_length]

/-- What `popEvent` does to a well-formed queue that holds an event. -/
theorem popEvent_holds {w : World} {a : Nat} {as : List Nat} {e : Event} {L : List Event}
    (event : APPLICATION_EVENT) (eventData : APPLICATION_EVENTDATA)
    (hq : QueueHolds w (a :: as) (e :: L)) :
    ∃ w1, popEvent event eventData w = .ok (e.1, e.2, w1) ∧ QueueHolds w1 as L ∧
      w1.pGlobalData.appExit = w.pGlobalData.appExit ∧
      w1.pGlobalData.mqttSharedData = w.pGlobalData.mqttSharedData ∧
      w1.pGlobalData.mqttSendMutex = w.pGlobalData.mqttSendMutex ∧
      w1.pGlobalData.mutexError = w.pGlobalData.mutexError ∧ w1.trace = w.trace := by
  obtain ⟨hc, hnd, htail, hsem, hfit⟩ := hq
  obtain ⟨hhead, nxt, ha, hc1⟩ := hc
  have he : e.2.topicPayload.length < TOPIC_PAYLOAD_SIZE := hfit e (List.mem_cons_self _ _)
  have hsem0 : w.pGlobalData.eventSemap ≠ 0 := by
    rw [hsem]
    simp
  have hpop : popEvent event eventData w = .ok (e.1, e.2,
      { w with
          heap := w.heap.set a none
          pGlobalData := { w.pGlobalData with
            eventListHead := nxt
            eventListTail := if nxt = none then none else w.pGlobalData.eventListTail
            eventSemap := w.pGlobalData.eventSemap - 1 } }) := by
    simp [popEvent, mt_semaphore_acquire, hsem0, hhead, World.node, ha, strcpy, he, bind,
      Except.bind, pure, Except.pure]
    split <;> simp_all
  refine ⟨_, hpop, ⟨?_, (List.nodup_cons.1 hnd).2, ?_, by simp [hsem], ?_⟩, rfl, rfl, rfl, rfl,
    rfl⟩
  · exact chain_congr hc1 (fun b hb => cell_set_ne _ _ (fun h => (List.nodup_cons.1 hnd).1 (h ▸ hb)))
  · cases nxt with
    | none =>
      have := (chain_head_none hc1).1
      simp [this]
    | some b =>
      obtain ⟨as1, _, _, _, has, _, _, _⟩ := chain_head_some hc1
      subst has
      simp [htail, List.getLast?_cons_cons]
  · exact fun x hx => hfit x (List.mem_cons_of_mem _ hx)

/-- Pushing a list of events onto a well-formed queue appends them in order. -/
theorem pushEvents_holds : ∀ (es : List Event) {w : World} {as : List Nat} {L : List Event},
    QueueHolds w as L → (∀ e ∈ es, e.2.topicPayload.length < TOPIC_PAYLOAD_SIZE) →
    ∃ w1 as1, pushEvents es w = .ok w1 ∧ QueueHolds w1 (as ++ as1) (L ++ es) ∧
      w1.pGlobalData.appExit = w.pGlobalData.appExit ∧
      w1.pGlobalData.mqttSharedData = w.pGlobalData.mqttSharedData ∧
      w1.pGlobalData.mqttSendMutex = w.pGlobalData.mqttSendMutex ∧
      w1.pGlobalData.mutexError = w.pGlobalData.mutexError ∧ w1.trace = w.trace
  | [], w, as, L, hq, _ => ⟨w, [], rfl, by simpa using hq, rfl, rfl, rfl, rfl, rfl⟩
  | e :: es, w, as, L, hq, hfit => by
    obtain ⟨w1, hpush, hq1, _, h1, h2, h3, h4, h5⟩ :=
      pushEvent_holds e hq (hfit e (List.mem_cons_self _ _))
    obtain ⟨w2, as2, hrest, hq2, g1, g2, g3, g4, g5⟩ :=
      pushEvents_holds es hq1 (fun x hx => hfit x (List.mem_cons_of_mem _ hx))
    refine ⟨w2, w.heap.length :: as2, ?_, by simpa using hq2, g1.trans h1, g2.trans h2,
      g3.trans h3, g4.trans h4, g5.trans h5⟩
    simp [pushEvents, hpush, hrest, bind, Except.bind]

/-- Popping as many events as a well-formed queue holds returns them in order and leaves
the queue empty. -/
theorem popEvents_holds : ∀ {as : List Nat} {L : List Event} {w : World}
    (event : APPLICATION_EVENT) (eventData : APPLICATION_EVENTDATA), QueueHolds w as L →
    ∃ w1, popEvents L.length event eventData w = .ok (L, w1) ∧ QueueEmpty w1 ∧
      w1.pGlobalData.appExit = w.pGlobalData.appExit ∧
      w1.pGlobalData.mqttSharedData = w.pGlobalData.mqttSharedData ∧
      w1.pGlobalData.mqttSendMutex = w.pGlobalData.mqttSendMutex ∧
      w1.pGlobalData.mutexError = w.pGlobalData.mutexError ∧ w1.trace = w.trace
  | [], [], w, _, _, hq => ⟨w, rfl, (queueHolds_nil_iff w).1 hq, rfl, rfl, rfl, rfl, rfl⟩
  | [], _ :: _, _, _, _, hq => by
    have := chain_length hq.1
    simp at this
  | _ :: _, [], _, _, _, hq => by
    have := chain_length hq.1
    simp at this
  | a :: as, e :: L, w, event, eventData, hq => by
    obtain ⟨w1, hpop, hq1, h1, h2, h3, h4, h5⟩ := popEvent_holds event eventData hq
    obtain ⟨w2, hrest, hq2, g1, g2, g3, g4, g5⟩ := popEvents_holds e.1 e.2 hq1
    refine ⟨w2, ?_, hq2, g1.trans h1, g2.trans h2, g3.trans h3, g4.trans h4, g5.trans h5⟩
    simp [popEvents, hpop, hrest, bind, Except.bind, pure, Except.pure]

/-! ## C1: FIFO order -/

/-- C1. FIFO: when the events `es` (payload texts that fit the event array) are pushed with
`pushEvent` onto an empty queue, every push succeeds, and `es.length` successive calls of
`popEvent` then return exactly `es` in push order (kind, payload text and heap pointer) and
leave the queue empty: head and tail `NULL`, wait-count zero. -/
theorem C1_fifo (es : List Event) (w : World) (event : APPLICATION_EVENT)
    (eventData : APPLICATION_EVENTDATA) (hempty : QueueEmpty w)
    (hfit : ∀ e ∈ es, e.2.topicPayload.length < TOPIC_PAYLOAD_SIZE) :
    ∃ w1 w2, pushEvents es w = .ok w1 ∧
      popEvents es.length event eventData w1 = .ok (es, w2) ∧
      w2.pGlobalData.eventListHead = none ∧ w2.pGlobalData.eventListTail = none ∧
      w2.pGlobalData.eventSemap = 0 := by
  obtain ⟨w1, as1, hpush, hq1, _⟩ :=
    pushEvents_holds es ((queueHolds_nil_iff w).2 hempty) hfit
  simp only [List.nil_append] at hq1
  obtain ⟨w2, hpop, hq2, _⟩ := popEvents_holds event eventData hq1
  exact ⟨w1, w2, hpush, hpop, hq2.1, hq2.2.1, hq2.2.2⟩

/-- C1 at the events Startup, Wakeword "hey", Stop pushed onto the queue left by `main`. -/
theorem C1_fifo_witness :
    QueueEmpty (main_init [] []) ∧
    (∀ e ∈ ([(.EVT_STARTUP, ⟨none, []⟩), (.EVT_MQTT_WAKEWORD, ⟨some 7, "hey".toList⟩),
      (.EVT_APP_STOP, ⟨none, []⟩)] : List Event), e.2.topicPayload.length < TOPIC_PAYLOAD_SIZE) ∧
    ∃ w1 w2,
      pushEvents [(.EVT_STARTUP, ⟨none, []⟩), (.EVT_MQTT_WAKEWORD, ⟨some 7, "hey".toList⟩),
        (.EVT_APP_STOP, ⟨none, []⟩)] (main_init [] []) = .ok w1 ∧
      popEvents 3 .EVT_MQTT_PING ⟨none, []⟩ w1 =
        .ok ([(.EVT_STARTUP, ⟨none, []⟩), (.EVT_MQTT_WAKEWORD, ⟨some 7, "hey".toList⟩),
          (.EVT_APP_STOP, ⟨none, []⟩)], w2) ∧
      w2.pGlobalData.eventListHead = none ∧ w2.pGlobalData.eventListTail = none ∧
      w2.pGlobalData.eventSemap = 0 :=
  ⟨by decide, by decide,
    C1_fifo [(.EVT_STARTUP, ⟨none, []⟩), (.EVT_MQTT_WAKEWORD, ⟨some 7, "hey".toList⟩),
      (.EVT_APP_STOP, ⟨none, []⟩)] (main_init [] []) .EVT_MQTT_PING ⟨none, []⟩ (by decide)
      (by decide)⟩

/-! ## Traces -/

@[simp] theorem emit_trace (w : World) (e : Effect) : (w.emit e).trace = w.trace ++ [e] := rfl

@[simp] theorem emit_pGlobalData (w : World) (e : Effect) :
    (w.emit e).pGlobalData = w.pGlobalData := rfl

@[simp] theorem emit_heap (w : World) (e : Effect) : (w.emit e).heap = w.heap := rfl

@[simp] theorem locked_pGlobalData (w : World) (t : Tid) :
    (w.locked t).pGlobalData = { w.pGlobalData with mqttSendMutex := some t } := rfl

@[simp] theorem locked_trace (w : World) (t : Tid) :
    (w.locked t).trace = w.trace ++ [.mutex_lock t] := rfl

@[simp] theorem locked_heap (w : World) (t : Tid) : (w.locked t).heap = w.heap := rfl

@[simp] theorem unlocked_pGlobalData (w : World) (t : Tid) :
    (w.unlocked t).pGlobalData = { w.pGlobalData with mqttSendMutex := none } := rfl

@[simp] theorem unlocked_trace (w : World) (t : Tid) :
    (w.unlocked t).trace = w.trace ++ [.mutex_unlock t] := rfl

@[simp] theorem unlocked_heap (w : World) (t : Tid) : (w.unlocked t).heap = w.heap := rfl

@[simp] theorem interfere_pGlobalData (w : World) (others : Interference) :
    (w.interfere others).pGlobalData =
      { w.pGlobalData with mqttSharedData := others w.pGlobalData.mqttSharedData } := rfl

@[simp] theorem interfere_trace (w : World) (others : Interference) :
    (w.interfere others).trace = w.trace := rfl

@[simp] theorem interfere_heap (w : World) (others : Interference) :
    (w.interfere others).heap = w.heap := rfl

@[simp] theorem wakeMQTTsender_pGlobalData (w : World) :
    (wakeMQTTsender w).pGlobalData = w.pGlobalData := rfl

@[simp] theorem wakeMQTTsender_trace (w : World) :
    (wakeMQTTsender w).trace = w.trace ++ [.cond_signal] := rfl

@[simp] theorem wakeMQTTsender_heap (w : World) : (wakeMQTTsender w).heap = w.heap := rfl

@[simp] theorem publish_pGlobalData (w : World) (iRet : Int) :
    (w.publish iRet).pGlobalData = w.pGlobalData := by
  unfold World.publish
  split <;> rfl

@[simp] theorem publish_heap (w : World) (iRet : Int) : (w.publish iRet).heap = w.heap := by
  unfold World.publish
  split <;> rfl


theorem sleeps_append (a b : List Effect) : sleeps (a ++ b) = sleeps a ++ sleeps b := by
  induction a with
  | nil => rfl
  | cons e a ih => cases e <;> simp [sleeps, ih]

theorem publishes_append (a b : List Effect) :
    publishes (a ++ b) = publishes a ++ publishes b := by
  induction a with
  | nil => rfl
  | cons e a ih => cases e <;> simp [publishes, ih]

theorem signals_append (a b : List Effect) : signals (a ++ b) = signals a + signals b := by
  simp [signals]

theorem locks_append (t : Tid) (a b : List Effect) : locks t (a ++ b) = locks t a + locks t b := by
  simp [locks]

theorem publishes_publish (w : World) (iRet : Int) :
    publishes (w.publish iRet).trace = publishes w.trace ++
      [(w.pGlobalData.mqttSharedData.pTopic, w.pGlobalData.mqttSharedData.pPayload)] := by
  unfold World.publish
  split <;> simp [publishes_append, publishes]

theorem signals_publish (w : World) (iRet : Int) :
    signals (w.publish iRet).trace = signals w.trace := by
  unfold World.publish
  split <;> simp [signals_append, signals]

theorem seen_id (k n : Nat) (m : mqtt_Data_type) : seen (fun _ x => x) k n m = m := by
  induction n generalizing k with
  | zero => rfl
  | succ n ih => simp [seen, ih]

/-! ## getMQTTsendAccess -/

/-- The loop of `getMQTTsendAccess` when every remaining attempt finds `dataSent` different
from 1: all `i` attempts are made, each followed by one sleep, and the function fails. -/
theorem getMQTTsendAccess_loop_fail (me : Tid) (others : Nat → Interference) :
    ∀ (i k : Nat) (w : World), w.pGlobalData.mqttSendMutex ≠ some me →
      w.pGlobalData.mutexError < INT_MAX →
      (∀ j, 1 ≤ j → j ≤ i → (seen others k j w.pGlobalData.mqttSharedData).dataSent ≠ 1) →
      ∃ w1, getMQTTsendAccess_loop me others i k w = .ok (-1, w1) ∧
        w1.pGlobalData.mqttSharedData = seen others k i w.pGlobalData.mqttSharedData ∧
        w1.pGlobalData.mutexError = w.pGlobalData.mutexError + 1 ∧
        w1.pGlobalData.mqttSendMutex ≠ some me ∧
        locks me w1.trace = locks me w.trace + i ∧
        sleeps w1.trace = sleeps w.trace ++ List.replicate i 100000 ∧
        signals w1.trace = signals w.trace ∧ publishes w1.trace = publishes w.trace
  | 0, k, w, hme, hmax, _ => by
    refine ⟨({ w with pGlobalData.mutexError := w.pGlobalData.mutexError + 1 } : World).emit
      (.dbg_error "getMQTTsendAccess FAILED to get mutex lock"), ?_, rfl, rfl, hme, ?_, ?_, ?_,
      ?_⟩
    · simp [getMQTTsendAccess_loop, countMutexError, hmax, bind, Except.bind, pure, Except.pure]
    · simp [locks_append, locks]
    · simp [sleeps_append, sleeps]
    · simp [signals_append, signals]
    · simp [publishes_append, publishes]
  | i + 1, k, w, hme, hmax, hobs => by
    have h1 : (others k w.pGlobalData.mqttSharedData).dataSent ≠ 1 := hobs 1 (by omega) (by omega)
    have ih := getMQTTsendAccess_loop_fail me others i (k + 1)
      ((((w.interfere (others k)).locked me).unlocked me).emit (.usleep 100000))
      (by simp) (by simpa using hmax)
      (by
        intro j hj1 hji
        have := hobs (j + 1) (by omega) (by omega)
        simpa [seen] using this)
    obtain ⟨w1, hrun, hm, herr, hmu, hl, hs, hsig, hpub⟩ := ih
    refine ⟨w1, ?_, ?_, ?_, hmu, ?_, ?_, ?_, ?_⟩
    · rw [← hrun]
      simp [getMQTTsendAccess_loop, request_mutex_lock, release_mutex_lock, hme,
        h1, bind, Except.bind, pure, Except.pure]
    · simpa [seen] using hm
    · simpa using herr
    · rw [hl]
      simp [locks_append, locks]
      omega
    · rw [hs]
      simp [sleeps_append, sleeps, List.replicate_succ]
    · rw [hsig]
      simp [signals_append, signals]
    · rw [hpub]
      simp [publishes_append, publishes]

/-- The loop of `getMQTTsendAccess` when attempt `n` (counted from 1) is the first that finds
`dataSent == 1`: the function returns 0 owning the mutex after `n - 1` sleeps. -/
theorem getMQTTsendAccess_loop_ok (me : Tid) (others : Nat → Interference) :
    ∀ (n i k : Nat) (w : World), 1 ≤ n → n ≤ i → w.pGlobalData.mqttSendMutex ≠ some me →
      (∀ j, 1 ≤ j → j < n → (seen others k j w.pGlobalData.mqttSharedData).dataSent ≠ 1) →
      (seen others k n w.pGlobalData.mqttSharedData).dataSent = 1 →
      ∃ w1, getMQTTsendAccess_loop me others i k w = .ok (0, w1) ∧
        w1.pGlobalData.mqttSharedData = seen others k n w.pGlobalData.mqttSharedData ∧
        w1.pGlobalData.mutexError = w.pGlobalData.mutexError ∧
        w1.pGlobalData.mqttSendMutex = some me ∧
        locks me w1.trace = locks me w.trace + n ∧
        sleeps w1.trace = sleeps w.trace ++ List.replicate (n - 1) 100000 ∧
        signals w1.trace = signals w.trace ∧ publishes w1.trace = publishes w.trace
  | 0, _, _, _, h, _, _, _, _ => absurd h (by omega)
  | _ + 1, 0, _, _, _, h, _, _, _ => absurd h (by omega)
  | 1, i + 1, k, w, _, _, hme, _, hhit => by
    have h1 : (others k w.pGlobalData.mqttSharedData).dataSent = 1 := by
      simpa [seen] using hhit
    refine ⟨(w.interfere (others k)).locked me, ?_, ?_, ?_, ?_, ?_, ?_, ?_, ?_⟩
    · simp [getMQTTsendAccess_loop, request_mutex_lock, hme, h1, bind,
        Except.bind, pure, Except.pure]
    · simp [seen]
    · simp
    · simp
    · simp [locks_append, locks]
    · simp [sleeps_append, sleeps]
    · simp [signals_append, signals]
    · simp [publishes_append, publishes]
  | n + 2, i + 1, k, w, _, hni, hme, hobs, hhit => by
    have h1 : (others k w.pGlobalData.mqttSharedData).dataSent ≠ 1 := by
      have := hobs 1 (by omega) (by omega)
      simpa [seen] using this
    have ih := getMQTTsendAccess_loop_ok me others (n + 1) i (k + 1)
      ((((w.interfere (others k)).locked me).unlocked me).emit (.usleep 100000))
      (by omega) (by omega) (by simp)
      (by
        intro j hj1 hjn
        have := hobs (j + 1) (by omega) (by omega)
        simpa [seen] using this)
      (by simpa [seen] using hhit)
    obtain ⟨w1, hrun, hm, herr, hmu, hl, hs, hsig, hpub⟩ := ih
    refine ⟨w1, ?_, ?_, ?_, hmu, ?_, ?_, ?_, ?_⟩
    · rw [← hrun]
      simp [getMQTTsendAccess_loop, request_mutex_lock, release_mutex_lock, hme,
        h1, bind, Except.bind, pure, Except.pure]
    · simpa [seen] using hm
    · simpa using herr
    · rw [hl]
      simp [locks_append, locks]
      omega
    · rw [hs]
      simp [sleeps_append, sleeps, List.replicate_succ]
    · rw [hsig]
      simp [signals_append, signals]
    · rw [hpub]
      simp [publishes_append, publishes]

/-! ## C3: retry ceiling -/

/-- C3. Retry ceiling: when thread `me` (not owning the mutex, `mutexError` below `INT_MAX`)
calls `getMQTTsendAccess` and each of the 100 attempts finds `dataSent == 0`, the call
returns -1 after exactly 100
lock-and-check attempts and exactly 100 sleeps of 100000 microseconds (10000 ms in all), adds
exactly 1 to `mutexError`, does not own the mutex on return, and writes nothing to the
mailbox: topic, payload and `dataSent` are as the other threads left them, unchanged when
the other threads do not touch the mailbox. -/
theorem C3_retry_ceiling (me : Tid) (others : Nat → Interference) (w : World)
    (hme : w.pGlobalData.mqttSendMutex ≠ some me)
    (hmax : w.pGlobalData.mutexError < INT_MAX)
    (hobs : ∀ j, 1 ≤ j → j ≤ 100 →
      (seen others 0 j w.pGlobalData.mqttSharedData).dataSent = 0) :
    ∃ w1, getMQTTsendAccess me others w = .ok (-1, w1) ∧
      locks me w1.trace = locks me w.trace + 100 ∧
      sleeps w1.trace = sleeps w.trace ++ List.replicate 100 100000 ∧
      (sleeps w1.trace).sum = (sleeps w.trace).sum + 10000 * 1000 ∧
      w1.pGlobalData.mutexError = w.pGlobalData.mutexError + 1 ∧
      w1.pGlobalData.mqttSendMutex ≠ some me ∧
      w1.pGlobalData.mqttSharedData = seen others 0 100 w.pGlobalData.mqttSharedData ∧
      ((∀ k m, others k m = m) →
        w1.pGlobalData.mqttSharedData = w.pGlobalData.mqttSharedData) := by
  obtain ⟨w1, hrun, hm, herr, hmu, hl, hs, _, _⟩ :=
    getMQTTsendAccess_loop_fail me others 100 0 w hme hmax
      (fun j h1 h2 => by rw [hobs j h1 h2]; decide)
  refine ⟨w1, hrun, hl, hs, ?_, herr, hmu, hm, ?_⟩
  · rw [hs, List.sum_append]
    simp
  · intro hid
    have : others = fun _ x => x := by
      funext k m
      exact hid k m
    rw [hm, this, seen_id]

/-- C3 at the blocked mailbox `senderBlocked` with a quiet environment. -/
theorem C3_retry_ceiling_witness :
    senderBlocked.pGlobalData.mqttSendMutex ≠ some (.producer 0) ∧
    senderBlocked.pGlobalData.mutexError < INT_MAX ∧
    (∀ j, 1 ≤ j → j ≤ 100 →
      (seen (fun _ m => m) 0 j senderBlocked.pGlobalData.mqttSharedData).dataSent = 0) ∧
    ∃ w1, getMQTTsendAccess (.producer 0) (fun _ m => m) senderBlocked = .ok (-1, w1) ∧
      locks (.producer 0) w1.trace = locks (.producer 0) senderBlocked.trace + 100 ∧
      sleeps w1.trace = sleeps senderBlocked.trace ++ List.replicate 100 100000 ∧
      (sleeps w1.trace).sum = (sleeps senderBlocked.trace).sum + 10000 * 1000 ∧
      w1.pGlobalData.mutexError = senderBlocked.pGlobalData.mutexError + 1 ∧
      w1.pGlobalData.mqttSendMutex ≠ some (.producer 0) ∧
      w1.pGlobalData.mqttSharedData =
        seen (fun _ m => m) 0 100 senderBlocked.pGlobalData.mqttSharedData ∧
      ((∀ (k : Nat) (m : mqtt_Data_type), (fun (_ : Nat) (m : mqtt_Data_type) => m) k m = m) →
        w1.pGlobalData.mqttSharedData = senderBlocked.pGlobalData.mqttSharedData) :=
  ⟨by decide, by decide, fun j _ _ => by rw [seen_id]; rfl,
    C3_retry_ceiling (.producer 0) (fun _ m => m) senderBlocked (by decide) (by decide)
      (fun j _ _ => by rw [seen_id]; rfl)⟩

/-! ## C4: successful slot acquisition -/

/-- C4. Successful slot acquisition: for `1 ≤ k ≤ 100`, when attempt `k` of
`getMQTTsendAccess` is the first that finds `dataSent == 1`, the call returns 0 owning the
mutex after exactly `k` lock-and-check attempts and `k - 1` sleeps, with `mutexError`
unchanged and nothing written to the mailbox (it is as the other threads left it, unchanged
when they do not touch it). In particular, on the mailbox set up by `main` the first call
succeeds at once, without a sleep. -/
theorem C4_slot_acquired (me : Tid) (others : Nat → Interference) (w : World) (k : Nat)
    (hk1 : 1 ≤ k) (hk : k ≤ 100) (hme : w.pGlobalData.mqttSendMutex ≠ some me)
    (hbefore : ∀ j, 1 ≤ j → j < k →
      (seen others 0 j w.pGlobalData.mqttSharedData).dataSent ≠ 1)
    (hhit : (seen others 0 k w.pGlobalData.mqttSharedData).dataSent = 1) :
    (∃ w1, getMQTTsendAccess me others w = .ok (0, w1) ∧
      w1.pGlobalData.mqttSendMutex = some me ∧
      locks me w1.trace = locks me w.trace + k ∧
      sleeps w1.trace = sleeps w.trace ++ List.replicate (k - 1) 100000 ∧
      w1.pGlobalData.mutexError = w.pGlobalData.mutexError ∧
      w1.pGlobalData.mqttSharedData = seen others 0 k w.pGlobalData.mqttSharedData ∧
      ((∀ k m, others k m = m) →
        w1.pGlobalData.mqttSharedData = w.pGlobalData.mqttSharedData)) ∧
    (∀ topic payload, ∃ w1,
      getMQTTsendAccess me (fun _ m => m) (main_init topic payload) = .ok (0, w1) ∧
      w1.pGlobalData.mqttSendMutex = some me ∧ sleeps w1.trace = [] ∧
      w1.pGlobalData.mutexError = 0 ∧
      w1.pGlobalData.mqttSharedData = (main_init topic payload).pGlobalData.mqttSharedData) := by
  constructor
  · obtain ⟨w1, hrun, hm, herr, hmu, hl, hs, _, _⟩ :=
      getMQTTsendAccess_loop_ok me others k 100 0 w hk1 hk hme hbefore hhit
    refine ⟨w1, hrun, hmu, hl, hs, herr, hm, ?_⟩
    intro hid
    have : others = fun _ x => x := by
      funext k m
      exact hid k m
    rw [hm, this, seen_id]
  · intro topic payload
    obtain ⟨w1, hrun, hm, herr, hmu, _, hs, _, _⟩ :=
      getMQTTsendAccess_loop_ok me (fun _ m => m) 1 100 0 (main_init topic payload)
        (by omega) (by omega) (by simp [main_init]) (fun j h1 h2 => absurd h1 (by omega))
        (by simp [seen, main_init])
    exact ⟨w1, hrun, hmu, by simpa [main_init, sleeps] using hs, by simpa [main_init] using herr,
      by simpa [seen] using hm⟩

/-- C4 at `k = 3`: the mailbox is pending for two attempts and the sender clears it before
the third. -/
theorem C4_slot_acquired_witness :
    (1 ≤ 3) ∧ (3 ≤ 100) ∧ senderBlocked.pGlobalData.mqttSendMutex ≠ some (.producer 0) ∧
    (∀ j, 1 ≤ j → j < 3 →
      (seen (fun k m => if k = 2 then { m with dataSent := 1 } else m) 0 j
        senderBlocked.pGlobalData.mqttSharedData).dataSent ≠ 1) ∧
    (seen (fun k m => if k = 2 then { m with dataSent := 1 } else m) 0 3
        senderBlocked.pGlobalData.mqttSharedData).dataSent = 1 ∧
    ∃ w1, getMQTTsendAccess (.producer 0)
        (fun k m => if k = 2 then { m with dataSent := 1 } else m) senderBlocked = .ok (0, w1) ∧
      w1.pGlobalData.mqttSendMutex = some (.producer 0) ∧
      sleeps w1.trace = [100000, 100000] :=
  have hb : ∀ j, 1 ≤ j → j < 3 →
      (seen (fun k m => if k = 2 then { m with dataSent := 1 } else m) 0 j
        senderBlocked.pGlobalData.mqttSharedData).dataSent ≠ 1 := by
    intro j h1 h3
    have : j = 1 ∨ j = 2 := by omega
    rcases this with rfl | rfl <;> decide
  ⟨by decide, by decide, by decide, hb, by decide,
    (C4_slot_acquired (.producer 0) (fun k m => if k = 2 then { m with dataSent := 1 } else m)
      senderBlocked 3 (by decide) (by decide) (by decide) hb (by decide)).1.imp
      (fun _ h => ⟨h.1, h.2.1, h.2.2.2.1⟩)⟩

/-! ## C5: commit -/

/-! ## The transition system -/

theorem tryLock_eq_some {t : Tid} {w w1 : World} (h : tryLock t w = some w1) :
    w.pGlobalData.mqttSendMutex = none ∧ w1 = w.locked t := by
  unfold tryLock at h
  split at h
  · rename_i hfree
    simp [request_mutex_lock, hfree, Except.toOption] at h
    exact ⟨hfree, h.symm⟩
  · cases h

theorem release_eq_some {t : Tid} {w w1 : World}
    (h : (release_mutex_lock t w).toOption = some w1) :
    w.pGlobalData.mqttSendMutex = some t ∧ w1 = w.unlocked t := by
  unfold release_mutex_lock at h
  split at h
  · rename_i hown
    simp [Except.toOption] at h
    exact ⟨hown, h.symm⟩
  · simp [Except.toOption] at h

/-- Every step of the step function is an instance of one of the rules of `Step`. -/
theorem step_sound {s s1 : System} {a : Action} (h : step s a = some s1) : Step s a s1 := by
  cases a with
  | call p topic payload =>
    simp only [step] at h
    split at h
    · rename_i hidle
      cases h
      exact Step.call s p topic payload hidle
    · cases h
  | producer p =>
    simp only [step, stepProducer] at h
    split at h
    · cases h
    · rename_i i hpc
      obtain ⟨w, hw, rfl⟩ := Option.map_eq_some'.1 h
      obtain ⟨hfree, rfl⟩ := tryLock_eq_some hw
      exact Step.lock s p i hpc hfree
    · rename_i i hpc
      split at h
      · rename_i hd
        cases h
        exact Step.granted s p i hpc hd
      · rename_i hd
        cases h
        exact Step.busy s p i hpc hd
    · rename_i i hpc
      obtain ⟨w, hw, rfl⟩ := Option.map_eq_some'.1 h
      obtain ⟨hown, rfl⟩ := release_eq_some hw
      exact Step.unlock s p i hpc hown
    · rename_i i hpc
      cases h
      exact Step.sleep s p i hpc
    · rename_i hpc
      obtain ⟨w, hw, rfl⟩ := Option.map_eq_some'.1 h
      unfold countMutexError at hw
      split at hw
      · rename_i hmax
        simp only [Except.toOption, Option.some.injEq] at hw
        subst hw
        exact Step.fail s p hpc hmax
      · simp [Except.toOption] at hw
    · rename_i hpc
      unfold strcpy at h
      split at h
      · rename_i t ht
        split at ht
        · rename_i hfit
          cases ht
          cases h
          exact Step.writeTopic s p hpc hfit
        · cases ht
      · cases h
    · rename_i hpc
      unfold strcpy at h
      split at h
      · rename_i t ht
        split at ht
        · rename_i hfit
          cases ht
          cases h
          exact Step.writePayload s p hpc hfit
        · cases ht
      · cases h
    · rename_i hpc
      cases h
      exact Step.commit s p hpc
    · rename_i hpc
      cases h
      exact Step.signal s p hpc
    · rename_i hpc
      obtain ⟨w, hw, rfl⟩ := Option.map_eq_some'.1 h
      obtain ⟨hown, rfl⟩ := release_eq_some hw
      exact Step.release s p hpc hown
  | sender iRet =>
    simp only [step, stepSender] at h
    split at h
    · rename_i hpc
      obtain ⟨w, hw, rfl⟩ := Option.map_eq_some'.1 h
      obtain ⟨hfree, rfl⟩ := tryLock_eq_some hw
      exact Step.senderLock s iRet hpc hfree
    · rename_i hpc
      split at h
      · rename_i hd
        cases h
        exact Step.senderPending s iRet hpc hd
      · rename_i hd
        obtain ⟨w, hw, rfl⟩ := Option.map_eq_some'.1 h
        obtain ⟨hown, rfl⟩ := release_eq_some hw
        exact Step.senderWait s iRet hpc hd hown
    · cases h
    · rename_i hpc
      obtain ⟨w, hw, rfl⟩ := Option.map_eq_some'.1 h
      obtain ⟨hfree, rfl⟩ := tryLock_eq_some hw
      exact Step.senderWake s iRet hpc hfree
    · rename_i hpc
      cases h
      exact Step.senderPublish s iRet hpc
    · rename_i hpc
      cases h
      exact Step.senderClear s iRet hpc
    · rename_i hpc
      obtain ⟨w, hw, rfl⟩ := Option.map_eq_some'.1 h
      obtain ⟨hown, rfl⟩ := release_eq_some hw
      exact Step.senderUnlock s iRet hpc hown
  | spurious =>
    simp only [step] at h
    split at h
    · rename_i hpc
      cases h
      exact Step.spurious s hpc
    · cases h

@[simp] theorem goto_pc_self (s : System) (p : Nat) (pc : ProducerPc) :
    ((s.goto p pc).producers p).pc = pc := by
  simp [System.goto]

@[simp] theorem goto_pc_ne (s : System) {p q : Nat} (pc : ProducerPc) (h : q ≠ p) :
    (s.goto p pc).producers q = s.producers q := by
  simp [System.goto, Function.update_noteq h]

@[simp] theorem goto_topic (s : System) (p q : Nat) (pc : ProducerPc) :
    ((s.goto p pc).producers q).topic = (s.producers q).topic := by
  by_cases h : q = p
  · subst h
    simp [System.goto]
  · simp [h]

@[simp] theorem goto_payload (s : System) (p q : Nat) (pc : ProducerPc) :
    ((s.goto p pc).producers q).payload = (s.producers q).payload := by
  by_cases h : q = p
  · subst h
    simp [System.goto]
  · simp [h]

@[simp] theorem goto_world (s : System) (p : Nat) (pc : ProducerPc) :
    (s.goto p pc).world = s.world := rfl

@[simp] theorem goto_sender (s : System) (p : Nat) (pc : ProducerPc) :
    (s.goto p pc).sender = s.sender := rfl

@[simp] theorem goto_grants (s : System) (p : Nat) (pc : ProducerPc) :
    (s.goto p pc).grants = s.grants := rfl

@[simp] theorem goto_committed (s : System) (p : Nat) (pc : ProducerPc) :
    (s.goto p pc).committed = s.committed := rfl

@[simp] theorem goto_clears (s : System) (p : Nat) (pc : ProducerPc) :
    (s.goto p pc).clears = s.clears := rfl

@[simp] theorem ownsMutex_idle : ProducerPc.idle.ownsMutex = false := rfl
@[simp] theorem ownsMutex_lock (i : Nat) : (ProducerPc.lock i).ownsMutex = false := rfl
@[simp] theorem ownsMutex_test (i : Nat) : (ProducerPc.test i).ownsMutex = true := rfl
@[simp] theorem ownsMutex_unlock (i : Nat) : (ProducerPc.unlock i).ownsMutex = true := rfl
@[simp] theorem ownsMutex_sleep (i : Nat) : (ProducerPc.sleep i).ownsMutex = false := rfl
@[simp] theorem ownsMutex_fail : ProducerPc.fail.ownsMutex = false := rfl
@[simp] theorem ownsMutex_writeTopic : ProducerPc.writeTopic.ownsMutex = true := rfl
@[simp] theorem ownsMutex_writePayload : ProducerPc.writePayload.ownsMutex = true := rfl
@[simp] theorem ownsMutex_setFlag : ProducerPc.setFlag.ownsMutex = true := rfl
@[simp] theorem ownsMutex_signal : ProducerPc.signal.ownsMutex = true := rfl
@[simp] theorem ownsMutex_release : ProducerPc.release.ownsMutex = true := rfl
@[simp] theorem ownsMutex_after_sleep (i : Nat) :
    (if i - 1 = 0 then ProducerPc.fail else ProducerPc.lock (i - 1)).ownsMutex = false := by
  split <;> rfl

@[simp] theorem senderOwns_signalled (pc : SenderPc) :
    (if pc = .wait then SenderPc.wake else pc).ownsMutex = pc.ownsMutex := by
  split
  · rename_i h
    subst h
    rfl
  · rfl

@[simp] theorem senderOwns_lock : SenderPc.lock.ownsMutex = false := rfl
@[simp] theorem senderOwns_test : SenderPc.test.ownsMutex = true := rfl
@[simp] theorem senderOwns_wait : SenderPc.wait.ownsMutex = false := rfl
@[simp] theorem senderOwns_wake : SenderPc.wake.ownsMutex = false := rfl
@[simp] theorem senderOwns_publish : SenderPc.publish.ownsMutex = true := rfl
@[simp] theorem senderOwns_setFlag : SenderPc.setFlag.ownsMutex = true := rfl
@[simp] theorem senderOwns_unlock : SenderPc.unlock.ownsMutex = true := rfl

theorem mutexInv_init (topic payload : CString) : MutexInv (System.init topic payload) :=
  ⟨fun _ => by simp [System.init, main_init], by simp [System.init, main_init]⟩

theorem mutexInv_step {s s1 : System} {a : Action} (hi : MutexInv s) (h : Step s a s1) :
    MutexInv s1 := by
  obtain ⟨hp, hs⟩ := hi
  cases h
  case call p topic payload hidle =>
    refine ⟨fun q => ?_, hs⟩
    have hq := hp q
    have hpp := hp p
    by_cases hqp : q = p
    · subst hqp
      simpa [hidle] using hpp
    · simpa [Function.update_noteq hqp] using hq
  case lock p i hpc hfree =>
    have hpp := hp p
    refine ⟨fun q => ?_, ?_⟩
    · have hq := hp q
      clear hp
      by_cases hqp : q = p
      · subst hqp
        simp_all
      · have hpq : ¬p = q := fun h => hqp h.symm
        simp_all
    · clear hp
      simp_all
  case granted p i hpc hd =>
    have hpp := hp p
    refine ⟨fun q => ?_, ?_⟩
    · have hq := hp q
      clear hp
      by_cases hqp : q = p
      · subst hqp
        simp_all
      · have hpq : ¬p = q := fun h => hqp h.symm
        simp_all
    · clear hp
      simp_all
  case busy p i hpc hd =>
    have hpp := hp p
    refine ⟨fun q => ?_, ?_⟩
    · have hq := hp q
      clear hp
      by_cases hqp : q = p
      · subst hqp
        simp_all
      · have hpq : ¬p = q := fun h => hqp h.symm
        simp_all
    · clear hp
      simp_all
  case unlock p i hpc hown =>
    have hpp := hp p
    refine ⟨fun q => ?_, ?_⟩
    · have hq := hp q
      clear hp
      by_cases hqp : q = p
      · subst hqp
        simp_all
      · have hpq : ¬p = q := fun h => hqp h.symm
        simp_all
    · clear hp
      simp_all
  case sleep p i hpc =>
    have hpp := hp p
    refine ⟨fun q => ?_, ?_⟩
    · have hq := hp q
      clear hp
      by_cases hqp : q = p
      · subst hqp
        simp_all
      · have hpq : ¬p = q := fun h => hqp h.symm
        simp_all
    · clear hp
      simp_all
  case fail p hpc hmax =>
    have hpp := hp p
    refine ⟨fun q => ?_, ?_⟩
    · have hq := hp q
      clear hp
      by_cases hqp : q = p
      · subst hqp
        simp_all
      · have hpq : ¬p = q := fun h => hqp h.symm
        simp_all
    · clear hp
      simp_all
  case writeTopic p hpc hfit =>
    have hpp := hp p
    refine ⟨fun q => ?_, ?_⟩
    · have hq := hp q
      clear hp
      by_cases hqp : q = p
      · subst hqp
        simp_all
      · have hpq : ¬p = q := fun h => hqp h.symm
        simp_all
    · clear hp
      simp_all
  case writePayload p hpc hfit =>
    have hpp := hp p
    refine ⟨fun q => ?_, ?_⟩
    · have hq := hp q
      clear hp
      by_cases hqp : q = p
      · subst hqp
        simp_all
      · have hpq : ¬p = q := fun h => hqp h.symm
        simp_all
    · clear hp
      simp_all
  case commit p hpc =>
    have hpp := hp p
    refine ⟨fun q => ?_, ?_⟩
    · have hq := hp q
      clear hp
      by_cases hqp : q = p
      · subst hqp
        simp_all
      · have hpq : ¬p = q := fun h => hqp h.symm
        simp_all
    · clear hp
      simp_all
  case signal p hpc =>
    have hpp := hp p
    refine ⟨fun q => ?_, ?_⟩
    · have hq := hp q
      clear hp
      by_cases hqp : q = p
      · subst hqp
        simp_all
      · have hpq : ¬p = q := fun h => hqp h.symm
        simp_all
    · clear hp
      simp_all
  case release p hpc hown =>
    have hpp := hp p
    refine ⟨fun q => ?_, ?_⟩
    · have hq := hp q
      clear hp
      by_cases hqp : q = p
      · subst hqp
        simp_all
      · have hpq : ¬p = q := fun h => hqp h.symm
        simp_all
    · clear hp
      simp_all
  case senderLock iRet hpc hfree =>
    refine ⟨fun q => ?_, ?_⟩
    · have hq := hp q
      clear hp
      simp_all
    · clear hp
      simp_all
  case senderPending iRet hpc hd =>
    refine ⟨fun q => ?_, ?_⟩
    · have hq := hp q
      clear hp
      simp_all
    · clear hp
      simp_all
  case senderWait iRet hpc hd hown =>
    refine ⟨fun q => ?_, ?_⟩
    · have hq := hp q
      clear hp
      simp_all
    · clear hp
      simp_all
  case senderWake iRet hpc hfree =>
    refine ⟨fun q => ?_, ?_⟩
    · have hq := hp q
      clear hp
      simp_all
    · clear hp
      simp_all
  case senderPublish iRet hpc =>
    refine ⟨fun q => ?_, ?_⟩
    · have hq := hp q
      clear hp
      simp_all
    · clear hp
      simp_all
  case senderClear iRet hpc =>
    refine ⟨fun q => ?_, ?_⟩
    · have hq := hp q
      clear hp
      simp_all
    · clear hp
      simp_all
  case senderUnlock iRet hpc hown =>
    refine ⟨fun q => ?_, ?_⟩
    · have hq := hp q
      clear hp
      simp_all
    · clear hp
      simp_all
  case spurious hpc =>
    refine ⟨hp, ?_⟩
    simpa [hpc] using hs

@[simp] theorem beforeCommit_idle : ProducerPc.idle.beforeCommit = false := rfl
@[simp] theorem beforeCommit_lock (i : Nat) : (ProducerPc.lock i).beforeCommit = false := rfl
@[simp] theorem beforeCommit_test (i : Nat) : (ProducerPc.test i).beforeCommit = false := rfl
@[simp] theorem beforeCommit_unlock (i : Nat) : (ProducerPc.unlock i).beforeCommit = false := rfl
@[simp] theorem beforeCommit_sleep (i : Nat) : (ProducerPc.sleep i).beforeCommit = false := rfl
@[simp] theorem beforeCommit_fail : ProducerPc.fail.beforeCommit = false := rfl
@[simp] theorem beforeCommit_writeTopic : ProducerPc.writeTopic.beforeCommit = true := rfl
@[simp] theorem beforeCommit_writePayload : ProducerPc.writePayload.beforeCommit = true := rfl
@[simp] theorem beforeCommit_setFlag : ProducerPc.setFlag.beforeCommit = true := rfl
@[simp] theorem beforeCommit_signal : ProducerPc.signal.beforeCommit = false := rfl
@[simp] theorem beforeCommit_release : ProducerPc.release.beforeCommit = false := rfl
@[simp] theorem beforeCommit_after_sleep (i : Nat) :
    (if i - 1 = 0 then ProducerPc.fail else ProducerPc.lock (i - 1)).beforeCommit = false := by
  split <;> rfl

theorem beforeCommit_owns (pc : ProducerPc) : pc.beforeCommit = true → pc.ownsMutex = true := by
  cases pc <;> simp

theorem holdsSlot_owns (pc : ProducerPc) : pc.holdsSlot = true → pc.ownsMutex = true := by
  cases pc <;> simp [ProducerPc.holdsSlot]

theorem pendingGrant_of_owner (s : System) (p : Nat)
    (h : s.world.pGlobalData.mqttSendMutex = some (.producer p)) :
    s.pendingGrant = if (s.producers p).pc.beforeCommit then 1 else 0 := by
  simp [System.pendingGrant, h]

theorem pendingGrant_of_none (s : System) (h : s.world.pGlobalData.mqttSendMutex = none) :
    s.pendingGrant = 0 := by
  simp [System.pendingGrant, h]

theorem pendingGrant_of_sender (s : System)
    (h : s.world.pGlobalData.mqttSendMutex = some .sender) : s.pendingGrant = 0 := by
  simp [System.pendingGrant, h]

/-- The pending grant depends on the owner of the mutex and on where the owner stands. -/
theorem pendingGrant_congr {s s1 : System}
    (hm : s1.world.pGlobalData.mqttSendMutex = s.world.pGlobalData.mqttSendMutex)
    (hpc : ∀ q, s.world.pGlobalData.mqttSendMutex = some (.producer q) →
      (s1.producers q).pc.beforeCommit = (s.producers q).pc.beforeCommit) :
    s1.pendingGrant = s.pendingGrant := by
  unfold System.pendingGrant
  rw [hm]
  cases hmx : s.world.pGlobalData.mqttSendMutex with
  | none => rfl
  | some t =>
    cases t with
    | sender => rfl
    | producer q => simp [hpc q hmx]

theorem slotInv_init (topic payload : CString) : SlotInv (System.init topic payload) :=
  ⟨fun _ h => by simp [System.init] at h, Or.inr rfl, by simp [System.init, System.pendingGrant,
    main_init], by simp [System.init, main_init]⟩

theorem slotInv_step {s s1 : System} {a : Action} (hmi : MutexInv s) (hi : SlotInv s)
    (h : Step s a s1) : SlotInv s1 := by
  cases h
  case call p topic payload hidle =>
    have hmp := hmi.producerOwns p
    obtain ⟨hflag, h01, hg, hc⟩ := hi
    refine ⟨fun q hq => ?_, h01, ?_, hc⟩
    · have hfq := hflag q
      by_cases hqp : q = p
      · subst hqp
        simp_all
      · simp_all [Function.update_noteq hqp]
    · have hnot : s.world.pGlobalData.mqttSendMutex ≠ some (.producer p) := by
        simpa [hidle] using hmp
      rw [pendingGrant_congr (s := s)]
      · simpa using hg
      · rfl
      · intro q hq
        have hqp : q ≠ p := fun h => hnot (h ▸ hq)
        simp [Function.update_noteq hqp]
  case lock p i hpc hfree =>
    have hmp := hmi.producerOwns p
    have hms := hmi.senderOwns
    obtain ⟨hflag, h01, hg, hc⟩ := hi
    refine ⟨fun q hq => ?_, ?_, ?_, ?_⟩
    · have hfq := hflag q
      have hmq := hmi.producerOwns q
      have hbq := beforeCommit_owns (s.producers q).pc
      clear hflag
      by_cases hqp : q = p
      · subst hqp
        simp_all
      · have hpq : ¬p = q := fun h => hqp h.symm
        simp_all
    · simp_all
    · clear hflag
      rw [pendingGrant_of_none s hfree] at hg
      rw [pendingGrant_of_owner (p := p)]
      · simp_all
      · simp
    · simp_all
  case granted p i hpc hd =>
    have hmp := hmi.producerOwns p
    have hms := hmi.senderOwns
    obtain ⟨hflag, h01, hg, hc⟩ := hi
    refine ⟨fun q hq => ?_, ?_, ?_, ?_⟩
    · have hfq := hflag q
      have hmq := hmi.producerOwns q
      have hbq := beforeCommit_owns (s.producers q).pc
      clear hflag
      by_cases hqp : q = p
      · subst hqp
        simp_all
      · have hpq : ¬p = q := fun h => hqp h.symm
        simp_all
    · simp_all
    · clear hflag
      have hown1 : s.world.pGlobalData.mqttSendMutex = some (.producer p) := by simpa [hpc] using hmp
      rw [pendingGrant_of_owner s p hown1] at hg
      rw [pendingGrant_of_owner (p := p)]
      · simp_all
      · simpa using hown1
    · simp_all
  case busy p i hpc hd =>
    have hmp := hmi.producerOwns p
    have hms := hmi.senderOwns
    obtain ⟨hflag, h01, hg, hc⟩ := hi
    refine ⟨fun q hq => ?_, ?_, ?_, ?_⟩
    · have hfq := hflag q
      have hmq := hmi.producerOwns q
      have hbq := beforeCommit_owns (s.producers q).pc
      clear hflag
      by_cases hqp : q = p
      · subst hqp
        simp_all
      · have hpq : ¬p = q := fun h => hqp h.symm
        simp_all
    · simp_all
    · clear hflag
      have hown1 : s.world.pGlobalData.mqttSendMutex = some (.producer p) := by simpa [hpc] using hmp
      rw [pendingGrant_of_owner s p hown1] at hg
      rw [pendingGrant_of_owner (p := p)]
      · simp_all
      · simpa using hown1
    · simp_all
  case unlock p i hpc hown =>
    have hmp := hmi.producerOwns p
    have hms := hmi.senderOwns
    obtain ⟨hflag, h01, hg, hc⟩ := hi
    refine ⟨fun q hq => ?_, ?_, ?_, ?_⟩
    · have hfq := hflag q
      have hmq := hmi.producerOwns q
      have hbq := beforeCommit_owns (s.producers q).pc
      clear hflag
      by_cases hqp : q = p
      · subst hqp
        simp_all
      · have hpq : ¬p = q := fun h => hqp h.symm
        simp_all
    · simp_all
    · clear hflag
      have hown1 : s.world.pGlobalData.mqttSendMutex = some (.producer p) := by simpa [hpc] using hmp
      rw [pendingGrant_of_owner s p hown1] at hg
      rw [pendingGrant_of_none]
      · simp_all
      · simp
    · simp_all
  case sleep p i hpc =>
    have hmp := hmi.producerOwns p
    have hms := hmi.senderOwns
    obtain ⟨hflag, h01, hg, hc⟩ := hi
    refine ⟨fun q hq => ?_, ?_, ?_, ?_⟩
    · have hfq := hflag q
      have hmq := hmi.producerOwns q
      have hbq := beforeCommit_owns (s.producers q).pc
      clear hflag
      by_cases hqp : q = p
      · subst hqp
        simp_all
      · have hpq : ¬p = q := fun h => hqp h.symm
        simp_all
    · simp_all
    · clear hflag
      have hnot : s.world.pGlobalData.mqttSendMutex ≠ some (.producer p) := by simpa [hpc] using hmp
      rw [pendingGrant_congr (s := s)]
      · simpa using hg
      · simp
      · intro q hq
        have hqp : q ≠ p := fun h => hnot (h ▸ hq)
        simp [hqp]
    · simp_all
  case fail p hpc hmax =>
    have hmp := hmi.producerOwns p
    have hms := hmi.senderOwns
    obtain ⟨hflag, h01, hg, hc⟩ := hi
    refine ⟨fun q hq => ?_, ?_, ?_, ?_⟩
    · have hfq := hflag q
      have hmq := hmi.producerOwns q
      have hbq := beforeCommit_owns (s.producers q).pc
      clear hflag
      by_cases hqp : q = p
      · subst hqp
        simp_all
      · have hpq : ¬p = q := fun h => hqp h.symm
        simp_all
    · simp_all
    · clear hflag
      have hnot : s.world.pGlobalData.mqttSendMutex ≠ some (.producer p) := by simpa [hpc] using hmp
      rw [pendingGrant_congr (s := s)]
      · simpa using hg
      · simp
      · intro q hq
        have hqp : q ≠ p := fun h => hnot (h ▸ hq)
        simp [hqp]
    · simp_all
  case writeTopic p hpc hfit =>
    have hmp := hmi.producerOwns p
    have hms := hmi.senderOwns
    obtain ⟨hflag, h01, hg, hc⟩ := hi
    refine ⟨fun q hq => ?_, ?_, ?_, ?_⟩
    · have hfq := hflag q
      have hmq := hmi.producerOwns q
      have hbq := beforeCommit_owns (s.producers q).pc
      clear hflag
      by_cases hqp : q = p
      · subst hqp
        simp_all
      · have hpq : ¬p = q := fun h => hqp h.symm
        simp_all
    · simp_all
    · clear hflag
      have hown1 : s.world.pGlobalData.mqttSendMutex = some (.producer p) := by simpa [hpc] using hmp
      rw [pendingGrant_of_owner s p hown1] at hg
      rw [pendingGrant_of_owner (p := p)]
      · simp_all
      · simpa using hown1
    · simp_all
  case writePayload p hpc hfit =>
    have hmp := hmi.producerOwns p
    have hms := hmi.senderOwns
    obtain ⟨hflag, h01, hg, hc⟩ := hi
    refine ⟨fun q hq => ?_, ?_, ?_, ?_⟩
    · have hfq := hflag q
      have hmq := hmi.producerOwns q
      have hbq := beforeCommit_owns (s.producers q).pc
      clear hflag
      by_cases hqp : q = p
      · subst hqp
        simp_all
      · have hpq : ¬p = q := fun h => hqp h.symm
        simp_all
    · simp_all
    · clear hflag
      have hown1 : s.world.pGlobalData.mqttSendMutex = some (.producer p) := by simpa [hpc] using hmp
      rw [pendingGrant_of_owner s p hown1] at hg
      rw [pendingGrant_of_owner (p := p)]
      · simp_all
      · simpa using hown1
    · simp_all
  case commit p hpc =>
    have hmp := hmi.producerOwns p
    have hms := hmi.senderOwns
    obtain ⟨hflag, h01, hg, hc⟩ := hi
    refine ⟨fun q hq => ?_, ?_, ?_, ?_⟩
    · have hfq := hflag q
      have hmq := hmi.producerOwns q
      have hbq := beforeCommit_owns (s.producers q).pc
      clear hflag
      by_cases hqp : q = p
      · subst hqp
        simp_all
      · have hpq : ¬p = q := fun h => hqp h.symm
        simp_all
    · simp_all
    · clear hflag
      have hown1 : s.world.pGlobalData.mqttSendMutex = some (.producer p) := by simpa [hpc] using hmp
      rw [pendingGrant_of_owner s p hown1] at hg
      rw [pendingGrant_of_owner (p := p)]
      · simp_all
      · simpa using hown1
    · have hfp := hflag p (by simp [hpc])
      simp_all
  case signal p hpc =>
    have hmp := hmi.producerOwns p
    have hms := hmi.senderOwns
    obtain ⟨hflag, h01, hg, hc⟩ := hi
    refine ⟨fun q hq => ?_, ?_, ?_, ?_⟩
    · have hfq := hflag q
      have hmq := hmi.producerOwns q
      have hbq := beforeCommit_owns (s.producers q).pc
      clear hflag
      by_cases hqp : q = p
      · subst hqp
        simp_all
      · have hpq : ¬p = q := fun h => hqp h.symm
        simp_all
    · simp_all
    · clear hflag
      have hown1 : s.world.pGlobalData.mqttSendMutex = some (.producer p) := by simpa [hpc] using hmp
      rw [pendingGrant_of_owner s p hown1] at hg
      rw [pendingGrant_of_owner (p := p)]
      · simp_all
      · simpa using hown1
    · simp_all
  case release p hpc hown =>
    have hmp := hmi.producerOwns p
    have hms := hmi.senderOwns
    obtain ⟨hflag, h01, hg, hc⟩ := hi
    refine ⟨fun q hq => ?_, ?_, ?_, ?_⟩
    · have hfq := hflag q
      have hmq := hmi.producerOwns q
      have hbq := beforeCommit_owns (s.producers q).pc
      clear hflag
      by_cases hqp : q = p
      · subst hqp
        simp_all
      · have hpq : ¬p = q := fun h => hqp h.symm
        simp_all
    · simp_all
    · clear hflag
      have hown1 : s.world.pGlobalData.mqttSendMutex = some (.producer p) := by simpa [hpc] using hmp
      rw [pendingGrant_of_owner s p hown1] at hg
      rw [pendingGrant_of_none]
      · simp_all
      · simp
    · simp_all
  case senderLock iRet hpc hfree =>
    have hms := hmi.senderOwns
    obtain ⟨hflag, h01, hg, hc⟩ := hi
    refine ⟨fun q hq => ?_, ?_, ?_, ?_⟩
    · have hfq := hflag q
      have hmq := hmi.producerOwns q
      have hbq := beforeCommit_owns (s.producers q).pc
      clear hflag
      simp_all
    · simp_all
    · clear hflag
      rw [pendingGrant_of_none s hfree] at hg
      rw [pendingGrant_of_sender]
      · simp_all
      · simp
    · simp_all
  case senderPending iRet hpc hd =>
    have hms := hmi.senderOwns
    obtain ⟨hflag, h01, hg, hc⟩ := hi
    refine ⟨fun q hq => ?_, ?_, ?_, ?_⟩
    · have hfq := hflag q
      have hmq := hmi.producerOwns q
      have hbq := beforeCommit_owns (s.producers q).pc
      clear hflag
      simp_all
    · simp_all
    · clear hflag
      have hown1 : s.world.pGlobalData.mqttSendMutex = some .sender := by simpa [hpc] using hms
      rw [pendingGrant_of_sender s hown1] at hg
      rw [pendingGrant_of_sender]
      · simp_all
      · simpa using hown1
    · simp_all
  case senderWait iRet hpc hd hown =>
    have hms := hmi.senderOwns
    obtain ⟨hflag, h01, hg, hc⟩ := hi
    refine ⟨fun q hq => ?_, ?_, ?_, ?_⟩
    · have hfq := hflag q
      have hmq := hmi.producerOwns q
      have hbq := beforeCommit_owns (s.producers q).pc
      clear hflag
      simp_all
    · simp_all
    · clear hflag
      have hown1 : s.world.pGlobalData.mqttSendMutex = some .sender := by simpa [hpc] using hms
      rw [pendingGrant_of_sender s hown1] at hg
      rw [pendingGrant_of_none]
      · simp_all
      · simp
    · simp_all
  case senderWake iRet hpc hfree =>
    have hms := hmi.senderOwns
    obtain ⟨hflag, h01, hg, hc⟩ := hi
    refine ⟨fun q hq => ?_, ?_, ?_, ?_⟩
    · have hfq := hflag q
      have hmq := hmi.producerOwns q
      have hbq := beforeCommit_owns (s.producers q).pc
      clear hflag
      simp_all
    · simp_all
    · clear hflag
      rw [pendingGrant_of_none s hfree] at hg
      rw [pendingGrant_of_sender]
      · simp_all
      · simp
    · simp_all
  case senderPublish iRet hpc =>
    have hms := hmi.senderOwns
    obtain ⟨hflag, h01, hg, hc⟩ := hi
    refine ⟨fun q hq => ?_, ?_, ?_, ?_⟩
    · have hfq := hflag q
      have hmq := hmi.producerOwns q
      have hbq := beforeCommit_owns (s.producers q).pc
      clear hflag
      simp_all
    · simp_all
    · clear hflag
      have hown1 : s.world.pGlobalData.mqttSendMutex = some .sender := by simpa [hpc] using hms
      rw [pendingGrant_of_sender s hown1] at hg
      rw [pendingGrant_of_sender]
      · simp_all
      · simpa using hown1
    · simp_all
  case senderClear iRet hpc =>
    have hms := hmi.senderOwns
    obtain ⟨hflag, h01, hg, hc⟩ := hi
    refine ⟨fun q hq => ?_, ?_, ?_, ?_⟩
    · have hfq := hflag q
      have hmq := hmi.producerOwns q
      have hbq := beforeCommit_owns (s.producers q).pc
      clear hflag
      simp_all
    · simp_all
    · clear hflag
      have hown1 : s.world.pGlobalData.mqttSendMutex = some .sender := by simpa [hpc] using hms
      rw [pendingGrant_of_sender s hown1] at hg
      rw [pendingGrant_of_sender]
      · simp_all
      · simpa using hown1
    · by_cases h0 : s.world.pGlobalData.mqttSharedData.dataSent = 0 <;> simp_all
  case senderUnlock iRet hpc hown =>
    have hms := hmi.senderOwns
    obtain ⟨hflag, h01, hg, hc⟩ := hi
    refine ⟨fun q hq => ?_, ?_, ?_, ?_⟩
    · have hfq := hflag q
      have hmq := hmi.producerOwns q
      have hbq := beforeCommit_owns (s.producers q).pc
      clear hflag
      simp_all
    · simp_all
    · clear hflag
      have hown1 : s.world.pGlobalData.mqttSendMutex = some .sender := by simpa [hpc] using hms
      rw [pendingGrant_of_sender s hown1] at hg
      rw [pendingGrant_of_none]
      · simp_all
      · simp
    · simp_all
  case spurious hpc =>
    obtain ⟨hflag, h01, hg, hc⟩ := hi
    exact ⟨hflag, h01, hg, hc⟩

/-! ## Reachable states -/

theorem reachable_inv {s : System} (h : Reachable s) : MutexInv s ∧ SlotInv s := by
  induction h with
  | init topic payload => exact ⟨mutexInv_init topic payload, slotInv_init topic payload⟩
  | step a _ hstep ih =>
    exact ⟨mutexInv_step ih.1 (step_sound hstep), slotInv_step ih.1 ih.2 (step_sound hstep)⟩

theorem reachable_run : ∀ (as : List Action) {s s1 : System}, Reachable s →
    run as s = some s1 → Reachable s1
  | [], s, s1, hr, h => by
    simp only [run, Option.some.injEq] at h
    exact h ▸ hr
  | a :: as, s, s1, hr, h => by
    simp only [run] at h
    cases hs : step s a with
    | none => simp [hs] at h
    | some s2 =>
      rw [hs] at h
      exact reachable_run as (Reachable.step a hr hs) h

/-! ## C2: single-flight mailbox invariant -/

/-- Effect of a step on topic and payload, given the invariants. -/
theorem step_mailbox_text {s s1 : System} {a : Action} (hmi : MutexInv s) (hsi : SlotInv s)
    (h : Step s a s1) :
    (s.world.pGlobalData.mqttSharedData.dataSent = 0 →
      s1.world.pGlobalData.mqttSharedData.pTopic = s.world.pGlobalData.mqttSharedData.pTopic ∧
      s1.world.pGlobalData.mqttSharedData.pPayload =
        s.world.pGlobalData.mqttSharedData.pPayload) ∧
    ((s1.world.pGlobalData.mqttSharedData.pTopic ≠ s.world.pGlobalData.mqttSharedData.pTopic ∨
      s1.world.pGlobalData.mqttSharedData.pPayload ≠
        s.world.pGlobalData.mqttSharedData.pPayload) →
      ∃ p, a = .producer p ∧ s.world.pGlobalData.mqttSendMutex = some (.producer p) ∧
        s.world.pGlobalData.mqttSharedData.dataSent = 1 ∧
        ((s.producers p).pc = .writeTopic ∨ (s.producers p).pc = .writePayload)) := by
  cases h
  case call p topic payload hidle =>
    exact ⟨fun _ => ⟨by simp, by simp⟩, fun hch => absurd hch (by simp)⟩
  case lock p i hpc hfree =>
    exact ⟨fun _ => ⟨by simp, by simp⟩, fun hch => absurd hch (by simp)⟩
  case granted p i hpc hd =>
    exact ⟨fun _ => ⟨by simp, by simp⟩, fun hch => absurd hch (by simp)⟩
  case busy p i hpc hd =>
    exact ⟨fun _ => ⟨by simp, by simp⟩, fun hch => absurd hch (by simp)⟩
  case unlock p i hpc hown =>
    exact ⟨fun _ => ⟨by simp, by simp⟩, fun hch => absurd hch (by simp)⟩
  case sleep p i hpc =>
    exact ⟨fun _ => ⟨by simp, by simp⟩, fun hch => absurd hch (by simp)⟩
  case fail p hpc hmax =>
    exact ⟨fun _ => ⟨by simp, by simp⟩, fun hch => absurd hch (by simp)⟩
  case writeTopic p hpc hfit =>
    have hown : s.world.pGlobalData.mqttSendMutex = some (.producer p) :=
      (hmi.producerOwns p).1 (by simp [hpc])
    have hflag : s.world.pGlobalData.mqttSharedData.dataSent = 1 :=
      hsi.slotFlag p (by simp [hpc])
    refine ⟨fun h0 => ?_, fun _ => ⟨p, rfl, hown, hflag, by simp [hpc]⟩⟩
    rw [hflag] at h0
    exact absurd h0 (by decide)
  case writePayload p hpc hfit =>
    have hown : s.world.pGlobalData.mqttSendMutex = some (.producer p) :=
      (hmi.producerOwns p).1 (by simp [hpc])
    have hflag : s.world.pGlobalData.mqttSharedData.dataSent = 1 :=
      hsi.slotFlag p (by simp [hpc])
    refine ⟨fun h0 => ?_, fun _ => ⟨p, rfl, hown, hflag, by simp [hpc]⟩⟩
    rw [hflag] at h0
    exact absurd h0 (by decide)
  case commit p hpc =>
    exact ⟨fun _ => ⟨by simp, by simp⟩, fun hch => absurd hch (by simp)⟩
  case signal p hpc =>
    exact ⟨fun _ => ⟨by simp, by simp⟩, fun hch => absurd hch (by simp)⟩
  case release p hpc hown =>
    exact ⟨fun _ => ⟨by simp, by simp⟩, fun hch => absurd hch (by simp)⟩
  case senderLock iRet hpc hfree =>
    exact ⟨fun _ => ⟨by simp, by simp⟩, fun hch => absurd hch (by simp)⟩
  case senderPending iRet hpc hd =>
    exact ⟨fun _ => ⟨by simp, by simp⟩, fun hch => absurd hch (by simp)⟩
  case senderWait iRet hpc hd hown =>
    exact ⟨fun _ => ⟨by simp, by simp⟩, fun hch => absurd hch (by simp)⟩
  case senderWake iRet hpc hfree =>
    exact ⟨fun _ => ⟨by simp, by simp⟩, fun hch => absurd hch (by simp)⟩
  case senderPublish iRet hpc =>
    exact ⟨fun _ => ⟨by simp, by simp⟩, fun hch => absurd hch (by simp)⟩
  case senderClear iRet hpc =>
    exact ⟨fun _ => ⟨by simp, by simp⟩, fun hch => absurd hch (by simp)⟩
  case senderUnlock iRet hpc hown =>
    exact ⟨fun _ => ⟨by simp, by simp⟩, fun hch => absurd hch (by simp)⟩
  case spurious hpc =>
    exact ⟨fun _ => ⟨by simp, by simp⟩, fun hch => absurd hch (by simp)⟩

/-- C2. Single-flight mailbox invariant: in every reachable state of the mailbox protocol,
no step changes the topic or the payload of the mailbox while `dataSent == 0`; and a step
that changes the topic or the payload is the write of a producer that owns the mutex, has
got the slot from `getMQTTsendAccess` (it stands at one of the two writes) and finds
`dataSent == 1`. -/
theorem C2_single_flight (s s1 : System) (a : Action) (hr : Reachable s)
    (h : step s a = some s1) :
    (s.world.pGlobalData.mqttSharedData.dataSent = 0 →
      s1.world.pGlobalData.mqttSharedData.pTopic = s.world.pGlobalData.mqttSharedData.pTopic ∧
      s1.world.pGlobalData.mqttSharedData.pPayload =
        s.world.pGlobalData.mqttSharedData.pPayload) ∧
    ((s1.world.pGlobalData.mqttSharedData.pTopic ≠ s.world.pGlobalData.mqttSharedData.pTopic ∨
      s1.world.pGlobalData.mqttSharedData.pPayload ≠
        s.world.pGlobalData.mqttSharedData.pPayload) →
      ∃ p, a = .producer p ∧ s.world.pGlobalData.mqttSendMutex = some (.producer p) ∧
        s.world.pGlobalData.mqttSharedData.dataSent = 1 ∧
        ((s.producers p).pc = .writeTopic ∨ (s.producers p).pc = .writePayload)) :=
  step_mailbox_text (reachable_inv hr).1 (reachable_inv hr).2 (step_sound h)

/-- C2 at the step in which producer 0, having acquired the slot on the initial mailbox,
writes the topic of scenario C. -/
theorem C2_single_flight_witness :
    ∃ s s1, Reachable s ∧ step s (.producer 0) = some s1 ∧
      s.world.pGlobalData.mqttSharedData.pTopic = [] ∧
      s1.world.pGlobalData.mqttSharedData.pTopic = "creoir/talk/speak".toList ∧
      (s.world.pGlobalData.mqttSharedData.dataSent = 0 →
        s1.world.pGlobalData.mqttSharedData.pTopic =
          s.world.pGlobalData.mqttSharedData.pTopic ∧
        s1.world.pGlobalData.mqttSharedData.pPayload =
          s.world.pGlobalData.mqttSharedData.pPayload) ∧
      ((s1.world.pGlobalData.mqttSharedData.pTopic ≠
          s.world.pGlobalData.mqttSharedData.pTopic ∨
        s1.world.pGlobalData.mqttSharedData.pPayload ≠
          s.world.pGlobalData.mqttSharedData.pPayload) →
        ∃ p, Action.producer 0 = .producer p ∧
          s.world.pGlobalData.mqttSendMutex = some (.producer p) ∧
          s.world.pGlobalData.mqttSharedData.dataSent = 1 ∧
          ((s.producers p).pc = .writeTopic ∨ (s.producers p).pc = .writePayload)) :=
  ⟨_, _, reachable_run toWriteTopic (Reachable.init [] []) rfl, rfl, rfl, rfl,
    C2_single_flight _ _ (.producer 0)
      (reachable_run toWriteTopic (Reachable.init [] []) rfl) rfl⟩

/-! ## C5: commit -/

/-- Only the statement `dataSent = 0` of `sendMQTTtopic` takes `dataSent` from a non-zero
value to 0. -/
theorem step_dataSent_zero {s s1 : System} {a : Action} (h : Step s a s1)
    (h0 : s.world.pGlobalData.mqttSharedData.dataSent ≠ 0)
    (h1 : s1.world.pGlobalData.mqttSharedData.dataSent = 0) :
    ∃ p, a = .producer p ∧ (s.producers p).pc = .setFlag := by
  cases h
  case call p topic payload hidle =>
    exact absurd h1 (by simpa using h0)
  case lock p i hpc hfree =>
    exact absurd h1 (by simpa using h0)
  case granted p i hpc hd =>
    exact absurd h1 (by simpa using h0)
  case busy p i hpc hd =>
    exact absurd h1 (by simpa using h0)
  case unlock p i hpc hown =>
    exact absurd h1 (by simpa using h0)
  case sleep p i hpc =>
    exact absurd h1 (by simpa using h0)
  case fail p hpc hmax =>
    exact absurd h1 (by simpa using h0)
  case writeTopic p hpc hfit =>
    exact absurd h1 (by simpa using h0)
  case writePayload p hpc hfit =>
    exact absurd h1 (by simpa using h0)
  case commit p hpc =>
    exact ⟨p, rfl, hpc⟩
  case signal p hpc =>
    exact absurd h1 (by simpa using h0)
  case release p hpc hown =>
    exact absurd h1 (by simpa using h0)
  case senderLock iRet hpc hfree =>
    exact absurd h1 (by simpa using h0)
  case senderPending iRet hpc hd =>
    exact absurd h1 (by simpa using h0)
  case senderWait iRet hpc hd hown =>
    exact absurd h1 (by simpa using h0)
  case senderWake iRet hpc hfree =>
    exact absurd h1 (by simpa using h0)
  case senderPublish iRet hpc =>
    exact absurd h1 (by simpa using h0)
  case senderClear iRet hpc =>
    exact absurd h1 (by simp)
  case senderUnlock iRet hpc hown =>
    exact absurd h1 (by simpa using h0)
  case spurious hpc =>
    exact absurd h1 (by simpa using h0)

/-- What `sendMQTTtopic` does when the caller owns the mutex. -/
theorem sendMQTTtopic_spec (me : Tid) (w : World)
    (hown : w.pGlobalData.mqttSendMutex = some me) :
    ∃ w1, sendMQTTtopic me w = .ok (0, w1) ∧
      w1.pGlobalData.mqttSharedData.dataSent = 0 ∧
      signals w1.trace = signals w.trace + 1 ∧
      w1.pGlobalData.mqttSendMutex = none ∧
      w1.pGlobalData.mqttSharedData.pTopic = w.pGlobalData.mqttSharedData.pTopic ∧
      w1.pGlobalData.mqttSharedData.pPayload = w.pGlobalData.mqttSharedData.pPayload ∧
      w1.pGlobalData.mutexError = w.pGlobalData.mutexError ∧
      publishes w1.trace = publishes w.trace := by
  refine ⟨((wakeMQTTsender { w with pGlobalData.mqttSharedData.dataSent := 0 }).unlocked me),
    ?_, rfl, ?_, rfl, rfl, rfl, rfl, ?_⟩
  · simp [sendMQTTtopic, release_mutex_lock, hown, bind, Except.bind, pure, Except.pure]
  · simp [signals_append, signals]
  · simp [publishes_append, publishes]

/-- C5. commit: when the caller `me` owns the mutex, `sendMQTTtopic` sets `dataSent` to 0,
signals the condition variable exactly once, releases the mutex, returns 0 and leaves topic
and payload (and `mutexError`, and the publish log) unchanged. It is the only operation
that sets `dataSent` to 0: in the mailbox protocol every step that takes `dataSent` from a
non-zero value to 0 is the statement `dataSent = 0` of `sendMQTTtopic`. -/
theorem C5_commit (me : Tid) (w : World) (hown : w.pGlobalData.mqttSendMutex = some me) :
    (∃ w1, sendMQTTtopic me w = .ok (0, w1) ∧
      w1.pGlobalData.mqttSharedData.dataSent = 0 ∧
      signals w1.trace = signals w.trace + 1 ∧
      w1.pGlobalData.mqttSendMutex = none ∧
      w1.pGlobalData.mqttSharedData.pTopic = w.pGlobalData.mqttSharedData.pTopic ∧
      w1.pGlobalData.mqttSharedData.pPayload = w.pGlobalData.mqttSharedData.pPayload ∧
      w1.pGlobalData.mutexError = w.pGlobalData.mutexError ∧
      publishes w1.trace = publishes w.trace) ∧
    (∀ (s s1 : System) (a : Action), step s a = some s1 →
      s.world.pGlobalData.mqttSharedData.dataSent ≠ 0 →
      s1.world.pGlobalData.mqttSharedData.dataSent = 0 →
      ∃ p, a = .producer p ∧ (s.producers p).pc = .setFlag) := by
  constructor
  · exact sendMQTTtopic_spec me w hown
  · intro s s1 a h h0 h1
    exact step_dataSent_zero (step_sound h) h0 h1

/-- C5 at scenario C: producer 0 owns the mutex and has written its message. -/
theorem C5_commit_witness :
    scenarioC.pGlobalData.mqttSendMutex = some (.producer 0) ∧
    ∃ w1, sendMQTTtopic (.producer 0) scenarioC = .ok (0, w1) ∧
      w1.pGlobalData.mqttSharedData.dataSent = 0 ∧
      signals w1.trace = signals scenarioC.trace + 1 ∧
      w1.pGlobalData.mqttSendMutex = none ∧
      w1.pGlobalData.mqttSharedData.pTopic = scenarioC.pGlobalData.mqttSharedData.pTopic ∧
      w1.pGlobalData.mqttSharedData.pPayload = scenarioC.pGlobalData.mqttSharedData.pPayload :=
  ⟨rfl, (C5_commit (.producer 0) scenarioC rfl).1.imp
    (fun _ h => ⟨h.1, h.2.1, h.2.2.1, h.2.2.2.1, h.2.2.2.2.1, h.2.2.2.2.2.1⟩)⟩

/-! ## C6: sender cycle -/

/-- One pass of the sender loop, for every mailbox and every result of the publish call. -/
theorem mqtt_sender_iteration_spec (others : Interference) (iRet : Int) (w : World)
    (hfree : w.pGlobalData.mqttSendMutex ≠ some .sender) :
    ∃ w1, mqtt_sender_iteration others iRet w = .ok w1 ∧
      publishes w1.trace = publishes w.trace ++
        [((mailboxAtPublish others w).pTopic, (mailboxAtPublish others w).pPayload)] ∧
      w1.pGlobalData.mqttSharedData.dataSent = 1 ∧
      w1.pGlobalData.mqttSendMutex = none ∧
      w1.pGlobalData.mqttSharedData.pTopic = (mailboxAtPublish others w).pTopic ∧
      w1.pGlobalData.mqttSharedData.pPayload = (mailboxAtPublish others w).pPayload ∧
      signals w1.trace = signals w.trace ∧
      w1.pGlobalData.mutexError = w.pGlobalData.mutexError := by
  by_cases h0 : w.pGlobalData.mqttSharedData.dataSent = 0
  · refine ⟨({ (w.locked .sender).publish iRet with
        pGlobalData.mqttSharedData.dataSent := 1 } : World).unlocked .sender, ?_, ?_, rfl, rfl,
      ?_, ?_, ?_, ?_⟩
    · simp [mqtt_sender_iteration, request_mutex_lock, release_mutex_lock, hfree, h0, bind,
        Except.bind, pure, Except.pure]
    · simp [publishes_append, publishes, publishes_publish, mailboxAtPublish, h0]
    · simp [mailboxAtPublish, h0]
    · simp [mailboxAtPublish, h0]
    · simp only [unlocked_trace, locked_trace, interfere_trace, signals_append, signals_publish]
      simp [signals]
    · simp
  · refine ⟨({ ((((w.locked .sender).unlocked .sender).interfere others).locked .sender).publish
        iRet with pGlobalData.mqttSharedData.dataSent := 1 } : World).unlocked .sender, ?_, ?_,
      rfl, rfl, ?_, ?_, ?_, ?_⟩
    · simp [mqtt_sender_iteration, pthread_cond_wait, request_mutex_lock, release_mutex_lock,
        hfree, h0, bind, Except.bind, pure, Except.pure]
    · simp [publishes_append, publishes, publishes_publish, mailboxAtPublish, h0]
    · simp [mailboxAtPublish, h0]
    · simp [mailboxAtPublish, h0]
    · simp only [unlocked_trace, locked_trace, interfere_trace, signals_append, signals_publish]
      simp [signals]
    · simp

/-- C6. Sender cycle: for every mailbox state, every behaviour of the other threads during
the wait and every value `iRet` returned by `mosquitto_publish` (success or any failure
code), one pass of the loop of `mqtt_sender` (started without the mutex) calls publish
exactly once, with the topic and payload the mailbox holds at that moment, ends with
`dataSent == 1` and the mutex released, and leaves topic and payload as they were at the
publish call; the publish is not retried. -/
theorem C6_sender_cycle (others : Interference) (iRet : Int) (w : World)
    (hfree : w.pGlobalData.mqttSendMutex ≠ some .sender) :
    ∃ w1, mqtt_sender_iteration others iRet w = .ok w1 ∧
      publishes w1.trace = publishes w.trace ++
        [((mailboxAtPublish others w).pTopic, (mailboxAtPublish others w).pPayload)] ∧
      w1.pGlobalData.mqttSharedData.dataSent = 1 ∧
      w1.pGlobalData.mqttSendMutex = none ∧
      w1.pGlobalData.mqttSharedData.pTopic = (mailboxAtPublish others w).pTopic ∧
      w1.pGlobalData.mqttSharedData.pPayload = (mailboxAtPublish others w).pPayload := by
  obtain ⟨w1, h1, h2, h3, h4, h5, h6, _⟩ := mqtt_sender_iteration_spec others iRet w hfree
  exact ⟨w1, h1, h2, h3, h4, h5, h6⟩

/-- C6 at the pending mailbox `senderBlocked` with a failing publish call (`iRet = 14`). -/
theorem C6_sender_cycle_witness :
    senderBlocked.pGlobalData.mqttSendMutex ≠ some .sender ∧
    ∃ w1, mqtt_sender_iteration (fun m => m) 14 senderBlocked = .ok w1 ∧
      publishes w1.trace = [("creoir/talk/speak".toList, "pending".toList)] ∧
      w1.pGlobalData.mqttSharedData.dataSent = 1 ∧
      w1.pGlobalData.mqttSendMutex = none ∧
      w1.pGlobalData.mqttSharedData.pTopic = "creoir/talk/speak".toList ∧
      w1.pGlobalData.mqttSharedData.pPayload = "pending".toList :=
  ⟨by decide, C6_sender_cycle (fun m => m) 14 senderBlocked (by decide)⟩

/-! ## C7: commit followed by the sender cycle -/

/-- C7. Scenario C generalised: when a producer `me` that has acquired the slot (it owns
the mutex) has written `topic` and `payload` into the mailbox, `sendMQTTtopic` followed by
the next pass of the sender loop produces exactly one publish call, with exactly that topic
and payload, whatever the publish call returns, and `dataSent` reads 1 afterwards. The same
holds when the sender already waits on the condition variable while the producer writes and
commits that message. -/
theorem C7_commit_then_publish (me : Tid) (others : Interference) (iRet : Int) (w : World)
    (topic payload : CString) (hown : w.pGlobalData.mqttSendMutex = some me) :
    (∃ w1 w2,
      sendMQTTtopic me
        { w with
          pGlobalData.mqttSharedData.pTopic := topic
          pGlobalData.mqttSharedData.pPayload := payload } = .ok (0, w1) ∧
      mqtt_sender_iteration others iRet w1 = .ok w2 ∧
      publishes w2.trace = publishes w.trace ++ [(topic, payload)] ∧
      w2.pGlobalData.mqttSharedData.dataSent = 1) ∧
    (∀ w0 : World, w0.pGlobalData.mqttSendMutex ≠ some .sender →
      w0.pGlobalData.mqttSharedData.dataSent ≠ 0 →
      ∃ w2, mqtt_sender_iteration
          (fun _ => { pTopic := topic, pPayload := payload, dataSent := 0 }) iRet w0 = .ok w2 ∧
        publishes w2.trace = publishes w0.trace ++ [(topic, payload)] ∧
        w2.pGlobalData.mqttSharedData.dataSent = 1) := by
  constructor
  · obtain ⟨w1, hsend, hflag, _, hmu, ht, hp, _, hpub⟩ :=
      sendMQTTtopic_spec me
        { w with
          pGlobalData.mqttSharedData.pTopic := topic
          pGlobalData.mqttSharedData.pPayload := payload } hown
    obtain ⟨w2, hiter, hpub2, hflag2, _⟩ :=
      mqtt_sender_iteration_spec others iRet w1 (by rw [hmu]; simp)
    refine ⟨w1, w2, hsend, hiter, ?_, hflag2⟩
    rw [hpub2, hpub]
    simp [mailboxAtPublish, hflag, ht, hp]
  · intro w0 hfree h0
    obtain ⟨w2, hiter, hpub2, hflag2, _⟩ :=
      mqtt_sender_iteration_spec (fun _ => { pTopic := topic, pPayload := payload, dataSent := 0 })
        iRet w0 hfree
    exact ⟨w2, hiter, by simpa [mailboxAtPublish, h0] using hpub2, hflag2⟩

/-- C7 at scenario C: topic `creoir/talk/speak`, payload
`{"utterance":"Routes are now visible."}`; the same publish call results from the handler
code `action_JustRespondSpeech("Routes are now visible.")` followed by the sender. -/
theorem C7_commit_then_publish_witness :
    slotAcquired.pGlobalData.mqttSendMutex = some (.producer 0) ∧
    (∃ w1 w2,
      sendMQTTtopic (.producer 0)
        { slotAcquired with
          pGlobalData.mqttSharedData.pTopic := "creoir/talk/speak".toList
          pGlobalData.mqttSharedData.pPayload :=
            "\x7b\"utterance\":\"Routes are now visible.\"\x7d".toList } = .ok (0, w1) ∧
      mqtt_sender_iteration (fun m => m) 0 w1 = .ok w2 ∧
      publishes w2.trace = publishes slotAcquired.trace ++
        [("creoir/talk/speak".toList,
          "\x7b\"utterance\":\"Routes are now visible.\"\x7d".toList)] ∧
      w2.pGlobalData.mqttSharedData.dataSent = 1) ∧
    displayRoutesThenSender.map (fun w => (publishes w.trace, w.pGlobalData.mqttSharedData.dataSent))
      = .ok ([("creoir/talk/speak".toList,
          "\x7b\"utterance\":\"Routes are now visible.\"\x7d".toList)], 1) :=
  ⟨rfl, (C7_commit_then_publish (.producer 0) (fun m => m) 0 slotAcquired
    "creoir/talk/speak".toList "\x7b\"utterance\":\"Routes are now visible.\"\x7d".toList rfl).1,
    by decide⟩

/-! ## C9: two producers -/

/-- C9. Scenario B: in every reachable state of the mailbox protocol (any number of
producers), (1) no two producers hold the send slot at the same time; (2) a producer that
calls `getMQTTsendAccess` while the mutex is free and `dataSent == 1` gets the slot at once:
its next two statements lock and return 0, without a sleep; (3) whenever a producer passes
the test `dataSent == 1`, every earlier grant has been committed by `sendMQTTtopic` and
every commit has been completed by the sender (it has set `dataSent` back to 1), and no
other producer holds the slot; (4) while a message is pending (`dataSent == 0`) a producer
that tests the flag does not get the slot but goes on to release the mutex and sleep. -/
theorem C9_two_producers (s : System) (hr : Reachable s) :
    (∀ p q, (s.producers p).pc.holdsSlot = true → (s.producers q).pc.holdsSlot = true →
      p = q) ∧
    (∀ p i, (s.producers p).pc = .lock i → s.world.pGlobalData.mqttSendMutex = none →
      s.world.pGlobalData.mqttSharedData.dataSent = 1 →
      ∃ s1 s2, step s (.producer p) = some s1 ∧ step s1 (.producer p) = some s2 ∧
        (s2.producers p).pc = .writeTopic ∧ sleeps s2.world.trace = sleeps s.world.trace) ∧
    (∀ p i, (s.producers p).pc = .test i → s.world.pGlobalData.mqttSharedData.dataSent = 1 →
      s.grants = s.committed.length ∧ s.committed.length = s.clears ∧
      ∀ q, (s.producers q).pc.holdsSlot = false) ∧
    (∀ p i, (s.producers p).pc = .test i → s.world.pGlobalData.mqttSharedData.dataSent = 0 →
      ∃ s1, step s (.producer p) = some s1 ∧ (s1.producers p).pc = .unlock i ∧
        s1.grants = s.grants) := by
  obtain ⟨hmi, hsi⟩ := reachable_inv hr
  refine ⟨?_, ?_, ?_, ?_⟩
  · intro p q hp hq
    have h1 := (hmi.producerOwns p).1 (holdsSlot_owns _ hp)
    have h2 := (hmi.producerOwns q).1 (holdsSlot_owns _ hq)
    rw [h1] at h2
    simpa using h2
  · intro p i hpc hfree hflag
    refine ⟨({ s with world := s.world.locked (.producer p) } : System).goto p (.test i),
      ({ (({ s with world := s.world.locked (.producer p) } : System).goto p (.test i)) with
        grants := s.grants + 1 } : System).goto p .writeTopic, ?_, ?_, ?_, ?_⟩
    · simp [step, stepProducer, hpc, tryLock, request_mutex_lock, hfree, Except.toOption]
    · simp [step, stepProducer, hflag]
    · simp
    · simp [sleeps_append, sleeps]
  · intro p i hpc hflag
    have hown := (hmi.producerOwns p).1 (by simp [hpc])
    have hg := hsi.grantsEq
    have hc := hsi.commitsEq
    rw [pendingGrant_of_owner s p hown] at hg
    refine ⟨by simpa [hpc] using hg, by simpa [hflag] using hc, fun q => ?_⟩
    by_contra hq
    have hq1 : (s.producers q).pc.holdsSlot = true := by simpa using hq
    have h2 := (hmi.producerOwns q).1 (holdsSlot_owns _ hq1)
    rw [hown] at h2
    have hqp : p = q := by simpa using h2
    subst hqp
    simp [hpc, ProducerPc.holdsSlot] at hq1
  · intro p i hpc hflag
    refine ⟨s.goto p (.unlock i), ?_, by simp, by simp⟩
    simp [step, stepProducer, hpc, hflag]

/-- C9 at scenario B: producers 0 and 1 call at the same time and producer 0 gets the mutex.
Producer 1 cannot move (it waits for the mutex) while producer 0 gets the slot at once; after
producer 0 has committed, producer 1 finds `dataSent == 0` and is sent to sleep; after the
sender has completed its pass, producer 1 gets the slot. -/
theorem C9_two_producers_witness :
    (∃ s, run scenarioB (System.init [] []) = some s ∧ Reachable s ∧
      step s (.producer 1) = none ∧
      (∀ p q, (s.producers p).pc.holdsSlot = true → (s.producers q).pc.holdsSlot = true →
        p = q) ∧
      (∀ p i, (s.producers p).pc = .test i →
        s.world.pGlobalData.mqttSharedData.dataSent = 1 →
        s.grants = s.committed.length ∧ s.committed.length = s.clears ∧
        ∀ q, (s.producers q).pc.holdsSlot = false)) ∧
    (∃ s, run (scenarioB_committed ++ [.producer 1, .producer 1, .producer 1])
        (System.init [] []) = some s ∧
      (s.producers 1).pc = .sleep 100 ∧ s.grants = 1 ∧ s.committed.length = 1 ∧
      s.clears = 0) ∧
    (∃ s, run scenarioB_cleared (System.init [] []) = some s ∧
      (s.producers 1).pc = .writeTopic ∧ s.grants = 2 ∧ s.committed.length = 1 ∧
      s.clears = 1 ∧ publishes s.world.trace = [("creoir/talk/speak".toList, "first".toList)]) :=
  ⟨⟨_, rfl, reachable_run scenarioB (Reachable.init [] []) rfl, rfl,
      (C9_two_producers _ (reachable_run scenarioB (Reachable.init [] []) rfl)).1,
      (C9_two_producers _ (reachable_run scenarioB (Reachable.init [] []) rfl)).2.2.1⟩,
    ⟨_, rfl, rfl, rfl, rfl, rfl⟩, ⟨_, rfl, rfl, rfl, rfl, rfl, rfl⟩⟩

/-! ## The dispatcher -/

theorem queueHolds_congr {w w1 : World} {as : List Nat} {L : List Event}
    (hh : w1.heap = w.heap)
    (hhead : w1.pGlobalData.eventListHead = w.pGlobalData.eventListHead)
    (htail : w1.pGlobalData.eventListTail = w.pGlobalData.eventListTail)
    (hsem : w1.pGlobalData.eventSemap = w.pGlobalData.eventSemap) (hq : QueueHolds w as L) :
    QueueHolds w1 as L := by
  unfold QueueHolds at *
  rw [hh, hhead, htail, hsem]
  exact hq

/-- A call from the `switch` whose value is dropped returns exactly when the handler does. -/
theorem handler_call_ok {handlers : Handlers} {c : HandlerCall} {w v : World}
    (h : (do let (_, w1) ← handlers c w; pure w1 : Except Stuck World) = .ok v) :
    ∃ r, handlers c w = .ok (r, v) := by
  cases hc : handlers c w with
  | error e => simp [hc, bind, Except.bind] at h
  | ok r =>
    obtain ⟨r1, v1⟩ := r
    simp only [hc, bind, Except.bind, pure, Except.pure] at h
    cases h
    exact ⟨r1, rfl⟩

/-- The `switch` leaves the queue alone, and only the stop event sets `appExit`. -/
theorem dispatch_keep {handlers : Handlers} (hk : handlers.KeepQueue)
    {event : APPLICATION_EVENT} {eventData : APPLICATION_EVENTDATA} {w v : World}
    (h : dispatch handlers event eventData w = .ok v) :
    v.heap = w.heap ∧
    v.pGlobalData.eventListHead = w.pGlobalData.eventListHead ∧
    v.pGlobalData.eventListTail = w.pGlobalData.eventListTail ∧
    v.pGlobalData.eventSemap = w.pGlobalData.eventSemap ∧
    v.pGlobalData.appExit = if event = .EVT_APP_STOP then 1 else w.pGlobalData.appExit := by
  cases event <;> simp only [dispatch] at h
  case EVT_KEYPRESS =>
    cases hc : handlers (.handleEvt_onWakeword eventData) w with
    | error e => simp [hc, bind, Except.bind] at h
    | ok r =>
      obtain ⟨r1, v1⟩ := r
      have h1 := hk _ _ _ hc
      simp only [hc, bind, Except.bind] at h
      split at h
      · obtain ⟨r2, h2⟩ := handler_call_ok h
        have h3 := hk _ _ _ h2
        simp only at h1 h3
        simp only [h3.1, h3.2.1, h3.2.2.1, h3.2.2.2.1, h3.2.2.2.2, h1.1, h1.2.1, h1.2.2.1,
          h1.2.2.2.1, h1.2.2.2.2]
        simp
      · split at h
        · obtain ⟨r2, h2⟩ := handler_call_ok h
          have h3 := hk _ _ _ h2
          simp only at h1 h3
          simp only [h3.1, h3.2.1, h3.2.2.1, h3.2.2.2.1, h3.2.2.2.2, h1.1, h1.2.1, h1.2.2.1,
            h1.2.2.2.1, h1.2.2.2.2]
          simp
        · cases h
          simpa using h1
  case EVT_APP_STOP =>
    cases h
    simp
  case EVT_MQTT_PING =>
    cases h
    simp
  case EVT_MQTT_PONG =>
    cases h
    simp
  all_goals
    obtain ⟨r, hr⟩ := handler_call_ok h
    simpa using hk _ _ _ hr

/-- On a well-formed queue that holds an event, what `popEvent` returns does not depend on
the values its two output parameters had before the call. -/
theorem popEvent_locals {w : World} {a : Nat} {as : List Nat} {e : Event} {L : List Event}
    (event event1 : APPLICATION_EVENT) (eventData eventData1 : APPLICATION_EVENTDATA)
    (hq : QueueHolds w (a :: as) (e :: L)) :
    popEvent event eventData w = popEvent event1 eventData1 w := by
  obtain ⟨hc, hnd, htail, hsem, hfit⟩ := hq
  obtain ⟨hhead, nxt, ha, hc1⟩ := hc
  have he : e.2.topicPayload.length < TOPIC_PAYLOAD_SIZE := hfit e (List.mem_cons_self _ _)
  have hsem0 : w.pGlobalData.eventSemap ≠ 0 := by
    rw [hsem]
    simp
  simp [popEvent, mt_semaphore_acquire, hsem0, hhead, World.node, ha, strcpy, he, bind,
    Except.bind, pure, Except.pure]

/-- The loop of `app_eventloop` on a well-formed queue whose first stop event comes after
the events `pre` is the run `handleEvents` on `pre` and the stop event: it makes
`pre.length + 1` passes, runs the `switch` on these events in queue order, and does not
return when a handler called on the way does not. -/
theorem app_eventloop_run {handlers : Handlers} (hk : handlers.KeepQueue)
    (stopData : APPLICATION_EVENTDATA) (post : List Event) :
    ∀ (pre : List Event) (w : World) (as : List Nat) (fuel : Nat)
      (applicationEvent : APPLICATION_EVENT) (eventData : APPLICATION_EVENTDATA),
      (∀ e ∈ pre, e.1 ≠ .EVT_APP_STOP) →
      QueueHolds w as (pre ++ (.EVT_APP_STOP, stopData) :: post) →
      w.pGlobalData.appExit = 0 → pre.length + 1 ≤ fuel →
      app_eventloop handlers fuel applicationEvent eventData w =
        (handleEvents handlers (pre ++ [(.EVT_APP_STOP, stopData)]) w).map
          (fun v => LoopResult.mk 0 (pre ++ [(.EVT_APP_STOP, stopData)]) v)
  | _, _, [], _, _, _, _, hq, _, _ => by
    have := chain_length hq.1
    simp at this
    omega
  | _, _, _ :: _, 0, _, _, _, _, _, hfuel => absurd hfuel (by omega)
  | [], w, a :: as, fuel + 1, applicationEvent, eventData, _, hq, _, _ => by
    obtain ⟨w1, hpop, hq1, _⟩ := popEvent_holds applicationEvent eventData hq
    have hpop1 := (popEvent_locals .EVT_APP_STOP applicationEvent stopData eventData hq).trans
      hpop
    simp [app_eventloop, handleEvents, hpop, hpop1, dispatch, bind, Except.bind, pure,
      Except.pure, Except.map]
  | e :: pre, w, a :: as, fuel + 1, applicationEvent, eventData, hpre, hq, hexit, hfuel => by
    obtain ⟨w1, hpop, hq1, hexit1, _⟩ := popEvent_holds applicationEvent eventData hq
    have hpop1 := (popEvent_locals e.1 applicationEvent e.2 eventData hq).trans hpop
    have hne : e.1 ≠ .EVT_APP_STOP := hpre e (List.mem_cons_self _ _)
    simp only [app_eventloop, handleEvents, List.cons_append, hpop, hpop1, bind, Except.bind]
    cases hd : dispatch handlers e.1 e.2 w1 with
    | error x => rfl
    | ok w2 =>
      obtain ⟨d1, d2, d3, d4, d5⟩ := dispatch_keep hk hd
      have hexit2 : w2.pGlobalData.appExit = 0 := by
        rw [d5, if_neg hne, hexit1, hexit]
      have hrec := app_eventloop_run hk stopData post pre w2 as fuel e.1 e.2
        (fun x hx => hpre x (List.mem_cons_of_mem _ hx))
        (queueHolds_congr d1 d2 d3 d4 hq1) hexit2 (by simp at hfuel; omega)
      simp only [hexit2, hrec]
      cases handleEvents handlers (pre ++ [(.EVT_APP_STOP, stopData)]) w2 <;>
        simp [Except.map, pure, Except.pure]

/-- What the run `handleEvents` leaves on a well-formed queue: after the events `pre` and
the stop event have been handled, `appExit` is 1 and the events behind the stop event are
still in the queue. -/
theorem handleEvents_holds {handlers : Handlers} (hk : handlers.KeepQueue)
    (stopData : APPLICATION_EVENTDATA) (post : List Event) :
    ∀ (pre : List Event) (w v : World) (as : List Nat),
      QueueHolds w as (pre ++ (.EVT_APP_STOP, stopData) :: post) →
      handleEvents handlers (pre ++ [(.EVT_APP_STOP, stopData)]) w = .ok v →
      v.pGlobalData.appExit = 1 ∧ QueueHolds v (as.drop (pre.length + 1)) post
  | _, _, _, [], hq, _ => by
    have := chain_length hq.1
    simp at this
    omega
  | [], w, v, a :: as, hq, h => by
    obtain ⟨w1, hpop, hq1, _⟩ := popEvent_holds (a := a) (w := w) .EVT_APP_STOP stopData hq
    simp only [handleEvents, List.nil_append, hpop, dispatch, bind, Except.bind, pure,
      Except.pure] at h
    cases h
    exact ⟨rfl, by simpa using queueHolds_congr rfl rfl rfl rfl hq1⟩
  | e :: pre, w, v, a :: as, hq, h => by
    obtain ⟨w1, hpop, hq1, _⟩ := popEvent_holds (a := a) (w := w) e.1 e.2 hq
    simp only [handleEvents, List.cons_append, hpop, bind, Except.bind] at h
    cases hd : dispatch handlers e.1 e.2 w1 with
    | error x => simp [hd] at h
    | ok w2 =>
      simp only [hd] at h
      obtain ⟨d1, d2, d3, d4, _⟩ := dispatch_keep hk hd
      simpa using handleEvents_holds hk stopData post pre w2 v as
        (queueHolds_congr d1 d2 d3 d4 hq1) h

/-- The loop of `app_eventloop` on a well-formed queue whose first stop event comes after
the events `pre`, when the handlers called for `pre` return. -/
theorem app_eventloop_holds {handlers : Handlers} (hk : handlers.KeepQueue)
    (stopData : APPLICATION_EVENTDATA) (post : List Event) (pre : List Event) (w v : World)
    (as : List Nat) (fuel : Nat) (applicationEvent : APPLICATION_EVENT)
    (eventData : APPLICATION_EVENTDATA) (hpre : ∀ e ∈ pre, e.1 ≠ .EVT_APP_STOP)
    (hq : QueueHolds w as (pre ++ (.EVT_APP_STOP, stopData) :: post))
    (hexit : w.pGlobalData.appExit = 0) (hfuel : pre.length + 1 ≤ fuel)
    (hrun : handleEvents handlers (pre ++ [(.EVT_APP_STOP, stopData)]) w = .ok v) :
    ∃ r, app_eventloop handlers fuel applicationEvent eventData w = .ok r ∧ r.ret = 0 ∧
      r.handled = pre ++ [(.EVT_APP_STOP, stopData)] ∧ r.world = v ∧
      r.world.pGlobalData.appExit = 1 ∧
      QueueHolds r.world (as.drop (pre.length + 1)) post := by
  have h := app_eventloop_run hk stopData post pre w as fuel applicationEvent eventData hpre hq
    hexit hfuel
  rw [hrun] at h
  obtain ⟨h1, h2⟩ := handleEvents_holds hk stopData post pre w v as hq hrun
  exact ⟨_, h, rfl, rfl, rfl, h1, h2⟩
theorem queueFrame_refl (w : World) : QueueFrame w w := ⟨rfl, rfl, rfl, rfl, rfl⟩

theorem queueFrame_trans {a b c : World} (h1 : QueueFrame a b) (h2 : QueueFrame b c) :
    QueueFrame a c :=
  ⟨h2.1.trans h1.1, h2.2.1.trans h1.2.1, h2.2.2.1.trans h1.2.2.1,
    h2.2.2.2.1.trans h1.2.2.2.1, h2.2.2.2.2.trans h1.2.2.2.2⟩

theorem request_mutex_lock_frame {me : Tid} {w w1 : World}
    (h : request_mutex_lock me w = .ok w1) : QueueFrame w w1 := by
  unfold request_mutex_lock at h
  split at h
  · cases h
  · cases h
    exact ⟨rfl, rfl, rfl, rfl, rfl⟩

theorem release_mutex_lock_frame {me : Tid} {w w1 : World}
    (h : release_mutex_lock me w = .ok w1) : QueueFrame w w1 := by
  unfold release_mutex_lock at h
  split at h
  · cases h
    exact ⟨rfl, rfl, rfl, rfl, rfl⟩
  · cases h

/-- `getMQTTsendAccess` leaves the event queue and `appExit` alone. -/
theorem getMQTTsendAccess_loop_frame (me : Tid) (others : Nat → Interference) :
    ∀ (i k : Nat) (w : World) (rc : Int) (w1 : World),
      getMQTTsendAccess_loop me others i k w = .ok (rc, w1) → QueueFrame w w1
  | 0, k, w, rc, w1, h => by
    simp only [getMQTTsendAccess_loop, countMutexError] at h
    split at h
    · cases h
      exact ⟨rfl, rfl, rfl, rfl, rfl⟩
    · cases h
  | i + 1, k, w, rc, w1, h => by
    simp only [getMQTTsendAccess_loop] at h
    cases hl : request_mutex_lock me (w.interfere (others k)) with
    | error e => simp [hl, bind, Except.bind] at h
    | ok w2 =>
      have f1 : QueueFrame w w2 :=
        queueFrame_trans (b := w.interfere (others k)) ⟨rfl, rfl, rfl, rfl, rfl⟩
          (request_mutex_lock_frame hl)
      simp only [hl, bind, Except.bind] at h
      split at h
      · cases h
        exact f1
      · cases hr : release_mutex_lock me w2 with
        | error e => simp [hr] at h
        | ok w3 =>
          simp only [hr] at h
          have f2 := release_mutex_lock_frame hr
          have f3 := getMQTTsendAccess_loop_frame me others i (k + 1) _ rc w1 h
          exact queueFrame_trans f1 (queueFrame_trans f2
            (queueFrame_trans (b := w3.emit (.usleep 100000)) ⟨rfl, rfl, rfl, rfl, rfl⟩ f3))

/-- `sendMQTTtopic` leaves the event queue and `appExit` alone. -/
theorem sendMQTTtopic_frame {me : Tid} {w v : World} {r : Int}
    (h : sendMQTTtopic me w = .ok (r, v)) : QueueFrame w v := by
  simp only [sendMQTTtopic, bind, Except.bind] at h
  split at h
  · cases h
  · rename_i w3 hr
    cases h
    exact queueFrame_trans
      (b := wakeMQTTsender { w with pGlobalData.mqttSharedData.dataSent := 0 })
      ⟨rfl, rfl, rfl, rfl, rfl⟩ (release_mutex_lock_frame hr)

/-- `action_JustRespondSpeech` leaves the event queue and `appExit` alone. -/
theorem action_JustRespondSpeech_frame {me : Tid} {others : Nat → Interference}
    {objectOk : Bool} {json : cJSON_compose} {pUtterance : CString} {w v : World} {r : Int}
    (h : action_JustRespondSpeech me others objectOk json pUtterance w = .ok (r, v)) :
    QueueFrame w v := by
  unfold action_JustRespondSpeech at h
  split at h
  · cases h
    exact ⟨rfl, rfl, rfl, rfl, rfl⟩
  · split at h
    · cases h
      exact ⟨rfl, rfl, rfl, rfl, rfl⟩
    · rename_i pPayloadOut _
      cases hg : getMQTTsendAccess me others w with
      | error e => simp [hg, bind, Except.bind] at h
      | ok r1 =>
        obtain ⟨rc1, w2⟩ := r1
        have f1 := getMQTTsendAccess_loop_frame me others 100 0 w rc1 w2 hg
        simp only [hg, bind, Except.bind] at h
        split at h
        · cases h
          exact queueFrame_trans f1 ⟨rfl, rfl, rfl, rfl, rfl⟩
        · split at h
          · cases h
          · rename_i topic _
            split at h
            · cases h
            · rename_i payload _
              split at h
              · cases h
              · rename_i r2 hs
                cases h
                exact queueFrame_trans f1 (queueFrame_trans
                  (b := { w2 with
                    pGlobalData.mqttSharedData.pTopic := topic
                    pGlobalData.mqttSharedData.pPayload := payload })
                  ⟨rfl, rfl, rfl, rfl, rfl⟩ (sendMQTTtopic_frame (r := r2.1) hs))


/-- The statements that every sending function of `action.c` ends with
(`getMQTTsendAccess`, the writes of topic and payload, `sendMQTTtopic`) leave the event queue
and `appExit` alone. -/
theorem send_frame {me : Tid} {others : Nat → Interference} {w v : World} {r c : Int}
    {msg : String} {t p : CString}
    (h : (do
      let (rc, w1) ← getMQTTsendAccess me others w
      if rc < 0 then
        pure (c, w1.emit (.dbg_error msg))
      else
        let topic ← strcpy MQTT_SEND_TOPIC_SIZE t
        let w2 : World := { w1 with pGlobalData.mqttSharedData.pTopic := topic }
        let payload ← strcpy MQTT_SEND_PAYLOAD_SIZE p
        let w3 : World := { w2 with pGlobalData.mqttSharedData.pPayload := payload }
        let (_, w4) ← sendMQTTtopic me w3
        pure (0, w4) : Except Stuck (Int × World)) = .ok (r, v)) : QueueFrame w v := by
  cases hg : getMQTTsendAccess me others w with
  | error e => simp [hg, bind, Except.bind] at h
  | ok r1 =>
    obtain ⟨rc1, w2⟩ := r1
    have f1 := getMQTTsendAccess_loop_frame me others 100 0 w rc1 w2 hg
    simp only [hg, bind, Except.bind] at h
    split at h
    · cases h
      exact queueFrame_trans f1 ⟨rfl, rfl, rfl, rfl, rfl⟩
    · split at h
      · cases h
      · rename_i topic _
        split at h
        · cases h
        · rename_i payload _
          split at h
          · cases h
          · rename_i r2 hs
            cases h
            exact queueFrame_trans f1 (queueFrame_trans
              (b := { w2 with
                pGlobalData.mqttSharedData.pTopic := topic
                pGlobalData.mqttSharedData.pPayload := payload })
              ⟨rfl, rfl, rfl, rfl, rfl⟩ (sendMQTTtopic_frame (r := r2.1) hs))

theorem action_saveTacticalSituation_frame {me : Tid} {others : Nat → Interference}
    {objectOk : Bool} {json : cJSON_compose} {i : Int} {a : Option cJSON} {w v : World}
    {r : Int}
    (h : action_saveTacticalSituation me others objectOk json i a w = .ok (r, v)) :
    QueueFrame w v := by
  unfold action_saveTacticalSituation at h
  split at h
  · cases h
    exact ⟨rfl, rfl, rfl, rfl, rfl⟩
  · split at h
    · cases h
      exact ⟨rfl, rfl, rfl, rfl, rfl⟩
    · exact send_frame h

theorem action_playLowConfidence_frame {me : Tid} {others : Nat → Interference}
    {objectOk : Bool} {json : cJSON_compose} {w v : World} {r : Int}
    (h : action_playLowConfidence me others objectOk json w = .ok (r, v)) :
    QueueFrame w v := by
  unfold action_playLowConfidence at h
  split at h
  · cases h
    exact ⟨rfl, rfl, rfl, rfl, rfl⟩
  · split at h
    · cases h
      exact ⟨rfl, rfl, rfl, rfl, rfl⟩
    · exact send_frame h

theorem setGrammar_frame {me : Tid} {others : Nat → Interference}
    {objectOk : Bool} {print : cJSON_PrintUnformatted} {g a : CString} {t : Int} {w v : World}
    {r : Int}
    (h : setGrammar me others objectOk print g t a w = .ok (r, v)) :
    QueueFrame w v := by
  unfold setGrammar at h
  split at h
  · cases h
    exact ⟨rfl, rfl, rfl, rfl, rfl⟩
  · split at h
    · cases h
      exact ⟨rfl, rfl, rfl, rfl, rfl⟩
    · exact send_frame h

theorem handleEvt_onWakeword_frame {me : Tid} {others : Nat → Interference}
    {json : cJSON_compose} {d : Option APPLICATION_EVENTDATA} {w v : World} {r : Int}
    (h : handleEvt_onWakeword me others json d w = .ok (r, v)) :
    QueueFrame w v := by
  unfold handleEvt_onWakeword at h
  simp only at h
  split at h
  · cases h
    cases d <;> exact ⟨rfl, rfl, rfl, rfl, rfl⟩
  · have := send_frame h
    cases d <;> exact this

theorem handleEvt_onStartup_frame {me : Tid} {others : Nat → Interference}
    {json : cJSON_compose} {d : Option APPLICATION_EVENTDATA} {w v : World} {r : Int}
    (h : handleEvt_onStartup me others json d w = .ok (r, v)) :
    QueueFrame w v := by
  unfold handleEvt_onStartup at h
  simp only at h
  split at h
  · cases h
    cases d <;> exact ⟨rfl, rfl, rfl, rfl, rfl⟩
  · have := send_frame h
    cases d <;> exact this

theorem handleEvt_intentNotRecognized_frame {me : Tid} {others : Nat → Interference}
    {objectOk : Bool} {json : cJSON_compose} {parse : cJSON_Parse}
    {d : Option APPLICATION_EVENTDATA} {w v : World} {r : Int}
    (h : handleEvt_intentNotRecognized me others objectOk json parse d w = .ok (r, v)) :
    QueueFrame w v := by
  unfold handleEvt_intentNotRecognized at h
  repeat' split at h
  all_goals first
    | (cases h; exact ⟨rfl, rfl, rfl, rfl, rfl⟩)
    | cases h
    | skip
  simp only [bind, Except.bind, pure, Except.pure] at h
  split at h
  · cases h
  · rename_i r1 hr
    cases h
    exact action_playLowConfidence_frame (r := r1.1) hr

theorem handleEvt_intentRecognized_frame {me : Tid} {others : Nat → Interference}
    {objectOk : Bool} {json : cJSON_compose} {parse : cJSON_Parse} {st s : IntentStatics}
    {d : Option APPLICATION_EVENTDATA} {w v : World} {r : Int}
    (h : handleEvt_intentRecognized me others objectOk json parse st d w = .ok (r, s, v)) :
    QueueFrame w v := by
  unfold handleEvt_intentRecognized at h
  repeat' split at h
  all_goals first
    | (cases h; exact ⟨rfl, rfl, rfl, rfl, rfl⟩)
    | cases h
    | skip
  all_goals
    simp only [bind, Except.bind, pure, Except.pure] at h
    split at h
    · cases h
    · rename_i r1 hr
      cases h
      first
        | exact action_saveTacticalSituation_frame (r := r1.1) hr
        | exact action_JustRespondSpeech_frame (r := r1.1) hr

theorem handleEvt_MQTTuserIdentified_frame {me : Tid} {others : Nat → Interference}
    {objectOk : Bool} {json : cJSON_compose} {parse : cJSON_Parse} {t p q : Int}
    {d : Option APPLICATION_EVENTDATA} {w v : World} {r : Int}
    (h : handleEvt_MQTTuserIdentified me others objectOk json parse t p d w = .ok (r, q, v)) :
    QueueFrame w v := by
  unfold handleEvt_MQTTuserIdentified at h
  repeat' split at h
  all_goals first
    | (cases h; exact ⟨rfl, rfl, rfl, rfl, rfl⟩)
    | cases h
    | skip
  · simp only [bind, Except.bind, pure, Except.pure] at h
    split at h
    · cases h
    · cases h
      exact ⟨rfl, rfl, rfl, rfl, rfl⟩
  · simp only [bind, Except.bind, pure, Except.pure] at h
    split at h
    · cases h
    · split at h
      · cases h
        exact ⟨rfl, rfl, rfl, rfl, rfl⟩
      · cases hg : getMQTTsendAccess me others w with
        | error e => simp [hg] at h
        | ok r1 =>
          obtain ⟨rc1, w2⟩ := r1
          have f1 := getMQTTsendAccess_loop_frame me others 100 0 w rc1 w2 hg
          simp only [hg] at h
          split at h
          · cases h
            exact queueFrame_trans f1 ⟨rfl, rfl, rfl, rfl, rfl⟩
          · split at h
            · cases h
            · rename_i topic _
              split at h
              · cases h
              · rename_i payload _
                split at h
                · cases h
                · rename_i r2 hs
                  cases h
                  exact queueFrame_trans f1 (queueFrame_trans
                    (b := { w2 with
                      pGlobalData.mqttSharedData.pTopic := topic
                      pGlobalData.mqttSharedData.pPayload := payload })
                    ⟨rfl, rfl, rfl, rfl, rfl⟩ (sendMQTTtopic_frame (r := r2.1) hs))

/-- The functions of `action.c` called from the loop leave the event queue and `appExit`
alone, whatever the environment does. -/
theorem actionHandlers_keepQueue (me : Tid) (others : Nat → Interference) (objectOk : Bool)
    (json : cJSON_compose) (print : cJSON_PrintUnformatted) (parse : cJSON_Parse)
    (clock : World → Int) :
    (actionHandlers me others objectOk json print parse clock).KeepQueue := by
  intro c w r h
  obtain ⟨r1, v⟩ := r
  cases c <;> simp only [actionHandlers] at h
  case handleEvt_onWakeword d => exact handleEvt_onWakeword_frame h
  case handleEvt_intentRecognized d =>
    simp only [bind, Except.bind, pure, Except.pure] at h
    split at h
    · cases h
    · rename_i r2 hr
      cases h
      exact handleEvt_intentRecognized_frame (r := r2.1) (s := r2.2.1) (v := r2.2.2) hr
  case handleEvt_intentNotRecognized d => exact handleEvt_intentNotRecognized_frame h
  case handleEvt_MQTTuserIdentified d =>
    simp only [bind, Except.bind, pure, Except.pure] at h
    split at h
    · cases h
    · rename_i r2 hr
      cases h
      exact handleEvt_MQTTuserIdentified_frame (r := r2.1) (q := r2.2.1) (v := r2.2.2) hr
  case handleEvt_onStartup d => exact handleEvt_onStartup_frame h
  case setGrammar g t a => exact setGrammar_frame h

theorem scenarioA_queue_holds : QueueHolds scenarioA_queue [0, 1, 2, 3] scenarioA := by
  refine ⟨?_, by decide, rfl, rfl, by decide⟩
  refine ⟨rfl, _, rfl, rfl, _, rfl, rfl, _, rfl, rfl, _, rfl, rfl⟩

/-! ## C8: publish discipline -/

@[simp] theorem after_sleep_ne_signal (i : Nat) :
    (if i - 1 = 0 then ProducerPc.fail else ProducerPc.lock (i - 1)) ≠ .signal := by
  split <;> simp

@[simp] theorem signalled_eq_setFlag (pc : SenderPc) :
    ((if pc = .wait then SenderPc.wake else pc) = .setFlag) ↔ pc = .setFlag := by
  split
  · rename_i h
    subst h
    simp
  · rfl

theorem publishInv_init (topic payload : CString) : PublishInv (System.init topic payload) :=
  ⟨fun h => by simp [System.init] at h, fun h => by simp [System.init] at h,
    fun h => by simp [System.init] at h, fun _ h => by simp [System.init] at h,
    by simp [System.init, main_init, publishes]⟩

theorem publishInv_step {s s1 : System} {a : Action} (hquiet : a ≠ .spurious)
    (hmi : MutexInv s) (hslot : ∀ p, (s.producers p).pc.beforeCommit = true →
      s.world.pGlobalData.mqttSharedData.dataSent = 1)
    (hi : PublishInv s) (h : Step s a s1) : PublishInv s1 := by
  cases h
  case call p topic payload hidle =>
    obtain ⟨hw, hpb, hsf, hsig, hpubl⟩ := hi
    refine ⟨hw, hpb, hsf, fun q hq => ?_, hpubl⟩
    by_cases hqp : q = p
    · subst hqp
      simp at hq
    · simp [Function.update_noteq hqp] at hq
      exact hsig q hq
  case lock p i hpc hfree =>
    have hmp := hmi.producerOwns p
    have hms := hmi.senderOwns
    have hfp := hslot p
    obtain ⟨hw, hpb, hsf, hsig, hpubl⟩ := hi
    refine ⟨?_, ?_, ?_, fun q hq => ?_, ?_⟩
    · simp_all
    · simp_all
    · simp_all
    · have hsq := hsig q
      clear hsig
      by_cases hqp : q = p
      · subst hqp
        simp_all
      · have hpq : ¬p = q := fun h => hqp h.symm
        simp_all
    · clear hsig
      simp_all [publishes_append, publishes]
  case granted p i hpc hd =>
    have hmp := hmi.producerOwns p
    have hms := hmi.senderOwns
    have hfp := hslot p
    obtain ⟨hw, hpb, hsf, hsig, hpubl⟩ := hi
    refine ⟨?_, ?_, ?_, fun q hq => ?_, ?_⟩
    · simp_all
    · simp_all
    · simp_all
    · have hsq := hsig q
      clear hsig
      by_cases hqp : q = p
      · subst hqp
        simp_all
      · have hpq : ¬p = q := fun h => hqp h.symm
        simp_all
    · clear hsig
      simp_all [publishes_append, publishes]
  case busy p i hpc hd =>
    have hmp := hmi.producerOwns p
    have hms := hmi.senderOwns
    have hfp := hslot p
    obtain ⟨hw, hpb, hsf, hsig, hpubl⟩ := hi
    refine ⟨?_, ?_, ?_, fun q hq => ?_, ?_⟩
    · simp_all
    · simp_all
    · simp_all
    · have hsq := hsig q
      clear hsig
      by_cases hqp : q = p
      · subst hqp
        simp_all
      · have hpq : ¬p = q := fun h => hqp h.symm
        simp_all
    · clear hsig
      simp_all [publishes_append, publishes]
  case unlock p i hpc hown =>
    have hmp := hmi.producerOwns p
    have hms := hmi.senderOwns
    have hfp := hslot p
    obtain ⟨hw, hpb, hsf, hsig, hpubl⟩ := hi
    refine ⟨?_, ?_, ?_, fun q hq => ?_, ?_⟩
    · simp_all
    · simp_all
    · simp_all
    · have hsq := hsig q
      clear hsig
      by_cases hqp : q = p
      · subst hqp
        simp_all
      · have hpq : ¬p = q := fun h => hqp h.symm
        simp_all
    · clear hsig
      simp_all [publishes_append, publishes]
  case sleep p i hpc =>
    have hmp := hmi.producerOwns p
    have hms := hmi.senderOwns
    have hfp := hslot p
    obtain ⟨hw, hpb, hsf, hsig, hpubl⟩ := hi
    refine ⟨?_, ?_, ?_, fun q hq => ?_, ?_⟩
    · simp_all
    · simp_all
    · simp_all
    · have hsq := hsig q
      clear hsig
      by_cases hqp : q = p
      · subst hqp
        simp_all
      · have hpq : ¬p = q := fun h => hqp h.symm
        simp_all
    · clear hsig
      simp_all [publishes_append, publishes]
  case fail p hpc hmax =>
    have hmp := hmi.producerOwns p
    have hms := hmi.senderOwns
    have hfp := hslot p
    obtain ⟨hw, hpb, hsf, hsig, hpubl⟩ := hi
    refine ⟨?_, ?_, ?_, fun q hq => ?_, ?_⟩
    · simp_all
    · simp_all
    · simp_all
    · have hsq := hsig q
      clear hsig
      by_cases hqp : q = p
      · subst hqp
        simp_all
      · have hpq : ¬p = q := fun h => hqp h.symm
        simp_all
    · clear hsig
      simp_all [publishes_append, publishes]
  case writeTopic p hpc hfit =>
    have hmp := hmi.producerOwns p
    have hms := hmi.senderOwns
    have hfp := hslot p
    obtain ⟨hw, hpb, hsf, hsig, hpubl⟩ := hi
    refine ⟨?_, ?_, ?_, fun q hq => ?_, ?_⟩
    · simp_all
    · simp_all
    · simp_all
    · have hsq := hsig q
      clear hsig
      by_cases hqp : q = p
      · subst hqp
        simp_all
      · have hpq : ¬p = q := fun h => hqp h.symm
        simp_all
    · clear hsig
      simp_all [publishes_append, publishes]
  case writePayload p hpc hfit =>
    have hmp := hmi.producerOwns p
    have hms := hmi.senderOwns
    have hfp := hslot p
    obtain ⟨hw, hpb, hsf, hsig, hpubl⟩ := hi
    refine ⟨?_, ?_, ?_, fun q hq => ?_, ?_⟩
    · simp_all
    · simp_all
    · simp_all
    · have hsq := hsig q
      clear hsig
      by_cases hqp : q = p
      · subst hqp
        simp_all
      · have hpq : ¬p = q := fun h => hqp h.symm
        simp_all
    · clear hsig
      simp_all [publishes_append, publishes]
  case commit p hpc =>
    have hmp := hmi.producerOwns p
    have hms := hmi.senderOwns
    have hfp := hslot p
    obtain ⟨hw, hpb, hsf, hsig, hpubl⟩ := hi
    refine ⟨?_, ?_, ?_, fun q hq => ?_, ?_⟩
    · simp_all
    · simp_all
    · simp_all
    · have hsq := hsig q
      clear hsig
      by_cases hqp : q = p
      · subst hqp
        simp_all
      · have hpq : ¬p = q := fun h => hqp h.symm
        simp_all
    · clear hsig
      simp_all [publishes_append, publishes]
  case signal p hpc =>
    have hd0 := hi.signalFlag p hpc
    have hmp := hmi.producerOwns p
    have hms := hmi.senderOwns
    have hfp := hslot p
    obtain ⟨hw, hpb, hsf, hsig, hpubl⟩ := hi
    refine ⟨?_, ?_, ?_, fun q hq => ?_, ?_⟩
    · simp_all
    · simp_all
    · simp_all
    · have hsq := hsig q
      clear hsig
      by_cases hqp : q = p
      · subst hqp
        simp_all
      · have hpq : ¬p = q := fun h => hqp h.symm
        simp_all
    · clear hsig
      simp_all [publishes_append, publishes]
  case release p hpc hown =>
    have hmp := hmi.producerOwns p
    have hms := hmi.senderOwns
    have hfp := hslot p
    obtain ⟨hw, hpb, hsf, hsig, hpubl⟩ := hi
    refine ⟨?_, ?_, ?_, fun q hq => ?_, ?_⟩
    · simp_all
    · simp_all
    · simp_all
    · have hsq := hsig q
      clear hsig
      by_cases hqp : q = p
      · subst hqp
        simp_all
      · have hpq : ¬p = q := fun h => hqp h.symm
        simp_all
    · clear hsig
      simp_all [publishes_append, publishes]
  case senderLock iRet hpc hfree =>
    have hms := hmi.senderOwns
    obtain ⟨hw, hpb, hsf, hsig, hpubl⟩ := hi
    refine ⟨?_, ?_, ?_, fun q hq => ?_, ?_⟩
    · simp_all
    · simp_all
    · simp_all
    · have hsq := hsig q
      have hmq := hmi.producerOwns q
      clear hsig
      simp_all
    · clear hsig
      simp_all [publishes_append, publishes]
  case senderPending iRet hpc hd =>
    have hms := hmi.senderOwns
    obtain ⟨hw, hpb, hsf, hsig, hpubl⟩ := hi
    refine ⟨?_, ?_, ?_, fun q hq => ?_, ?_⟩
    · simp_all
    · simp_all
    · simp_all
    · have hsq := hsig q
      have hmq := hmi.producerOwns q
      clear hsig
      simp_all
    · clear hsig
      simp_all [publishes_append, publishes]
  case senderWait iRet hpc hd hown =>
    have hms := hmi.senderOwns
    obtain ⟨hw, hpb, hsf, hsig, hpubl⟩ := hi
    refine ⟨?_, ?_, ?_, fun q hq => ?_, ?_⟩
    · simp_all
    · simp_all
    · simp_all
    · have hsq := hsig q
      have hmq := hmi.producerOwns q
      clear hsig
      simp_all
    · clear hsig
      simp_all [publishes_append, publishes]
  case senderWake iRet hpc hfree =>
    have hms := hmi.senderOwns
    obtain ⟨hw, hpb, hsf, hsig, hpubl⟩ := hi
    refine ⟨?_, ?_, ?_, fun q hq => ?_, ?_⟩
    · simp_all
    · simp_all
    · simp_all
    · have hsq := hsig q
      have hmq := hmi.producerOwns q
      clear hsig
      simp_all
    · clear hsig
      simp_all [publishes_append, publishes]
  case senderPublish iRet hpc =>
    have hms := hmi.senderOwns
    obtain ⟨hw, hpb, hsf, hsig, hpubl⟩ := hi
    refine ⟨?_, ?_, ?_, fun q hq => ?_, ?_⟩
    · simp_all
    · simp_all
    · simp_all
    · have hsq := hsig q
      have hmq := hmi.producerOwns q
      clear hsig
      simp_all
    · clear hsig
      simp_all [publishes_append, publishes, publishes_publish]
  case senderClear iRet hpc =>
    have hms := hmi.senderOwns
    obtain ⟨hw, hpb, hsf, hsig, hpubl⟩ := hi
    refine ⟨?_, ?_, ?_, fun q hq => ?_, ?_⟩
    · simp_all
    · simp_all
    · simp_all
    · have hsq := hsig q
      have hmq := hmi.producerOwns q
      clear hsig
      simp_all
    · clear hsig
      simp_all [publishes_append, publishes]
  case senderUnlock iRet hpc hown =>
    have hms := hmi.senderOwns
    obtain ⟨hw, hpb, hsf, hsig, hpubl⟩ := hi
    refine ⟨?_, ?_, ?_, fun q hq => ?_, ?_⟩
    · simp_all
    · simp_all
    · simp_all
    · have hsq := hsig q
      have hmq := hmi.producerOwns q
      clear hsig
      simp_all
    · clear hsig
      simp_all [publishes_append, publishes]
  case spurious hpc =>
    exact absurd rfl hquiet

theorem reachableQuiet_reachable {s : System} (h : ReachableQuiet s) : Reachable s := by
  induction h with
  | init topic payload => exact Reachable.init topic payload
  | step a _ _ hstep ih => exact Reachable.step a ih hstep

theorem reachableQuiet_inv {s : System} (h : ReachableQuiet s) : PublishInv s := by
  induction h with
  | init topic payload => exact publishInv_init topic payload
  | step a hquiet hr hstep ih =>
    have hinv := reachable_inv (reachableQuiet_reachable hr)
    exact publishInv_step hquiet hinv.1 hinv.2.slotFlag ih (step_sound hstep)

/-- Without spurious wake-ups the publish discipline of the claim C8 holds: in every state
reached without one, (1) when the sender stands at `mosquitto_publish`, `dataSent` is 0 and
the mailbox holds the last committed message, which is not published yet; (2) the published
messages are a prefix of the committed ones and at most one committed message is not
published; (3) when `dataSent == 1` the published messages are exactly the committed
ones, in order. -/
theorem publish_discipline_quiet (s : System) (hr : ReachableQuiet s) :
    (s.sender = .publish →
      s.world.pGlobalData.mqttSharedData.dataSent = 0 ∧
      s.committed = publishes s.world.trace ++
        [(s.world.pGlobalData.mqttSharedData.pTopic,
          s.world.pGlobalData.mqttSharedData.pPayload)]) ∧
    (publishes s.world.trace <+: s.committed ∧
      s.committed.length ≤ (publishes s.world.trace).length + 1) ∧
    (s.world.pGlobalData.mqttSharedData.dataSent = 1 →
      publishes s.world.trace = s.committed) := by
  have hi := reachableQuiet_inv hr
  have hp := hi.published
  refine ⟨fun hpc => ?_, ⟨?_, ?_⟩, fun h1 => ?_⟩
  · have h0 := hi.publishFlag hpc
    exact ⟨h0, by simpa [h0, hpc] using hp⟩
  · exact ⟨_, hp.symm⟩
  · rw [hp]
    split <;> simp
  · rw [hp]
    simp [h1]

/-- C8 (the code breaks the claim). With a spurious wake-up of `pthread_cond_wait`, which
`mqtt_sender` does not guard against (`if` where a `while` on `dataSent` is needed), the
run `duplicateSend` makes the sender call `mosquitto_publish` in a state where
`dataSent == 1`, and the one committed message is published twice: two publish calls for
one `sendMQTTtopic` commit. -/
theorem C8_duplicate_publish :
    ∃ s0 s, run duplicateSend.dropLast (System.init [] []) = some s0 ∧
      step s0 (.sender 0) = some s ∧ Reachable s ∧
      s0.sender = .publish ∧ s0.world.pGlobalData.mqttSharedData.dataSent = 1 ∧
      s.committed = [("creoir/talk/speak".toList,
        "\x7b\"utterance\":\"Routes are now visible.\"\x7d".toList)] ∧
      publishes s.world.trace =
        [("creoir/talk/speak".toList, "\x7b\"utterance\":\"Routes are now visible.\"\x7d".toList),
          ("creoir/talk/speak".toList,
            "\x7b\"utterance\":\"Routes are now visible.\"\x7d".toList)] ∧
      (publishes s.world.trace).length > s.committed.length :=
  ⟨_, _, rfl, rfl, reachable_run duplicateSend (Reachable.init [] []) rfl, rfl, rfl, rfl, rfl,
    by decide⟩

/-! ## The two views of getMQTTsendAccess agree

When no other thread moves, the statements that a producer runs in the transition system
leave the state that the function `getMQTTsendAccess` computes. -/

theorem interfere_id (w : World) : w.interfere (fun m => m) = w := rfl

theorem run_append (as bs : List Action) (s : System) :
    run (as ++ bs) s = (run as s).bind (run bs) := by
  induction as generalizing s with
  | nil => rfl
  | cons a as ih =>
    simp only [List.cons_append, run]
    cases step s a with
    | none => rfl
    | some s1 => simpa using ih s1

/-- A successful attempt: two statements of the producer. -/
theorem producer_run_granted (s : System) (p i k : Nat)
    (hpc : (s.producers p).pc = .lock (i + 1))
    (hfree : s.world.pGlobalData.mqttSendMutex = none)
    (hflag : s.world.pGlobalData.mqttSharedData.dataSent = 1) :
    ∃ s1, run [.producer p, .producer p] s = some s1 ∧ (s1.producers p).pc = .writeTopic ∧
      getMQTTsendAccess_loop (.producer p) (fun _ m => m) (i + 1) k s.world =
        .ok (0, s1.world) := by
  refine ⟨({ (({ s with world := s.world.locked (.producer p) } : System).goto p
      (.test (i + 1))) with grants := s.grants + 1 } : System).goto p .writeTopic, ?_, by simp, ?_⟩
  · simp [run, step, stepProducer, hpc, tryLock, request_mutex_lock, hfree, Except.toOption,
      hflag]
  · simp [getMQTTsendAccess_loop, request_mutex_lock, hfree, hflag, bind, Except.bind, pure,
      Except.pure, interfere_id]

/-- A failed attempt: four statements of the producer (lock, test, unlock, sleep). -/
theorem producer_run_busy (s : System) (p i k : Nat)
    (hpc : (s.producers p).pc = .lock (i + 1))
    (hfree : s.world.pGlobalData.mqttSendMutex = none)
    (hflag : s.world.pGlobalData.mqttSharedData.dataSent ≠ 1) :
    ∃ s1, run [.producer p, .producer p, .producer p, .producer p] s = some s1 ∧
      (s1.producers p).pc = (if i = 0 then .fail else .lock i) ∧
      s1.world.pGlobalData.mqttSendMutex = none ∧
      s1.world.pGlobalData.mqttSharedData = s.world.pGlobalData.mqttSharedData ∧
      s1.world.pGlobalData.mutexError = s.world.pGlobalData.mutexError ∧
      getMQTTsendAccess_loop (.producer p) (fun _ m => m) (i + 1) k s.world =
        getMQTTsendAccess_loop (.producer p) (fun _ m => m) i (k + 1) s1.world := by
  refine ⟨System.goto
    { s with
      world := ((s.world.locked (.producer p)).unlocked (.producer p)).emit (.usleep 100000) }
    p (if i = 0 then .fail else .lock i), ?_, by simp, rfl, rfl, rfl, ?_⟩
  · simp [run, step, stepProducer, hpc, tryLock, request_mutex_lock, release_mutex_lock, hfree,
      Except.toOption, hflag, System.goto]
  · simp [getMQTTsendAccess_loop, request_mutex_lock, release_mutex_lock, hfree, hflag, bind,
      Except.bind, pure, Except.pure, interfere_id]

/-- A call of `getMQTTsendAccess` that fails: `4 * i + 1` statements of the producer, with
no other thread moving, leave the state the function computes. -/
theorem producer_run_fail (p : Nat) :
    ∀ (i k : Nat) (s : System),
      (s.producers p).pc = (if i = 0 then .fail else .lock i) →
      s.world.pGlobalData.mqttSendMutex = none →
      s.world.pGlobalData.mqttSharedData.dataSent ≠ 1 →
      s.world.pGlobalData.mutexError < INT_MAX →
      ∃ s1, run (List.replicate (4 * i + 1) (.producer p)) s = some s1 ∧
        (s1.producers p).pc = .idle ∧
        getMQTTsendAccess_loop (.producer p) (fun _ m => m) i k s.world = .ok (-1, s1.world)
  | 0, k, s, hpc, _, _, hmax => by
    refine ⟨System.goto
      { s with
        world :=
          World.emit { s.world with pGlobalData.mutexError := s.world.pGlobalData.mutexError + 1 }
            (.dbg_error "getMQTTsendAccess FAILED to get mutex lock") }
      p .idle, ?_, by simp, ?_⟩
    · simp at hpc
      simp [run, step, stepProducer, hpc, countMutexError, hmax, Except.toOption]
    · simp [getMQTTsendAccess_loop, countMutexError, hmax, bind, Except.bind, pure, Except.pure]
  | i + 1, k, s, hpc, hfree, hflag, hmax => by
    simp at hpc
    obtain ⟨s1, hrun1, hpc1, hfree1, hmb1, herr1, hloop⟩ := producer_run_busy s p i k hpc hfree hflag
    obtain ⟨s2, hrun2, hpc2, hloop2⟩ := producer_run_fail p i (k + 1) s1 hpc1 hfree1
      (by rw [hmb1]; exact hflag) (by rw [herr1]; exact hmax)
    refine ⟨s2, ?_, hpc2, by rw [hloop, hloop2]⟩
    have hsplit : List.replicate (4 * (i + 1) + 1) (Action.producer p) =
        [.producer p, .producer p, .producer p, .producer p] ++
          List.replicate (4 * i + 1) (.producer p) := by
      rw [show 4 * (i + 1) + 1 = 4 + (4 * i + 1) by omega, List.replicate_add]
      rfl
    rw [hsplit, run_append, hrun1]
    simpa using hrun2

/-- The three statements of `sendMQTTtopic` in the transition system leave the state the
function computes. -/
theorem producer_run_commit (s : System) (p : Nat) (hpc : (s.producers p).pc = .setFlag)
    (hown : s.world.pGlobalData.mqttSendMutex = some (.producer p)) :
    ∃ s1, run [.producer p, .producer p, .producer p] s = some s1 ∧
      (s1.producers p).pc = .idle ∧ sendMQTTtopic (.producer p) s.world = .ok (0, s1.world) := by
  refine ⟨System.goto
    { s with
      world := (wakeMQTTsender
        { s.world with pGlobalData.mqttSharedData.dataSent := 0 }).unlocked (.producer p)
      sender := if s.sender = .wait then .wake else s.sender
      committed := s.committed ++
        [(s.world.pGlobalData.mqttSharedData.pTopic,
          s.world.pGlobalData.mqttSharedData.pPayload)] }
    p .idle, ?_, by simp, ?_⟩
  · simp [run, step, stepProducer, hpc, release_mutex_lock, hown, Except.toOption, System.goto]
  · simp [sendMQTTtopic, release_mutex_lock, hown, bind, Except.bind, pure, Except.pure]

/-- One pass of the sender with a message pending: five statements in the transition system
leave the state that `mqtt_sender_iteration` computes. -/
theorem sender_run_pending (s : System) (iRet : Int) (others : Interference)
    (hpc : s.sender = .lock) (hfree : s.world.pGlobalData.mqttSendMutex = none)
    (hflag : s.world.pGlobalData.mqttSharedData.dataSent = 0) :
    ∃ s1, run [.sender iRet, .sender iRet, .sender iRet, .sender iRet, .sender iRet] s =
        some s1 ∧ s1.sender = .lock ∧
      mqtt_sender_iteration others iRet s.world = .ok s1.world := by
  refine ⟨{ s with
    world := World.unlocked
      { (s.world.locked .sender).publish iRet with pGlobalData.mqttSharedData.dataSent := 1 }
      .sender
    clears := s.clears + 1 }, ?_, hpc, ?_⟩
  · simp [run, step, stepSender, hpc, tryLock, request_mutex_lock, release_mutex_lock, hfree,
      Except.toOption, hflag]
  · simp [mqtt_sender_iteration, request_mutex_lock, release_mutex_lock, hfree, hflag, bind,
      Except.bind, pure, Except.pure]

/-- One pass of the sender with nothing pending and a wait that ends without a signal: the
statements in the transition system leave the state that `mqtt_sender_iteration` computes
when the other threads do nothing during the wait. -/
theorem sender_run_spurious (s : System) (iRet : Int)
    (hpc : s.sender = .lock) (hfree : s.world.pGlobalData.mqttSendMutex = none)
    (hflag : s.world.pGlobalData.mqttSharedData.dataSent = 1) :
    ∃ s1, run [.sender iRet, .sender iRet, .spurious, .sender iRet, .sender iRet, .sender iRet,
        .sender iRet] s = some s1 ∧ s1.sender = .lock ∧
      mqtt_sender_iteration (fun m => m) iRet s.world = .ok s1.world := by
  refine ⟨{ s with
    world := World.unlocked
      { (((s.world.locked .sender).unlocked .sender).locked .sender).publish iRet with
        pGlobalData.mqttSharedData.dataSent := 1 }
      .sender }, ?_, hpc, ?_⟩
  · simp [run, step, stepSender, hpc, tryLock, request_mutex_lock, release_mutex_lock, hfree,
      Except.toOption, hflag]
  · simp [mqtt_sender_iteration, pthread_cond_wait, request_mutex_lock, release_mutex_lock,
      hfree, hflag, bind, Except.bind, pure, Except.pure, interfere_id]

/-! ## The events a queue holds -/

theorem chain_last {heap : List (Option EVENTNODE_T)} {a : Nat} {e : Event} :
    ∀ {as : List Nat} {L : List Event} {p : Option Nat},
      Chain heap p (as ++ [a]) (L ++ [e]) → cell heap a = some ⟨e.1, e.2, none⟩
  | [], [], _, h => by
    obtain ⟨_, nxt, ha, hc⟩ := h
    have : nxt = none := hc
    rw [ha, this]
  | [], _ :: L, _, h => by
    obtain ⟨_, nxt, _, hc⟩ := h
    have := chain_length hc
    simp at this
  | _ :: as, [], _, h => by
    obtain ⟨_, nxt, _, hc⟩ := h
    have := chain_length hc
    simp at this
  | _ :: as, _ :: L, _, h => by
    obtain ⟨_, nxt, _, hc⟩ := h
    exact chain_last hc

theorem queuedEvents_from_chain {heap : List (Option EVENTNODE_T)} :
    ∀ {as : List Nat} {L : List Event} {p : Option Nat} (fuel : Nat),
      Chain heap p as L → as.length ≤ fuel → queuedEvents_from heap fuel p = .ok L
  | [], [], _, fuel, h, _ => by
    have : _ = none := h
    subst this
    cases fuel <;> rfl
  | [], _ :: _, _, _, h, _ => by simp [Chain] at h
  | _ :: _, [], _, _, h, _ => by simp [Chain] at h
  | a :: as, e :: L, _, 0, _, hf => by simp at hf
  | a :: as, e :: L, _, fuel + 1, h, hf => by
    obtain ⟨hp, nxt, ha, hc⟩ := h
    subst hp
    have := queuedEvents_from_chain fuel hc (by simpa using hf)
    simp [queuedEvents_from, ha, this, bind, Except.bind, pure, Except.pure]

theorem nodup_length_le {as : List Nat} {n : Nat} (hnd : as.Nodup) (hlt : ∀ a ∈ as, a < n) :
    as.length ≤ n := by
  have hsub : as ⊆ List.range n := fun a ha => List.mem_range.2 (hlt a ha)
  simpa using (hnd.subperm hsub).length_le

/-- A well-formed queue holds the events of its chain. -/
theorem queuedEvents_holds {w : World} {as : List Nat} {L : List Event}
    (hq : QueueHolds w as L) : queuedEvents w = .ok L :=
  queuedEvents_from_chain _ hq.1 (nodup_length_le hq.2.1 (chain_lt hq.1))

/-! ## C11: push -/

theorem queueHolds_iff_shape (w : World) (as : List Nat) (L : List Event) :
    QueueHolds w as L ↔ QueueShape w as L ∧ w.pGlobalData.eventSemap = L.length :=
  ⟨fun h => ⟨⟨h.1, h.2.1, h.2.2.1, h.2.2.2.2⟩, h.2.2.2.1⟩,
    fun h => ⟨h.1.1, h.1.2.1, h.1.2.2.1, h.2, h.1.2.2.2⟩⟩

/-- The wait-count has no part in what `pushEvent` does to the list: it is only increased
at the end. -/
theorem pushEvent_sem (event : APPLICATION_EVENT) (eventData : APPLICATION_EVENTDATA)
    (w : World) (c : Nat) :
    pushEvent event eventData { w with pGlobalData.eventSemap := c } =
      (pushEvent event eventData w).map (fun v => { v with pGlobalData.eventSemap := c + 1 }) := by
  unfold pushEvent mt_semaphore_release strcpy World.node
  simp only [bind, Except.bind, pure, Except.pure]
  by_cases hfit : eventData.topicPayload.length < TOPIC_PAYLOAD_SIZE
  · simp only [hfit, if_true]
    cases hh : w.pGlobalData.eventListHead <;> cases ht : w.pGlobalData.eventListTail <;>
      simp only [hh, ht, if_true, if_false, reduceCtorEq]
    all_goals first
      | rfl
      | (split <;> rfl)
  · simp only [hfit, if_false]
    rfl

/-- Once past the semaphore, what `popEvent` does to the list does not depend on the
wait-count. -/
theorem popEvent_sem (event : APPLICATION_EVENT) (eventData : APPLICATION_EVENTDATA)
    (w : World) (c d : Nat) (hc : c ≠ 0) (hd : d ≠ 0) :
    popEvent event eventData { w with pGlobalData.eventSemap := c } =
      (popEvent event eventData { w with pGlobalData.eventSemap := d }).map
        (fun r => (r.1, r.2.1, { r.2.2 with pGlobalData.eventSemap := c - 1 })) := by
  unfold popEvent mt_semaphore_acquire strcpy World.node
  simp only [bind, Except.bind, pure, Except.pure, hc, hd, if_false]
  cases hh : w.pGlobalData.eventListHead with
  | none => rfl
  | some a =>
    simp only
    cases hn : cell w.heap a with
    | none => rfl
    | some node =>
      simp only
      by_cases hl : node.eventData.topicPayload.length < TOPIC_PAYLOAD_SIZE
      · simp only [hl, if_true]
        by_cases hnx : node.next = none
        · simp [hnx, Except.map]
        · simp [hnx, Except.map]
      · simp only [hl, if_false]
        rfl

/-- C11. Push: on every queue with a well-formed list that holds the events `L` (any number
of them) and any wait-count `c`, `pushEvent` of an event whose text fits its array returns;
afterwards the list is well formed and holds `L ++ [e]`, `eventListTail` points to the new
node, which holds `e` and has no successor, and the wait-count is `c + 1`. -/
theorem C11_push (w : World) (as : List Nat) (L : List Event) (e : Event)
    (hq : QueueShape w as L) (he : e.2.topicPayload.length < TOPIC_PAYLOAD_SIZE) :
    ∃ w1, pushEvent e.1 e.2 w = .ok w1 ∧
      QueueShape w1 (as ++ [w.heap.length]) (L ++ [e]) ∧
      queuedEvents w1 = .ok (L ++ [e]) ∧
      w1.pGlobalData.eventListTail = some w.heap.length ∧
      w.node w.heap.length = none ∧
      w1.node w.heap.length = some ⟨e.1, e.2, none⟩ ∧
      w1.pGlobalData.eventSemap = w.pGlobalData.eventSemap + 1 := by
  have hq0 : QueueHolds { w with pGlobalData.eventSemap := L.length } as L :=
    (queueHolds_iff_shape _ as L).2 ⟨hq, rfl⟩
  obtain ⟨w1, hpush, hq1, htail, _⟩ := pushEvent_holds e hq0 he
  have hsem := pushEvent_sem e.1 e.2 { w with pGlobalData.eventSemap := L.length }
    w.pGlobalData.eventSemap
  rw [hpush] at hsem
  have hs1 : QueueShape w1 (as ++ [w.heap.length]) (L ++ [e]) :=
    ((queueHolds_iff_shape _ _ _).1 hq1).1
  have he1 : queuedEvents w1 = .ok (L ++ [e]) := queuedEvents_holds hq1
  have hn1 : cell w1.heap w.heap.length = some ⟨e.1, e.2, none⟩ := chain_last hq1.1
  refine ⟨{ w1 with pGlobalData.eventSemap := w.pGlobalData.eventSemap + 1 }, hsem, hs1, he1,
    htail, ?_, hn1, rfl⟩
  simp [World.node, cell, List.getD_eq_default]

/-- C11 at the queue left by `app_init` (it holds the start-up event): pushing a wakeword
event. -/
theorem C11_push_witness :
    QueueShape startupQueue [0] [(.EVT_STARTUP, ⟨none, []⟩)] ∧
    (((.EVT_MQTT_WAKEWORD, ⟨none, "hey".toList⟩) : Event).2.topicPayload.length
      < TOPIC_PAYLOAD_SIZE) ∧
    ∃ w1, pushEvent .EVT_MQTT_WAKEWORD ⟨none, "hey".toList⟩ startupQueue = .ok w1 ∧
      QueueShape w1 ([0] ++ [startupQueue.heap.length])
        ([(.EVT_STARTUP, ⟨none, []⟩)] ++ [(.EVT_MQTT_WAKEWORD, ⟨none, "hey".toList⟩)]) ∧
      queuedEvents w1 =
        .ok ([(.EVT_STARTUP, ⟨none, []⟩)] ++ [(.EVT_MQTT_WAKEWORD, ⟨none, "hey".toList⟩)]) ∧
      w1.pGlobalData.eventListTail = some startupQueue.heap.length ∧
      startupQueue.node startupQueue.heap.length = none ∧
      w1.node startupQueue.heap.length = some ⟨.EVT_MQTT_WAKEWORD, ⟨none, "hey".toList⟩, none⟩ ∧
      w1.pGlobalData.eventSemap = startupQueue.pGlobalData.eventSemap + 1 :=
  have hq : QueueShape startupQueue [0] [(.EVT_STARTUP, ⟨none, []⟩)] :=
    ⟨⟨rfl, _, rfl, rfl⟩, by decide, rfl, by decide⟩
  ⟨hq, by decide,
    C11_push startupQueue [0] [(.EVT_STARTUP, ⟨none, []⟩)]
      (.EVT_MQTT_WAKEWORD, ⟨none, "hey".toList⟩) hq (by decide)⟩

/-! ## C12: pop -/

/-- With wait-count zero `popEvent` waits: it does not return. -/
theorem popEvent_blocks (event : APPLICATION_EVENT) (eventData : APPLICATION_EVENTDATA)
    (w : World) (h : w.pGlobalData.eventSemap = 0) :
    popEvent event eventData w = .error .blocks := by
  simp [popEvent, mt_semaphore_acquire, h, bind, Except.bind]

/-- `popEvent` frees the node it unlinks. -/
theorem popEvent_heap {w : World} {a : Nat} {as : List Nat} {e : Event} {L : List Event}
    (event : APPLICATION_EVENT) (eventData : APPLICATION_EVENTDATA)
    (hq : QueueHolds w (a :: as) (e :: L)) {r : APPLICATION_EVENT × APPLICATION_EVENTDATA × World}
    (h : popEvent event eventData w = .ok r) : r.2.2.heap = w.heap.set a none := by
  obtain ⟨hc, hnd, htail, hsem, hfit⟩ := hq
  obtain ⟨hhead, nxt, ha, hc1⟩ := hc
  have he : e.2.topicPayload.length < TOPIC_PAYLOAD_SIZE := hfit e (List.mem_cons_self _ _)
  have hsem0 : w.pGlobalData.eventSemap ≠ 0 := by
    rw [hsem]
    simp
  simp [popEvent, mt_semaphore_acquire, hsem0, hhead, World.node, ha, strcpy, he, bind,
    Except.bind, pure, Except.pure] at h
  rw [← h]
  split <;> rfl

/-- C12. Pop: on every queue with a well-formed list that holds `e :: L` and a wait-count
`c` of at least 1, `popEvent` returns `e` (kind, payload text, heap pointer) whatever its
output parameters held before, frees the head node and leaves a well-formed list that holds
`L`, with wait-count `c - 1`; when `L` is empty, head and tail are both `NULL` afterwards. -/
theorem C12_pop (w : World) (a : Nat) (as : List Nat) (e : Event) (L : List Event)
    (event : APPLICATION_EVENT) (eventData : APPLICATION_EVENTDATA)
    (hq : QueueShape w (a :: as) (e :: L)) (hc : 1 ≤ w.pGlobalData.eventSemap) :
    ∃ w1, popEvent event eventData w = .ok (e.1, e.2, w1) ∧
      QueueShape w1 as L ∧ queuedEvents w1 = .ok L ∧ w1.node a = none ∧
      w1.pGlobalData.eventSemap = w.pGlobalData.eventSemap - 1 ∧
      (L = [] → w1.pGlobalData.eventListHead = none ∧ w1.pGlobalData.eventListTail = none) := by
  have hq0 : QueueHolds { w with pGlobalData.eventSemap := (e :: L).length } (a :: as) (e :: L) :=
    (queueHolds_iff_shape _ _ _).2 ⟨hq, rfl⟩
  obtain ⟨w1, hpop, hq1, _⟩ := popEvent_holds event eventData hq0
  have hsem := popEvent_sem event eventData w w.pGlobalData.eventSemap (e :: L).length
    (by omega) (by simp)
  rw [hpop] at hsem
  have hheap : w1.heap = w.heap.set a none := popEvent_heap event eventData hq0 hpop
  have hlt : a < w.heap.length := chain_lt hq.1 a (List.mem_cons_self _ _)
  have hs1 : QueueShape w1 as L := ((queueHolds_iff_shape _ _ _).1 hq1).1
  have he1 : queuedEvents w1 = .ok L := queuedEvents_holds hq1
  have hn1 : cell w1.heap a = none := by
    rw [hheap]
    exact cell_set_self _ _ hlt
  refine ⟨{ w1 with pGlobalData.eventSemap := w.pGlobalData.eventSemap - 1 }, hsem, hs1, he1,
    hn1, rfl, ?_⟩
  intro hL
  subst hL
  have hlen := chain_length hq1.1
  have has : as = [] := by simpa using hlen
  subst has
  exact ⟨((queueHolds_nil_iff w1).1 hq1).1, ((queueHolds_nil_iff w1).1 hq1).2.1⟩

/-- C12 at the queue left by `app_init`: the start-up event is popped and the queue is
empty. -/
theorem C12_pop_witness :
    QueueShape startupQueue [0] [(.EVT_STARTUP, ⟨none, []⟩)] ∧
    1 ≤ startupQueue.pGlobalData.eventSemap ∧
    ∃ w1, popEvent .EVT_MQTT_PONG ⟨some 3, "old".toList⟩ startupQueue =
        .ok (.EVT_STARTUP, ⟨none, []⟩, w1) ∧
      QueueShape w1 [] [] ∧ queuedEvents w1 = .ok [] ∧ w1.node 0 = none ∧
      w1.pGlobalData.eventSemap = startupQueue.pGlobalData.eventSemap - 1 ∧
      (([] : List Event) = [] →
        w1.pGlobalData.eventListHead = none ∧ w1.pGlobalData.eventListTail = none) :=
  have hq : QueueShape startupQueue [0] [(.EVT_STARTUP, ⟨none, []⟩)] :=
    ⟨⟨rfl, _, rfl, rfl⟩, by decide, rfl, by decide⟩
  ⟨hq, by decide, C12_pop startupQueue 0 [] (.EVT_STARTUP, ⟨none, []⟩) [] .EVT_MQTT_PONG
    ⟨some 3, "old".toList⟩ hq (by decide)⟩

/-! ## emptyEventList -/

theorem emptyEventList_loop_head_none (fuel : Nat) (w : World)
    (h : w.pGlobalData.eventListHead = none) : emptyEventList_loop fuel w = .ok w := by
  rw [emptyEventList_loop]
  simp [h]

/-- When the loop of `emptyEventList` ends, the head is `NULL`; tail, wait-count, mailbox,
`appExit` and the trace are as before, and no cell was added to the heap. -/
theorem emptyEventList_loop_ok : ∀ (fuel : Nat) (w w1 : World),
    emptyEventList_loop fuel w = .ok w1 →
      w1.pGlobalData.eventListHead = none ∧
      w1.pGlobalData.eventListTail = w.pGlobalData.eventListTail ∧
      w1.pGlobalData.eventSemap = w.pGlobalData.eventSemap ∧
      w1.pGlobalData.mqttSharedData = w.pGlobalData.mqttSharedData ∧
      w1.pGlobalData.mqttSendMutex = w.pGlobalData.mqttSendMutex ∧
      w1.pGlobalData.mutexError = w.pGlobalData.mutexError ∧
      w1.pGlobalData.appExit = w.pGlobalData.appExit ∧
      w1.trace = w.trace ∧ w1.heap.length = w.heap.length
  | fuel, w, w1, h => by
    cases hh : w.pGlobalData.eventListHead with
    | none =>
      rw [emptyEventList_loop_head_none fuel w hh] at h
      cases h
      exact ⟨hh, rfl, rfl, rfl, rfl, rfl, rfl, rfl, rfl⟩
    | some a =>
      cases hn : w.node a with
      | none =>
        rw [emptyEventList_loop] at h
        simp [hh, hn] at h
      | some node =>
        cases fuel with
        | zero =>
          rw [emptyEventList_loop] at h
          simp [hh, hn] at h
        | succ fuel =>
          rw [emptyEventList_loop] at h
          simp only [hh, hn] at h
          have := emptyEventList_loop_ok fuel _ w1 h
          simpa using this

theorem liveNodes_le (heap : List (Option EVENTNODE_T)) : liveNodes heap ≤ heap.length :=
  List.length_filter_le _ _

theorem liveNodes_set_none : ∀ (heap : List (Option EVENTNODE_T)) (a : Nat) (n : EVENTNODE_T),
    cell heap a = some n → liveNodes (heap.set a none) + 1 = liveNodes heap
  | [], a, n, h => by simp [cell] at h
  | x :: heap, 0, n, h => by
    have hx : x = some n := by simpa [cell] using h
    subst hx
    simp [liveNodes, List.filter]
  | x :: heap, a + 1, n, h => by
    have h1 : cell heap a = some n := by simpa [cell] using h
    have := liveNodes_set_none heap a n h1
    cases x with
    | none => simpa [liveNodes, List.filter] using this
    | some y =>
      simp only [liveNodes, List.set_cons_succ, List.filter, Option.isSome_some,
        List.length_cons] at this ⊢
      omega

/-- The loop of `emptyEventList` ends before its step budget is used up: every pass frees a
live node. -/
theorem emptyEventList_loop_fuel : ∀ (fuel : Nat) (w : World), liveNodes w.heap ≤ fuel →
    emptyEventList_loop fuel w ≠ .error .fuel
  | fuel, w, hf => by
    cases hh : w.pGlobalData.eventListHead with
    | none =>
      rw [emptyEventList_loop_head_none fuel w hh]
      simp
    | some a =>
      cases hn : w.node a with
      | none =>
        rw [emptyEventList_loop]
        simp [hh, hn]
      | some node =>
        have hl := liveNodes_set_none w.heap a node hn
        cases fuel with
        | zero => omega
        | succ fuel =>
          rw [emptyEventList_loop]
          simp only [hh, hn]
          exact emptyEventList_loop_fuel fuel _ (by simp only; omega)

/-- On a chain of nodes the loop of `emptyEventList` returns and has freed every node of the
chain; the other cells are as before. -/
theorem emptyEventList_loop_chain : ∀ (as : List Nat) (L : List Event) (fuel : Nat) (w : World),
    Chain w.heap w.pGlobalData.eventListHead as L → as.Nodup → as.length ≤ fuel →
    ∃ w1, emptyEventList_loop fuel w = .ok w1 ∧ (∀ a ∈ as, cell w1.heap a = none) ∧
      ∀ b, b ∉ as → cell w1.heap b = cell w.heap b
  | [], [], fuel, w, hc, _, _ => by
    have hh : w.pGlobalData.eventListHead = none := hc
    exact ⟨w, emptyEventList_loop_head_none fuel w hh, by simp, fun _ _ => rfl⟩
  | [], _ :: _, _, _, hc, _, _ => by simp [Chain] at hc
  | _ :: _, [], _, _, hc, _, _ => by simp [Chain] at hc
  | a :: as, e :: L, 0, _, _, _, hf => by simp at hf
  | a :: as, e :: L, fuel + 1, w, hc, hnd, hf => by
    obtain ⟨hh, nxt, ha, hc1⟩ := hc
    obtain ⟨hna, hnd1⟩ := List.nodup_cons.1 hnd
    have hlt : a < w.heap.length := cell_lt ha
    have hc2 : Chain (w.heap.set a none) nxt as L :=
      chain_congr hc1 (fun b hb => cell_set_ne _ _ (fun h => hna (h ▸ hb)))
    obtain ⟨w1, hrun, hfree, hkeep⟩ := emptyEventList_loop_chain as L fuel
      { w with pGlobalData.eventListHead := nxt, heap := w.heap.set a none } hc2 hnd1
      (by simpa using hf)
    refine ⟨w1, ?_, ?_, ?_⟩
    · rw [emptyEventList_loop]
      simp only [hh, World.node, ha]
      exact hrun
    · intro b hb
      rcases List.mem_cons.1 hb with rfl | hb
      · rw [hkeep _ hna]
        exact cell_set_self _ _ hlt
      · exact hfree b hb
    · intro b hb
      have hba : ¬ b = a := fun h => hb (h ▸ List.mem_cons_self _ _)
      have hbas : b ∉ as := fun h => hb (List.mem_cons_of_mem _ h)
      rw [hkeep b hbas]
      exact cell_set_ne _ _ (fun h => hba h.symm)

/-- What `emptyEventList` does to a well-formed queue: it returns, the head is `NULL`, every
node of the queue is freed, and `eventListTail`, the wait-count, the mailbox, `appExit` and
the trace are as before. -/
theorem emptyEventList_holds {w : World} {as : List Nat} {L : List Event}
    (hq : QueueHolds w as L) :
    ∃ w1, emptyEventList w = .ok w1 ∧ w1.pGlobalData.eventListHead = none ∧
      queuedEvents w1 = .ok [] ∧ (∀ a ∈ as, w1.node a = none) ∧
      w1.pGlobalData.eventListTail = as.getLast? ∧
      w1.pGlobalData.eventSemap = L.length ∧
      w1.pGlobalData.mqttSharedData = w.pGlobalData.mqttSharedData ∧
      w1.pGlobalData.appExit = w.pGlobalData.appExit ∧ w1.trace = w.trace := by
  obtain ⟨w1, hrun, hfree, _⟩ := emptyEventList_loop_chain as L w.heap.length w hq.1 hq.2.1
    (nodup_length_le hq.2.1 (chain_lt hq.1))
  obtain ⟨h1, h2, h3, h4, _, _, h7, h8, _⟩ := emptyEventList_loop_ok _ _ _ hrun
  refine ⟨w1, hrun, h1, ?_, hfree, h2.trans hq.2.2.1, h3.trans hq.2.2.2.1, h4, h7, h8⟩
  unfold queuedEvents
  rw [h1]
  cases w1.heap.length <;> rfl

/-! ## C13: the queue invariant -/

/-- On a well-formed queue: head `NULL` iff no events iff wait-count zero. -/
theorem queueHolds_invariant {w : World} {as : List Nat} {L : List Event}
    (hq : QueueHolds w as L) :
    (w.pGlobalData.eventListHead = none ↔ queuedEvents w = .ok []) ∧
    (queuedEvents w = .ok [] ↔ w.pGlobalData.eventSemap = 0) := by
  rw [queuedEvents_holds hq, hq.2.2.2.1]
  have hlen := chain_length hq.1
  constructor
  · constructor
    · intro h
      have := hq.1
      rw [h] at this
      rw [(chain_head_none this).2]
    · intro h
      have hL : L = [] := by simpa using h
      subst hL
      have has : as = [] := by simpa using hlen
      subst has
      exact hq.1
  · constructor
    · intro h
      have hL : L = [] := by simpa using h
      simp [hL]
    · intro h
      have hL : L = [] := List.length_eq_zero.1 h
      simp [hL]

/-- Calls of `pushEvent` and `popEvent` keep the queue well formed. -/
theorem calls_holds : ∀ (ops : List QueueOp) {w w1 : World} {as : List Nat} {L : List Event},
    .drain ∉ ops → QueueHolds w as L → QueueOp.calls ops w = .ok w1 →
    ∃ as1 L1, QueueHolds w1 as1 L1
  | [], w, w1, as, L, _, hq, h => by
    cases h
    exact ⟨as, L, hq⟩
  | op :: ops, w, w1, as, L, hnd, hq, h => by
    have hop : op ≠ .drain := fun h => hnd (h ▸ List.mem_cons_self _ _)
    have hrest : QueueOp.drain ∉ ops := fun h => hnd (List.mem_cons_of_mem _ h)
    simp only [QueueOp.calls, bind, Except.bind] at h
    cases hc : op.call w with
    | error x => simp [hc] at h
    | ok w2 =>
      simp only [hc] at h
      cases op with
      | drain => exact absurd rfl hop
      | push event eventData =>
        simp only [QueueOp.call] at hc
        by_cases hfit : eventData.topicPayload.length < TOPIC_PAYLOAD_SIZE
        · obtain ⟨w3, hpush, hq3, _⟩ := pushEvent_holds (event, eventData) hq hfit
          rw [hpush] at hc
          cases hc
          exact calls_holds ops hrest hq3 h
        · simp [pushEvent, strcpy, hfit, bind, Except.bind] at hc
      | pop event eventData =>
        simp only [QueueOp.call] at hc
        cases as with
        | nil =>
          have hlen := chain_length hq.1
          have hL : L = [] := by
            cases L with
            | nil => rfl
            | cons _ _ => simp at hlen
          subst hL
          have hsem : w.pGlobalData.eventSemap = 0 := by simpa using hq.2.2.2.1
          simp [popEvent_blocks event eventData w hsem, bind, Except.bind] at hc
        | cons a as =>
          cases L with
          | nil =>
            have hlen := chain_length hq.1
            simp at hlen
          | cons e L =>
            obtain ⟨w3, hpop, hq3, _⟩ := popEvent_holds event eventData hq
            simp only [hpop, bind, Except.bind, pure, Except.pure] at hc
            cases hc
            exact calls_holds ops hrest hq3 h

/-- The invariant of the event queue holds in every state reached by calls of `pushEvent`
and `popEvent` alone. -/
theorem queue_invariant_push_pop (ops : List QueueOp) (topic payload : CString) (w : World)
    (hnd : .drain ∉ ops) (h : QueueOp.calls ops (main_init topic payload) = .ok w) :
    (w.pGlobalData.eventListHead = none ↔ queuedEvents w = .ok []) ∧
    (queuedEvents w = .ok [] ↔ w.pGlobalData.eventSemap = 0) := by
  have h0 : QueueHolds (main_init topic payload) [] [] :=
    (queueHolds_nil_iff _).2 ⟨rfl, rfl, rfl⟩
  obtain ⟨as1, L1, hq⟩ := calls_holds ops hnd h0 h
  exact queueHolds_invariant hq

theorem calls_reachable : ∀ (ops : List QueueOp) {w w1 : World}, QueueReachable w →
    QueueOp.calls ops w = .ok w1 → QueueReachable w1
  | [], w, w1, hr, h => by
    cases h
    exact hr
  | op :: ops, w, w1, hr, h => by
    simp only [QueueOp.calls, bind, Except.bind] at h
    cases hc : op.call w with
    | error x => simp [hc] at h
    | ok w2 =>
      simp only [hc] at h
      exact calls_reachable ops (QueueReachable.call op hr hc) h

/-- C13. The queue invariant fails in a reachable state: after `pushEvent` of the start-up
event (as `app_init` does) and `emptyEventList`, the head is `NULL` and the queue holds no
events, but the wait-count is still 1; so "head is `NULL` iff the wait-count is zero" does
not hold there. -/
theorem C13_drain_keeps_count :
    QueueOp.calls [.push .EVT_STARTUP ⟨none, []⟩, .drain] (main_init [] []) = .ok drainedQueue ∧
    QueueReachable drainedQueue ∧
    drainedQueue.pGlobalData.eventListHead = none ∧
    queuedEvents drainedQueue = .ok [] ∧
    drainedQueue.pGlobalData.eventSemap = 1 ∧
    ¬ (drainedQueue.pGlobalData.eventListHead = none ↔
      drainedQueue.pGlobalData.eventSemap = 0) := by
  have hrun : QueueOp.calls [.push .EVT_STARTUP ⟨none, []⟩, .drain] (main_init [] []) =
      .ok drainedQueue := by decide
  exact ⟨hrun, calls_reachable _ (QueueReachable.init [] []) hrun, by decide, by decide,
    by decide, by decide⟩

/-! ## C14: drain idempotence -/

/-- C14. Drain idempotence: `emptyEventList` on a queue whose head is `NULL` returns and
changes nothing at all; for every state, running `emptyEventList` on the result of
`emptyEventList` gives the same result as running it once; the loop never uses up its step
budget; and on every well-formed queue `emptyEventList` returns a state that a second call
returns unchanged. -/
theorem C14_drain_idempotent (w : World) :
    (w.pGlobalData.eventListHead = none → emptyEventList w = .ok w) ∧
    (emptyEventList w >>= emptyEventList) = emptyEventList w ∧
    emptyEventList w ≠ .error .fuel ∧
    (∀ as L, QueueHolds w as L →
      ∃ w1, emptyEventList w = .ok w1 ∧ emptyEventList w1 = .ok w1) := by
  have hidem : ∀ w1, emptyEventList w = .ok w1 → emptyEventList w1 = .ok w1 := by
    intro w1 h
    exact emptyEventList_loop_head_none _ _ (emptyEventList_loop_ok _ _ _ h).1
  refine ⟨fun h => emptyEventList_loop_head_none _ _ h, ?_,
    emptyEventList_loop_fuel _ _ (liveNodes_le _), ?_⟩
  · cases h : emptyEventList w with
    | error x => rfl
    | ok w1 =>
      show emptyEventList w1 = .ok w1
      exact hidem w1 h
  · intro as L hq
    obtain ⟨w1, h, _⟩ := emptyEventList_holds hq
    exact ⟨w1, h, hidem w1 h⟩

/-- C14 at the queue left by `main` (empty) and at the queue left by `app_init` (one
event). -/
theorem C14_drain_idempotent_witness :
    (main_init [] []).pGlobalData.eventListHead = none ∧
    emptyEventList (main_init [] []) = .ok (main_init [] []) ∧
    QueueHolds startupQueue [0] [(.EVT_STARTUP, ⟨none, []⟩)] ∧
    ∃ w1, emptyEventList startupQueue = .ok w1 ∧ emptyEventList w1 = .ok w1 :=
  ⟨rfl, (C14_drain_idempotent (main_init [] [])).1 rfl,
    ⟨⟨rfl, _, rfl, rfl⟩, by decide, rfl, rfl, by decide⟩,
    (C14_drain_idempotent startupQueue).2.2.2 [0] [(.EVT_STARTUP, ⟨none, []⟩)]
      ⟨⟨rfl, _, rfl, rfl⟩, by decide, rfl, rfl, by decide⟩⟩

/-! ## C15: drain -/

/-- C15. After `emptyEventList` on the queue left by `app_init` (one event) the head is
`NULL`, the queue holds no events and nothing was added to the trace; but `eventListTail`
still points to the freed node 0, and the following `pushEvent` writes the `next` field of
that freed node: it runs into undefined behaviour instead of queueing the event. -/
theorem C15_push_after_drain :
    emptyEventList startupQueue = .ok drainedQueue ∧
    drainedQueue.pGlobalData.eventListHead = none ∧
    queuedEvents drainedQueue = .ok [] ∧
    drainedQueue.trace = startupQueue.trace ∧
    drainedQueue.pGlobalData.eventListTail = some 0 ∧
    drainedQueue.node 0 = none ∧
    pushEvent .EVT_APP_STOP ⟨none, []⟩ drainedQueue = .error .undefined := by
  decide

/-! ## C16: handler failures and the dispatcher -/

theorem dispatch_returning (handlers : Handlers) (codes : HandlerCall → World → Int)
    (event : APPLICATION_EVENT) (eventData : APPLICATION_EVENTDATA) (w : World) :
    dispatch (handlers.returning codes) event eventData w = dispatch handlers event eventData w := by
  cases event <;> simp only [dispatch, Handlers.returning, bind, Except.bind, Except.map]
  case EVT_KEYPRESS =>
    cases handlers (.handleEvt_onWakeword eventData) w with
    | error e => rfl
    | ok r =>
      simp only
      split
      · cases handlers (.setGrammar "MAIN_9LV" 4000 "resumeToIdle") r.2 <;> rfl
      · split
        · cases handlers (.setGrammar "MAIN_9LV" 4000 "goToAutomaticMode") r.2 <;> rfl
        · rfl
  case EVT_MQTT_WAKEWORD => cases handlers (.handleEvt_onWakeword eventData) w <;> rfl
  case EVT_MQTT_INTENT_RECOGNIZED =>
    cases handlers (.handleEvt_intentRecognized eventData) w <;> rfl
  case EVT_MQTT_INTENT_NOT_RECOGNIZED =>
    cases handlers (.handleEvt_intentNotRecognized eventData) w <;> rfl
  case EVT_MQTT_BIOM_IDENTIFICATION =>
    cases handlers (.handleEvt_MQTTuserIdentified eventData) w <;> rfl
  case EVT_STARTUP => cases handlers (.handleEvt_onStartup eventData) w <;> rfl

theorem app_eventloop_returning (handlers : Handlers) (codes : HandlerCall → World → Int) :
    ∀ (fuel : Nat) (event : APPLICATION_EVENT) (eventData : APPLICATION_EVENTDATA) (w : World),
      app_eventloop (handlers.returning codes) fuel event eventData w =
        app_eventloop handlers fuel event eventData w
  | 0, _, _, _ => rfl
  | fuel + 1, event, eventData, w => by
    simp only [app_eventloop, dispatch_returning, app_eventloop_returning handlers codes fuel]

theorem keepQueue_returning {handlers : Handlers} (hk : handlers.KeepQueue)
    (codes : HandlerCall → World → Int) : (handlers.returning codes).KeepQueue := by
  intro c w r h
  unfold Handlers.returning at h
  cases hc : handlers c w with
  | error e => simp [hc, Except.map] at h
  | ok r1 =>
    simp only [hc, Except.map] at h
    cases h
    exact hk c w r1 hc

theorem popEvent_appExit {event : APPLICATION_EVENT} {eventData : APPLICATION_EVENTDATA}
    {w : World} {r : APPLICATION_EVENT × APPLICATION_EVENTDATA × World}
    (h : popEvent event eventData w = .ok r) :
    r.2.2.pGlobalData.appExit = w.pGlobalData.appExit := by
  unfold popEvent mt_semaphore_acquire at h
  simp only [bind, Except.bind, pure, Except.pure] at h
  split at h
  · cases h
  · rename_i w1 hw1
    split at hw1
    · cases hw1
    · cases hw1
      split at h
      · cases h
        rfl
      · split at h
        · cases h
        · split at h
          · cases h
          · cases h
            simp only
            split <;> rfl

/-- Only the stop event ends the loop: when `app_eventloop` returns, it returns 0, the last
event handled is `EVT_APP_STOP` and no event handled before it is. -/
theorem app_eventloop_stop {handlers : Handlers} (hk : handlers.KeepQueue) :
    ∀ (fuel : Nat) (event : APPLICATION_EVENT) (eventData : APPLICATION_EVENTDATA) (w : World)
      (r : LoopResult), w.pGlobalData.appExit = 0 →
      app_eventloop handlers fuel event eventData w = .ok r →
      r.ret = 0 ∧ r.world.pGlobalData.appExit = 1 ∧
        ∃ pre d, r.handled = pre ++ [(.EVT_APP_STOP, d)] ∧ ∀ e ∈ pre, e.1 ≠ .EVT_APP_STOP
  | 0, _, _, _, _, _, h => by cases h
  | fuel + 1, event, eventData, w, r, hexit, h => by
    simp only [app_eventloop, bind, Except.bind, pure, Except.pure] at h
    cases hp : popEvent event eventData w with
    | error x => simp [hp] at h
    | ok p =>
      obtain ⟨e, d, w1⟩ := p
      simp only [hp] at h
      have hexit1 : w1.pGlobalData.appExit = 0 := (popEvent_appExit hp).trans hexit
      cases hdw : dispatch handlers e d w1 with
      | error x => simp [hdw] at h
      | ok w2 =>
        simp only [hdw] at h
        have hd := (dispatch_keep hk hdw).2.2.2.2
        by_cases hs : e = .EVT_APP_STOP
        · rw [if_pos hs] at hd
          rw [if_pos (by rw [hd]; decide)] at h
          cases h
          exact ⟨rfl, hd, [], d, by simp [hs], by simp⟩
        · rw [if_neg hs, hexit1] at hd
          rw [if_neg (by rw [hd]; decide)] at h
          cases hr : app_eventloop handlers fuel e d w2 with
          | error x => simp [hr] at h
          | ok r1 =>
            simp only [hr] at h
            cases h
            obtain ⟨h1, h2, pre, d1, h3, h4⟩ := app_eventloop_stop hk fuel e d _ r1 hd hr
            refine ⟨h1, h2, (e, d) :: pre, d1, by simp [h3], ?_⟩
            intro x hx
            rcases List.mem_cons.1 hx with rfl | hx
            · exact hs
            · exact h4 x hx

/-- The run `handleEvents` does not depend on the values the handlers return. -/
theorem handleEvents_returning (handlers : Handlers) (codes : HandlerCall → World → Int) :
    ∀ (es : List Event) (w : World),
      handleEvents (handlers.returning codes) es w = handleEvents handlers es w
  | [], _ => rfl
  | e :: es, w => by
    simp only [handleEvents, dispatch_returning, handleEvents_returning handlers codes es]

/-- With handlers that return from every call the `switch` returns. -/
theorem dispatch_returns {handlers : Handlers} (hr : ∀ c w, ∃ r, handlers c w = .ok r)
    (event : APPLICATION_EVENT) (eventData : APPLICATION_EVENTDATA) (w : World) :
    ∃ v, dispatch handlers event eventData w = .ok v := by
  cases event <;> simp only [dispatch, bind, Except.bind, pure, Except.pure]
  case EVT_KEYPRESS =>
    obtain ⟨r1, h1⟩ := hr (.handleEvt_onWakeword eventData) w
    obtain ⟨r2, h2⟩ := hr (.setGrammar "MAIN_9LV" 4000 "resumeToIdle") r1.2
    obtain ⟨r3, h3⟩ := hr (.setGrammar "MAIN_9LV" 4000 "goToAutomaticMode") r1.2
    simp only [h1]
    split
    · simp only [h2]
      exact ⟨_, rfl⟩
    · split
      · simp only [h3]
        exact ⟨_, rfl⟩
      · exact ⟨_, rfl⟩
  case EVT_MQTT_WAKEWORD =>
    obtain ⟨r1, h1⟩ := hr (.handleEvt_onWakeword eventData) w
    simp only [h1]
    exact ⟨_, rfl⟩
  case EVT_MQTT_INTENT_RECOGNIZED =>
    obtain ⟨r1, h1⟩ := hr (.handleEvt_intentRecognized eventData) w
    simp only [h1]
    exact ⟨_, rfl⟩
  case EVT_MQTT_INTENT_NOT_RECOGNIZED =>
    obtain ⟨r1, h1⟩ := hr (.handleEvt_intentNotRecognized eventData) w
    simp only [h1]
    exact ⟨_, rfl⟩
  case EVT_MQTT_BIOM_IDENTIFICATION =>
    obtain ⟨r1, h1⟩ := hr (.handleEvt_MQTTuserIdentified eventData) w
    simp only [h1]
    exact ⟨_, rfl⟩
  case EVT_STARTUP =>
    obtain ⟨r1, h1⟩ := hr (.handleEvt_onStartup eventData) w
    simp only [h1]
    exact ⟨_, rfl⟩
  all_goals exact ⟨_, rfl⟩

/-- With handlers that return from every call, the run `handleEvents` on the events at the
head of a well-formed queue returns. -/
theorem handleEvents_returns {handlers : Handlers} (hk : handlers.KeepQueue)
    (hr : ∀ c w, ∃ r, handlers c w = .ok r) :
    ∀ (es post : List Event) (w : World) (as : List Nat), QueueHolds w as (es ++ post) →
      ∃ v, handleEvents handlers es w = .ok v
  | [], _, w, _, _ => ⟨w, rfl⟩
  | e :: es, post, w, [], hq => by
    have := chain_length hq.1
    simp at this
  | e :: es, post, w, a :: as, hq => by
    obtain ⟨w1, hpop, hq1, _⟩ := popEvent_holds (a := a) (w := w) e.1 e.2 hq
    obtain ⟨w2, hd⟩ := dispatch_returns hr e.1 e.2 w1
    obtain ⟨d1, d2, d3, d4, _⟩ := dispatch_keep hk hd
    obtain ⟨v, hv⟩ := handleEvents_returns hk hr es post w2 as
      (queueHolds_congr d1 d2 d3 d4 hq1)
    exact ⟨v, by simp [handleEvents, hpop, hd, hv, bind, Except.bind]⟩

/-- With handlers that return from every call, the loop of `app_eventloop` on a well-formed
queue that holds a stop event returns 0 after the events before the first stop event and
the stop event. -/
theorem app_eventloop_returns {handlers : Handlers} (hk : handlers.KeepQueue)
    (hr : ∀ c w, ∃ r, handlers c w = .ok r) (stopData : APPLICATION_EVENTDATA)
    (pre post : List Event) (w : World) (as : List Nat) (fuel : Nat)
    (applicationEvent : APPLICATION_EVENT) (eventData : APPLICATION_EVENTDATA)
    (hpre : ∀ e ∈ pre, e.1 ≠ .EVT_APP_STOP)
    (hq : QueueHolds w as (pre ++ (.EVT_APP_STOP, stopData) :: post))
    (hexit : w.pGlobalData.appExit = 0) (hfuel : pre.length + 1 ≤ fuel) :
    ∃ r, app_eventloop handlers fuel applicationEvent eventData w = .ok r ∧ r.ret = 0 ∧
      r.handled = pre ++ [(.EVT_APP_STOP, stopData)] ∧
      r.world.pGlobalData.appExit = 1 ∧
      QueueHolds r.world (as.drop (pre.length + 1)) post := by
  have hq1 : QueueHolds w as ((pre ++ [(.EVT_APP_STOP, stopData)]) ++ post) := by
    simpa using hq
  obtain ⟨v, hv⟩ := handleEvents_returns hk hr _ post w as hq1
  obtain ⟨r, h1, h2, h3, _, h4, h5⟩ :=
    app_eventloop_holds hk stopData post pre w v as fuel applicationEvent eventData hpre hq
      hexit hfuel hv
  exact ⟨r, h1, h2, h3, h4, h5⟩

/-- `popEvent` looks at the queue only: on two states with the same queue it returns the same
event, or fails in the same way, and the queues are the same afterwards. -/
theorem popEvent_frame {w v : World} (hf : QueueFrame w v) (event : APPLICATION_EVENT)
    (eventData : APPLICATION_EVENTDATA) :
    match popEvent event eventData w, popEvent event eventData v with
    | .ok r, .ok q => r.1 = q.1 ∧ r.2.1 = q.2.1 ∧ QueueFrame r.2.2 q.2.2
    | .error x, .error y => x = y
    | _, _ => False := by
  obtain ⟨h1, h2, h3, h4, h5⟩ := hf
  unfold popEvent mt_semaphore_acquire World.node strcpy
  simp only [bind, Except.bind, pure, Except.pure, h1, h2, h3, h4, h5]
  by_cases hs : w.pGlobalData.eventSemap = 0
  · simp [hs]
  · simp only [hs, if_false]
    cases hh : w.pGlobalData.eventListHead with
    | none => simp [QueueFrame]
    | some a =>
      simp only
      cases hn : cell w.heap a with
      | none => simp
      | some node =>
        simp only
        by_cases hl : node.eventData.topicPayload.length < TOPIC_PAYLOAD_SIZE
        · simp only [hl, if_true]
          by_cases hnx : node.next = none
          · simp [QueueFrame, hnx]
          · simp [QueueFrame, hnx]
        · simp [hl]

theorem dispatch_frame {handlers1 handlers2 : Handlers} (hk1 : handlers1.KeepQueue)
    (hk2 : handlers2.KeepQueue) {w v w1 v1 : World} (hf : QueueFrame w v)
    {event : APPLICATION_EVENT} {eventData : APPLICATION_EVENTDATA}
    (h1 : dispatch handlers1 event eventData w = .ok w1)
    (h2 : dispatch handlers2 event eventData v = .ok v1) : QueueFrame w1 v1 := by
  obtain ⟨a1, a2, a3, a4, a5⟩ := dispatch_keep hk1 h1
  obtain ⟨b1, b2, b3, b4, b5⟩ := dispatch_keep hk2 h2
  obtain ⟨h1, h2, h3, h4, h5⟩ := hf
  exact ⟨by rw [a1, b1, h1], by rw [a2, b2, h2], by rw [a3, b3, h3], by rw [a4, b4, h4],
    by rw [a5, b5, h5]⟩

/-- The order of dispatch does not depend on the handlers: with any two families of handlers
that return from every call (whatever they return, whatever they do to the mailbox) the loop
runs the `switch` on the same events in the same order and ends at the same point with the
same value. -/
theorem app_eventloop_frame {handlers1 handlers2 : Handlers} (hk1 : handlers1.KeepQueue)
    (hk2 : handlers2.KeepQueue) (hr1 : ∀ c w, ∃ r, handlers1 c w = .ok r)
    (hr2 : ∀ c w, ∃ r, handlers2 c w = .ok r) :
    ∀ (fuel : Nat) (event : APPLICATION_EVENT) (eventData : APPLICATION_EVENTDATA) (w v : World),
      QueueFrame w v →
      (app_eventloop handlers1 fuel event eventData w).map (fun r => (r.ret, r.handled)) =
        (app_eventloop handlers2 fuel event eventData v).map (fun r => (r.ret, r.handled))
  | 0, _, _, _, _, _ => rfl
  | fuel + 1, event, eventData, w, v, hf => by
    have hp := popEvent_frame hf event eventData
    simp only [app_eventloop, bind, Except.bind, pure, Except.pure]
    cases hw : popEvent event eventData w with
    | error x =>
      cases hv : popEvent event eventData v with
      | error y =>
        rw [hw, hv] at hp
        simp only at hp
        subst hp
        rfl
      | ok q =>
        rw [hw, hv] at hp
        exact absurd hp id
    | ok r =>
      cases hv : popEvent event eventData v with
      | error y =>
        rw [hw, hv] at hp
        exact absurd hp id
      | ok q =>
        rw [hw, hv] at hp
        obtain ⟨e, d, w1⟩ := r
        obtain ⟨e1, d1, v1⟩ := q
        obtain ⟨he, hd, hf1⟩ := hp
        simp only at he hd hf1
        subst he hd
        obtain ⟨w2, hw2⟩ := dispatch_returns hr1 e d w1
        obtain ⟨v2, hv2⟩ := dispatch_returns hr2 e d v1
        have hf2 := dispatch_frame hk1 hk2 hf1 hw2 hv2
        have hrec := app_eventloop_frame hk1 hk2 hr1 hr2 fuel e d _ _ hf2
        simp only [hw2, hv2, hf2.2.2.2.2]
        split
        · rfl
        · revert hrec
          cases app_eventloop handlers1 fuel e d w2 <;>
            cases app_eventloop handlers2 fuel e d v2 <;>
            simp [Except.map]

/-- C16. Handler failures never stop the dispatcher. For any handlers and any two
assignments `codes1`, `codes2` of values returned by them (negative error codes included),
`app_eventloop` gives the same result: the same events dispatched in the same order, the
same final state, the same returned value. Started with `appExit == 0` (handlers that leave
the queue alone), the loop ends only on the stop event: when it returns, the last event
handled is `EVT_APP_STOP` and none before it is. And on a well-formed queue that holds
`pre`, then the stop event, then `post`, it does return under both assignments after the
events `pre` and the stop event, provided the calls made for these events return. -/
theorem C16_handler_failures (handlers : Handlers) (hk : handlers.KeepQueue)
    (codes1 codes2 : HandlerCall → World → Int) (fuel : Nat) (event : APPLICATION_EVENT)
    (eventData : APPLICATION_EVENTDATA) (w : World) (hexit : w.pGlobalData.appExit = 0) :
    app_eventloop (handlers.returning codes1) fuel event eventData w =
      app_eventloop (handlers.returning codes2) fuel event eventData w ∧
    (∀ r, app_eventloop (handlers.returning codes1) fuel event eventData w = .ok r →
      r.ret = 0 ∧ r.world.pGlobalData.appExit = 1 ∧
      ∃ pre d, r.handled = pre ++ [(.EVT_APP_STOP, d)] ∧ ∀ e ∈ pre, e.1 ≠ .EVT_APP_STOP) ∧
    (∀ as pre post stopData, (∀ e ∈ pre, e.1 ≠ .EVT_APP_STOP) →
      QueueHolds w as (pre ++ (.EVT_APP_STOP, stopData) :: post) → pre.length + 1 ≤ fuel →
      (∃ v, handleEvents handlers (pre ++ [(.EVT_APP_STOP, stopData)]) w = .ok v) →
      ∃ r, app_eventloop (handlers.returning codes1) fuel event eventData w = .ok r ∧
        app_eventloop (handlers.returning codes2) fuel event eventData w = .ok r ∧
        r.ret = 0 ∧ r.handled = pre ++ [(.EVT_APP_STOP, stopData)]) := by
  have heq : app_eventloop (handlers.returning codes1) fuel event eventData w =
      app_eventloop (handlers.returning codes2) fuel event eventData w := by
    rw [app_eventloop_returning, app_eventloop_returning]
  refine ⟨heq, ?_, ?_⟩
  · intro r hr
    exact app_eventloop_stop (keepQueue_returning hk codes1) fuel event eventData w r hexit hr
  · intro as pre post stopData hpre hq hfuel hrun
    obtain ⟨v, hv⟩ := hrun
    obtain ⟨r, hr, hret, hhandled, _⟩ :=
      app_eventloop_holds (keepQueue_returning hk codes1) stopData post pre w v as fuel event
        eventData hpre hq hexit hfuel (by rw [handleEvents_returning]; exact hv)
    exact ⟨r, hr, heq ▸ hr, hret, hhandled⟩

/-- C16 at scenario A with the functions of `action.c` made to return 0 from every call, and
made to return -100 from every call. -/
theorem C16_handler_failures_witness :
    dispatcherHandlers.KeepQueue ∧ scenarioA_queue.pGlobalData.appExit = 0 ∧
    app_eventloop (dispatcherHandlers.returning (fun _ _ => 0)) 3 .EVT_MQTT_PING ⟨none, []⟩
        scenarioA_queue =
      app_eventloop (dispatcherHandlers.returning (fun _ _ => -100)) 3 .EVT_MQTT_PING ⟨none, []⟩
        scenarioA_queue ∧
    ∃ r, app_eventloop (dispatcherHandlers.returning (fun _ _ => 0)) 3 .EVT_MQTT_PING ⟨none, []⟩
        scenarioA_queue = .ok r ∧
      app_eventloop (dispatcherHandlers.returning (fun _ _ => -100)) 3 .EVT_MQTT_PING ⟨none, []⟩
        scenarioA_queue = .ok r ∧
      r.ret = 0 ∧
      r.handled = [(.EVT_STARTUP, ⟨none, []⟩), (.EVT_MQTT_WAKEWORD, ⟨none, "hey".toList⟩)] ++
        [(.EVT_APP_STOP, ⟨none, []⟩)] :=
  ⟨actionHandlers_keepQueue _ _ _ _ _ _ _, rfl,
    (C16_handler_failures dispatcherHandlers (actionHandlers_keepQueue _ _ _ _ _ _ _)
      (fun _ _ => 0) (fun _ _ => -100) 3 .EVT_MQTT_PING ⟨none, []⟩ scenarioA_queue rfl).1,
    (C16_handler_failures dispatcherHandlers (actionHandlers_keepQueue _ _ _ _ _ _ _)
      (fun _ _ => 0) (fun _ _ => -100) 3 .EVT_MQTT_PING ⟨none, []⟩ scenarioA_queue rfl).2.2
      [0, 1, 2, 3]
      [(.EVT_STARTUP, ⟨none, []⟩), (.EVT_MQTT_WAKEWORD, ⟨none, "hey".toList⟩)]
      [(.EVT_KEYPRESS, ⟨none, " ".toList⟩)] ⟨none, []⟩ (by decide) scenarioA_queue_holds
      (by decide) ⟨_, rfl⟩⟩

/-! ## mqtt_topic_compare -/

theorem charAt_append_nil (s : CString) : charAt (s ++ []) s.length = .ok NUL := by
  simp [charAt]

theorem charAt_append_cons (s : CString) (c : Char) (r : CString) :
    charAt (s ++ c :: r) s.length = .ok c := by
  have h : (s ++ c :: r).getD s.length NUL = c := by
    rw [List.getD_eq_getElem?_getD, List.getElem?_append_right (by simp)]
    simp
  unfold charAt
  rw [if_pos (by simp), h]

/-- The loop of `mqtt_topic_compare` at position `iPos`, when the two texts have at least
`iPos` characters: it returns, and its value is `topicMatch` of the two remainders. -/
theorem mqtt_topic_compare_loop_eq : ∀ (ns hs hp np : CString) (fuel : Nat),
    hp.length = np.length → NUL ∉ hs → NUL ∉ ns → ns.length < fuel →
    mqtt_topic_compare_loop (hp ++ hs) (np ++ ns) fuel np.length = .ok (topicMatch hs ns)
  | _, _, _, _, 0, _, _, _, hf => by simp at hf
  | [], hs, hp, np, fuel + 1, hlen, _, _, _ => by
    rw [mqtt_topic_compare_loop, charAt_append_nil]
    cases hs with
    | nil => simp [strlen, hlen, topicMatch, bind, Except.bind, pure, Except.pure]
    | cons x hs => simp [strlen, hlen, topicMatch, bind, Except.bind, pure, Except.pure]
  | c :: ns, [], hp, np, fuel + 1, hlen, _, hn, _ => by
    have hc : c ≠ NUL := fun h => hn (h ▸ List.mem_cons_self _ _)
    rw [mqtt_topic_compare_loop, charAt_append_cons, ← hlen, charAt_append_nil]
    have h1 : NUL ≠ '#' := by decide
    simp [hc, h1, topicMatch, bind, Except.bind, pure, Except.pure]
  | c :: ns, x :: hs, hp, np, fuel + 1, hlen, hh, hn, hf => by
    have hc : c ≠ NUL := fun h => hn (h ▸ List.mem_cons_self _ _)
    have hx : x ≠ NUL := fun h => hh (h ▸ List.mem_cons_self _ _)
    have hrec := mqtt_topic_compare_loop_eq ns hs (hp ++ [x]) (np ++ [c]) fuel (by simp [hlen])
      (fun h => hh (List.mem_cons_of_mem _ h)) (fun h => hn (List.mem_cons_of_mem _ h))
      (by simpa using hf)
    simp only [List.append_assoc, List.singleton_append, List.length_append, List.length_singleton]
      at hrec
    rw [mqtt_topic_compare_loop, charAt_append_cons, ← hlen, charAt_append_cons, hlen, hrec]
    simp only [bind, Except.bind, pure, Except.pure, hc, hx, topicMatch, ne_eq, not_false_eq_true,
      if_true, if_false]
    split
    · rfl
    · split <;> rfl

/-- The function `mqtt_topic_compare` returns on all C strings, and its value is `topicMatch`. -/
theorem mqtt_topic_compare_eq (haystack needle : CString) (hh : NUL ∉ haystack)
    (hn : NUL ∉ needle) : mqtt_topic_compare haystack needle = .ok (topicMatch haystack needle) := by
  have := mqtt_topic_compare_loop_eq needle haystack [] [] (strlen needle + 1) rfl hh hn
    (by simp [strlen])
  simpa [mqtt_topic_compare] using this

theorem topicMatch_exact : ∀ (p t : CString), '#' ∉ p → topicMatch p t = if p = t then 1 else 0
  | [], [], _ => by simp [topicMatch]
  | [], _ :: _, _ => by simp [topicMatch]
  | _ :: _, [], _ => by simp [topicMatch]
  | x :: p, c :: t, hp => by
    have hx : x ≠ '#' := fun h => hp (h ▸ List.mem_cons_self _ _)
    have hrec := topicMatch_exact p t (fun h => hp (List.mem_cons_of_mem _ h))
    simp only [topicMatch, hx, ne_eq, not_false_eq_true, and_true, if_false, hrec]
    by_cases hcx : c = x
    · subst hcx
      simp
    · have : ¬ x = c := fun h => hcx h.symm
      simp [hcx, this]

theorem topicMatch_wildcard : ∀ (p t : CString), '#' ∉ p →
    topicMatch (p ++ ['#']) t = if p <+: t ∧ p.length < t.length then 1 else 0
  | [], [], _ => by simp [topicMatch]
  | [], _ :: _, _ => by simp [topicMatch]
  | _ :: _, [], _ => by simp [topicMatch]
  | x :: p, c :: t, hp => by
    have hx : x ≠ '#' := fun h => hp (h ▸ List.mem_cons_self _ _)
    have hrec := topicMatch_wildcard p t (fun h => hp (List.mem_cons_of_mem _ h))
    simp only [List.cons_append, topicMatch, hx, ne_eq, not_false_eq_true, and_true, if_false,
      hrec]
    by_cases hcx : c = x
    · subst hcx
      simp [List.cons_prefix_cons, hrec]
    · have : ¬ x = c := fun h => hcx h.symm
      simp [hcx, this, List.cons_prefix_cons]

/-! ## C17: exact topic matching -/

/-- C17. Exact matching: for every pattern `p` without the character `#` and every topic
`t` (C strings), `mqtt_topic_compare(p, t)` returns 1 if `p` and `t` are the same string and
0 otherwise. -/
theorem C17_exact_match (p t : CString) (hp : '#' ∉ p) (hpn : NUL ∉ p) (htn : NUL ∉ t) :
    mqtt_topic_compare p t = .ok (if p = t then 1 else 0) ∧
    (mqtt_topic_compare p t = .ok 1 ↔ p = t) := by
  have h := mqtt_topic_compare_eq p t hpn htn
  rw [topicMatch_exact p t hp] at h
  refine ⟨h, ?_⟩
  rw [h]
  by_cases hpt : p = t <;> simp [hpt]

/-- C17 at the pattern `creoir/app/stop`: the same topic matches, a longer topic does not. -/
theorem C17_exact_match_witness :
    '#' ∉ "creoir/app/stop".toList ∧ NUL ∉ "creoir/app/stop".toList ∧
    NUL ∉ "creoir/app/stop/now".toList ∧
    mqtt_topic_compare "creoir/app/stop".toList "creoir/app/stop/now".toList =
      .ok (if "creoir/app/stop".toList = "creoir/app/stop/now".toList then 1 else 0) ∧
    (mqtt_topic_compare "creoir/app/stop".toList "creoir/app/stop/now".toList = .ok 1 ↔
      "creoir/app/stop".toList = "creoir/app/stop/now".toList) :=
  ⟨by decide, by decide, by decide,
    C17_exact_match "creoir/app/stop".toList "creoir/app/stop/now".toList (by decide) (by decide)
      (by decide)⟩

/-! ## C18: trailing wildcard -/

/-- C18 as stated fails: the topic `a/` starts with the prefix `a/`, but
`mqtt_topic_compare("a/#", "a/")` returns 0. -/
theorem C18_empty_suffix :
    "a/".toList <+: "a/".toList ∧
    mqtt_topic_compare ("a/".toList ++ "#".toList) "a/".toList = .ok 0 ∧
    ¬ (mqtt_topic_compare ("a/".toList ++ "#".toList) "a/".toList = .ok 1 ↔
      "a/".toList <+: "a/".toList) := by
  refine ⟨List.prefix_refl _, by decide, ?_⟩
  intro h
  have := h.2 (List.prefix_refl _)
  revert this
  decide

/-- C18, amended. Trailing wildcard: for every prefix `p` without `#` and every topic `t`
(C strings), `mqtt_topic_compare(p ++ "#", t)` returns 1 if `t` starts with `p` and is
longer than `p`, and 0 otherwise; in particular it returns 0 for `t = p`. -/
theorem C18_trailing_wildcard (p t : CString) (hp : '#' ∉ p) (hpn : NUL ∉ p) (htn : NUL ∉ t) :
    mqtt_topic_compare (p ++ "#".toList) t =
      .ok (if p <+: t ∧ p.length < t.length then 1 else 0) ∧
    (mqtt_topic_compare (p ++ "#".toList) t = .ok 1 ↔ ∃ s, s ≠ [] ∧ t = p ++ s) := by
  have hn : NUL ∉ p ++ "#".toList := by
    intro h
    rcases List.mem_append.1 h with h | h
    · exact hpn h
    · revert h
      decide
  have h := mqtt_topic_compare_eq (p ++ "#".toList) t hn htn
  have hw := topicMatch_wildcard p t hp
  have e : "#".toList = ['#'] := rfl
  rw [e] at h ⊢
  rw [hw] at h
  refine ⟨h, ?_⟩
  rw [h]
  constructor
  · intro h1
    by_cases hc : p <+: t ∧ p.length < t.length
    · obtain ⟨⟨s, hs⟩, hlen⟩ := hc
      refine ⟨s, ?_, hs.symm⟩
      rintro rfl
      rw [← hs] at hlen
      simp at hlen
    · simp [hc] at h1
  · rintro ⟨s, hs, rfl⟩
    have hlen : 0 < s.length := List.length_pos.2 hs
    simp [hlen]

/-- C18 (amended) at the pattern `creoir/#` and the topic `creoir/app/stop`. -/
theorem C18_trailing_wildcard_witness :
    '#' ∉ "creoir/".toList ∧ NUL ∉ "creoir/".toList ∧ NUL ∉ "creoir/app/stop".toList ∧
    mqtt_topic_compare ("creoir/".toList ++ "#".toList) "creoir/app/stop".toList =
      .ok (if "creoir/".toList <+: "creoir/app/stop".toList ∧
        "creoir/".toList.length < "creoir/app/stop".toList.length then 1 else 0) ∧
    (mqtt_topic_compare ("creoir/".toList ++ "#".toList) "creoir/app/stop".toList = .ok 1 ↔
      ∃ s, s ≠ [] ∧ "creoir/app/stop".toList = "creoir/".toList ++ s) :=
  ⟨by decide, by decide, by decide,
    C18_trailing_wildcard "creoir/".toList "creoir/app/stop".toList (by decide) (by decide)
      (by decide)⟩

/-! ## The delivery handlers -/

/-- What `handle_MQTTonWakeword` does with a payload that fits the event array. -/
theorem handle_MQTTonWakeword_holds {w : World} {as : List Nat} {L : List Event} (t d : CString)
    (hq : QueueHolds w as L) (hd : d.length < TOPIC_PAYLOAD_SIZE) :
    ∃ w1, handle_MQTTonWakeword t (some d) w = .ok (0, w1) ∧
      QueueHolds w1 (as ++ [w.heap.length]) (L ++ [(.EVT_MQTT_WAKEWORD, ⟨none, d⟩)]) ∧
      w1.pGlobalData.mqttSharedData = w.pGlobalData.mqttSharedData ∧ w1.trace = w.trace := by
  obtain ⟨w1, hpush, hq1, _, _, hm, _, _, htr⟩ :=
    pushEvent_holds (.EVT_MQTT_WAKEWORD, ⟨none, d⟩) hq hd
  refine ⟨w1, ?_, hq1, hm, htr⟩
  simp only at hpush
  simp [handle_MQTTonWakeword, strcpy, hd, hpush, bind, Except.bind, pure, Except.pure]

/-- The function `handle_MQTTonWakeword` copies a payload of 10240 or more characters over the end of
the event array. -/
theorem handle_MQTTonWakeword_overflow (t d : CString) (w : World)
    (hd : TOPIC_PAYLOAD_SIZE ≤ d.length) : handle_MQTTonWakeword t (some d) w = .error .undefined := by
  have : ¬ d.length < TOPIC_PAYLOAD_SIZE := by omega
  simp [handle_MQTTonWakeword, strcpy, this, bind, Except.bind]

/-- What `handle_MQTTintentRecognized` does with a payload that fits the event array. -/
theorem handle_MQTTintentRecognized_holds {w : World} {as : List Nat} {L : List Event} (t d : CString)
    (hq : QueueHolds w as L) (hd : d.length < TOPIC_PAYLOAD_SIZE) :
    ∃ w1, handle_MQTTintentRecognized t (some d) w = .ok (0, w1) ∧
      QueueHolds w1 (as ++ [w.heap.length]) (L ++ [(.EVT_MQTT_INTENT_RECOGNIZED, ⟨none, d⟩)]) ∧
      w1.pGlobalData.mqttSharedData = w.pGlobalData.mqttSharedData ∧ w1.trace = w.trace := by
  obtain ⟨w1, hpush, hq1, _, _, hm, _, _, htr⟩ :=
    pushEvent_holds (.EVT_MQTT_INTENT_RECOGNIZED, ⟨none, d⟩) hq hd
  refine ⟨w1, ?_, hq1, hm, htr⟩
  simp only at hpush
  simp [handle_MQTTintentRecognized, strcpy, hd, hpush, bind, Except.bind, pure, Except.pure]

/-- The function `handle_MQTTintentRecognized` copies a payload of 10240 or more characters over the end of
the event array. -/
theorem handle_MQTTintentRecognized_overflow (t d : CString) (w : World)
    (hd : TOPIC_PAYLOAD_SIZE ≤ d.length) : handle_MQTTintentRecognized t (some d) w = .error .undefined := by
  have : ¬ d.length < TOPIC_PAYLOAD_SIZE := by omega
  simp [handle_MQTTintentRecognized, strcpy, this, bind, Except.bind]

/-- What `handle_MQTTintentNotRecognized` does with a payload that fits the event array. -/
theorem handle_MQTTintentNotRecognized_holds {w : World} {as : List Nat} {L : List Event} (t d : CString)
    (hq : QueueHolds w as L) (hd : d.length < TOPIC_PAYLOAD_SIZE) :
    ∃ w1, handle_MQTTintentNotRecognized t (some d) w = .ok (0, w1) ∧
      QueueHolds w1 (as ++ [w.heap.length]) (L ++ [(.EVT_MQTT_INTENT_NOT_RECOGNIZED, ⟨none, d⟩)]) ∧
      w1.pGlobalData.mqttSharedData = w.pGlobalData.mqttSharedData ∧ w1.trace = w.trace := by
  obtain ⟨w1, hpush, hq1, _, _, hm, _, _, htr⟩ :=
    pushEvent_holds (.EVT_MQTT_INTENT_NOT_RECOGNIZED, ⟨none, d⟩) hq hd
  refine ⟨w1, ?_, hq1, hm, htr⟩
  simp only at hpush
  simp [handle_MQTTintentNotRecognized, strcpy, hd, hpush, bind, Except.bind, pure, Except.pure]

/-- The function `handle_MQTTintentNotRecognized` copies a payload of 10240 or more characters over the end of
the event array. -/
theorem handle_MQTTintentNotRecognized_overflow (t d : CString) (w : World)
    (hd : TOPIC_PAYLOAD_SIZE ≤ d.length) : handle_MQTTintentNotRecognized t (some d) w = .error .undefined := by
  have : ¬ d.length < TOPIC_PAYLOAD_SIZE := by omega
  simp [handle_MQTTintentNotRecognized, strcpy, this, bind, Except.bind]

/-- What `handle_MQTTuserIdentified` does with a payload that fits the event array. -/
theorem handle_MQTTuserIdentified_holds {w : World} {as : List Nat} {L : List Event} (t d : CString)
    (hq : QueueHolds w as L) (hd : d.length < TOPIC_PAYLOAD_SIZE) :
    ∃ w1, handle_MQTTuserIdentified t (some d) w = .ok (0, w1) ∧
      QueueHolds w1 (as ++ [w.heap.length]) (L ++ [(.EVT_MQTT_BIOM_IDENTIFICATION, ⟨none, d⟩)]) ∧
      w1.pGlobalData.mqttSharedData = w.pGlobalData.mqttSharedData ∧ w1.trace = w.trace := by
  obtain ⟨w1, hpush, hq1, _, _, hm, _, _, htr⟩ :=
    pushEvent_holds (.EVT_MQTT_BIOM_IDENTIFICATION, ⟨none, d⟩) hq hd
  refine ⟨w1, ?_, hq1, hm, htr⟩
  simp only at hpush
  simp [handle_MQTTuserIdentified, strcpy, hd, hpush, bind, Except.bind, pure, Except.pure]

/-- The function `handle_MQTTuserIdentified` copies a payload of 10240 or more characters over the end of
the event array. -/
theorem handle_MQTTuserIdentified_overflow (t d : CString) (w : World)
    (hd : TOPIC_PAYLOAD_SIZE ≤ d.length) : handle_MQTTuserIdentified t (some d) w = .error .undefined := by
  have : ¬ d.length < TOPIC_PAYLOAD_SIZE := by omega
  simp [handle_MQTTuserIdentified, strcpy, this, bind, Except.bind]

/-- What `handleMQTT_app_stop` does with a payload that fits the event array. -/
theorem handleMQTT_app_stop_holds {w : World} {as : List Nat} {L : List Event} (t d : CString)
    (hq : QueueHolds w as L) (hd : d.length < TOPIC_PAYLOAD_SIZE) :
    ∃ w1, handleMQTT_app_stop t (some d) w = .ok (0, w1) ∧
      QueueHolds w1 (as ++ [w.heap.length]) (L ++ [(.EVT_APP_STOP, ⟨none, d⟩)]) ∧
      w1.pGlobalData.mqttSharedData = w.pGlobalData.mqttSharedData ∧ w1.trace = w.trace := by
  obtain ⟨w1, hpush, hq1, _, _, hm, _, _, htr⟩ :=
    pushEvent_holds (.EVT_APP_STOP, ⟨none, d⟩) hq hd
  refine ⟨w1, ?_, hq1, hm, htr⟩
  simp only at hpush
  simp [handleMQTT_app_stop, strcpy, hd, hpush, bind, Except.bind, pure, Except.pure]

/-- The function `handleMQTT_app_stop` copies a payload of 10240 or more characters over the end of
the event array. -/
theorem handleMQTT_app_stop_overflow (t d : CString) (w : World)
    (hd : TOPIC_PAYLOAD_SIZE ≤ d.length) : handleMQTT_app_stop t (some d) w = .error .undefined := by
  have : ¬ d.length < TOPIC_PAYLOAD_SIZE := by omega
  simp [handleMQTT_app_stop, strcpy, this, bind, Except.bind]

/-! ## on_message -/

theorem mqtt_topic_compare_exact {p t : CString} (hp : '#' ∉ p) (hpn : NUL ∉ p) (htn : NUL ∉ t) :
    mqtt_topic_compare p t = .ok (if p = t then 1 else 0) := by
  rw [mqtt_topic_compare_eq p t hpn htn, topicMatch_exact p t hp]

/-- Entries whose topic differs from the topic of the message are passed over. -/
theorem on_message_loop_skip (topic : CString) (payload : Option CString) (w : World)
    (ht : NUL ∉ topic) : ∀ (reg : List mqtt_action),
      (∀ a ∈ reg, '#' ∉ a.topic ∧ NUL ∉ a.topic ∧ a.topic ≠ topic) →
      on_message_loop reg topic payload w = .ok w
  | [], _ => rfl
  | a :: reg, h => by
    obtain ⟨h1, h2, h3⟩ := h a (List.mem_cons_self _ _)
    have hrec := on_message_loop_skip topic payload w ht reg
      (fun b hb => h b (List.mem_cons_of_mem _ hb))
    simp [on_message_loop, mqtt_topic_compare_exact h1 h2 ht, h3, hrec, bind, Except.bind]

/-- For the topic of an entry of a register without wildcards and without repeated topics,
the loop of `on_message` calls the function of that entry, and no other. -/
theorem on_message_loop_entry (payload : Option CString) (w : World) :
    ∀ (reg : List mqtt_action), (reg.map (fun a => a.topic)).Nodup →
      (∀ a ∈ reg, '#' ∉ a.topic ∧ NUL ∉ a.topic) → ∀ a ∈ reg,
      on_message_loop reg a.topic payload w =
        (a.function a.topic payload w).map (fun r => r.2)
  | [], _, _, a, ha => by simp at ha
  | b :: reg, hnd, hclean, a, ha => by
    obtain ⟨hb1, hb2⟩ := hclean b (List.mem_cons_self _ _)
    obtain ⟨ha1, ha2⟩ := hclean a ha
    simp only [List.map_cons, List.nodup_cons] at hnd
    by_cases hba : b.topic = a.topic
    · have hab : a = b := by
        rcases List.mem_cons.1 ha with h | h
        · exact h
        · exact absurd (hba ▸ List.mem_map_of_mem (fun a => a.topic) h) hnd.1
      subst hab
      have hskip : ∀ v, on_message_loop reg a.topic payload v = .ok v := fun v =>
        on_message_loop_skip a.topic payload v ha2 reg (fun c hc =>
          ⟨(hclean c (List.mem_cons_of_mem _ hc)).1, (hclean c (List.mem_cons_of_mem _ hc)).2,
            fun h => hnd.1 (h ▸ List.mem_map_of_mem (fun a => a.topic) hc)⟩)
      simp only [on_message_loop, mqtt_topic_compare_exact ha1 ha2 ha2, if_true, bind,
        Except.bind, hskip]
      cases a.function a.topic payload w <;> rfl
    · have har : a ∈ reg := by
        rcases List.mem_cons.1 ha with h | h
        · exact absurd (h ▸ rfl) hba
        · exact h
      have hrec := on_message_loop_entry payload w reg hnd.2
        (fun c hc => hclean c (List.mem_cons_of_mem _ hc)) a har
      simp [on_message_loop, mqtt_topic_compare_exact hb1 hb2 ha2, hba, hrec, bind, Except.bind]

theorem mqttActionRegister_nodup : (mqttActionRegister.map (fun a => a.topic)).Nodup := by
  decide

theorem mqttActionRegister_clean : ∀ a ∈ mqttActionRegister, '#' ∉ a.topic ∧ NUL ∉ a.topic := by
  simp only [mqttActionRegister, List.forall_mem_cons]
  refine ⟨by decide, by decide, by decide, by decide, by decide, ?_⟩
  simp

/-! ## C19: from the delivery callback to the event -/

/-- C19. Delivery callback: on a well-formed queue, for a message with payload text `d`
shorter than 10240 characters, `on_message` returns; when the topic is one of the five
topics of `mqttActionRegister` the queue then holds exactly one more event, of the kind
that belongs to the topic, with payload text `d` and heap pointer `NULL`; for every other
topic the state is unchanged. Every function of the register called with a `NULL` payload
returns -1 and only reports the error. -/
theorem C19_on_message (topic d : CString) (w : World) (as : List Nat) (L : List Event)
    (hq : QueueHolds w as L) (ht : NUL ∉ topic) (hd : d.length < TOPIC_PAYLOAD_SIZE) :
    (∀ kind, (topic, kind) ∈ ([("creoir/asr/wakewordDetected".toList, .EVT_MQTT_WAKEWORD),
        ("creoir/asr/intentRecognized".toList, .EVT_MQTT_INTENT_RECOGNIZED),
        ("creoir/asr/intentNotRecognized".toList, .EVT_MQTT_INTENT_NOT_RECOGNIZED),
        ("creoir/biometrics/identification".toList, .EVT_MQTT_BIOM_IDENTIFICATION),
        ("creoir/app/stop".toList, .EVT_APP_STOP)] :
          List (CString × APPLICATION_EVENT)) →
      ∃ w1, on_message topic (some d) w = .ok w1 ∧
        QueueHolds w1 (as ++ [w.heap.length]) (L ++ [(kind, ⟨none, d⟩)]) ∧
        w1.trace = w.trace) ∧
    ((∀ a ∈ mqttActionRegister, a.topic ≠ topic) → on_message topic (some d) w = .ok w) ∧
    (∀ a ∈ mqttActionRegister,
      a.function topic none w = .ok (-1, w.emit (.dbg_error "No MQTT data in topic."))) := by
  refine ⟨?_, ?_, ?_⟩
  · intro kind hmem
    simp only [List.mem_cons, Prod.mk.injEq, List.mem_singleton, List.not_mem_nil, or_false]
      at hmem
    rcases hmem with h | h | h | h | h
    · obtain ⟨rfl, rfl⟩ := h
      obtain ⟨w1, hrun, hq1, _, htr⟩ := handle_MQTTonWakeword_holds "creoir/asr/wakewordDetected".toList d hq hd
      have hloop := on_message_loop_entry (some d) w mqttActionRegister mqttActionRegister_nodup
        mqttActionRegister_clean ⟨"creoir/asr/wakewordDetected".toList, handle_MQTTonWakeword⟩
        (by simp [mqttActionRegister])
      simp only [hrun, Except.map] at hloop
      exact ⟨w1, hloop, hq1, htr⟩
    · obtain ⟨rfl, rfl⟩ := h
      obtain ⟨w1, hrun, hq1, _, htr⟩ := handle_MQTTintentRecognized_holds "creoir/asr/intentRecognized".toList d hq hd
      have hloop := on_message_loop_entry (some d) w mqttActionRegister mqttActionRegister_nodup
        mqttActionRegister_clean ⟨"creoir/asr/intentRecognized".toList, handle_MQTTintentRecognized⟩
        (by simp [mqttActionRegister])
      simp only [hrun, Except.map] at hloop
      exact ⟨w1, hloop, hq1, htr⟩
    · obtain ⟨rfl, rfl⟩ := h
      obtain ⟨w1, hrun, hq1, _, htr⟩ := handle_MQTTintentNotRecognized_holds "creoir/asr/intentNotRecognized".toList d hq hd
      have hloop := on_message_loop_entry (some d) w mqttActionRegister mqttActionRegister_nodup
        mqttActionRegister_clean ⟨"creoir/asr/intentNotRecognized".toList, handle_MQTTintentNotRecognized⟩
        (by simp [mqttActionRegister])
      simp only [hrun, Except.map] at hloop
      exact ⟨w1, hloop, hq1, htr⟩
    · obtain ⟨rfl, rfl⟩ := h
      obtain ⟨w1, hrun, hq1, _, htr⟩ := handle_MQTTuserIdentified_holds "creoir/biometrics/identification".toList d hq hd
      have hloop := on_message_loop_entry (some d) w mqttActionRegister mqttActionRegister_nodup
        mqttActionRegister_clean ⟨"creoir/biometrics/identification".toList, handle_MQTTuserIdentified⟩
        (by simp [mqttActionRegister])
      simp only [hrun, Except.map] at hloop
      exact ⟨w1, hloop, hq1, htr⟩
    · obtain ⟨rfl, rfl⟩ := h
      obtain ⟨w1, hrun, hq1, _, htr⟩ := handleMQTT_app_stop_holds "creoir/app/stop".toList d hq hd
      have hloop := on_message_loop_entry (some d) w mqttActionRegister mqttActionRegister_nodup
        mqttActionRegister_clean ⟨"creoir/app/stop".toList, handleMQTT_app_stop⟩
        (by simp [mqttActionRegister])
      simp only [hrun, Except.map] at hloop
      exact ⟨w1, hloop, hq1, htr⟩
  · intro hne
    exact on_message_loop_skip topic (some d) w ht mqttActionRegister (fun a ha =>
      ⟨(mqttActionRegister_clean a ha).1, (mqttActionRegister_clean a ha).2, hne a ha⟩)
  · simp only [mqttActionRegister, List.forall_mem_cons]
    exact ⟨rfl, rfl, rfl, rfl, rfl, by simp⟩

/-- C19 at the queue left by `app_init` and a message `now` on the topic `creoir/app/stop`. -/
theorem C19_on_message_witness :
    QueueHolds startupQueue [0] [(.EVT_STARTUP, ⟨none, []⟩)] ∧
    NUL ∉ "creoir/app/stop".toList ∧ "now".toList.length < TOPIC_PAYLOAD_SIZE ∧
    ∃ w1, on_message "creoir/app/stop".toList (some "now".toList) startupQueue = .ok w1 ∧
      QueueHolds w1 ([0] ++ [startupQueue.heap.length])
        ([(.EVT_STARTUP, ⟨none, []⟩)] ++ [(.EVT_APP_STOP, ⟨none, "now".toList⟩)]) ∧
      w1.trace = startupQueue.trace :=
  have hq : QueueHolds startupQueue [0] [(.EVT_STARTUP, ⟨none, []⟩)] :=
    ⟨⟨rfl, _, rfl, rfl⟩, by decide, rfl, rfl, by decide⟩
  ⟨hq, by decide, by decide,
    (C19_on_message "creoir/app/stop".toList "now".toList startupQueue [0]
      [(.EVT_STARTUP, ⟨none, []⟩)] hq (by decide) (by decide)).1 .EVT_APP_STOP (by simp)⟩

/-! ## C20: the size of the event payload -/

/-- Every function of the register copies a payload of 10240 or more characters over the
end of the array `topicPayload`; none truncates it. -/
theorem register_overflow (t d : CString) (w : World) (hd : TOPIC_PAYLOAD_SIZE ≤ d.length) :
    ∀ a ∈ mqttActionRegister, a.function t (some d) w = .error .undefined := by
  simp only [mqttActionRegister, List.forall_mem_cons]
  exact ⟨handle_MQTTonWakeword_overflow t d w hd, handle_MQTTintentRecognized_overflow t d w hd,
    handle_MQTTintentNotRecognized_overflow t d w hd, handle_MQTTuserIdentified_overflow t d w hd,
    handleMQTT_app_stop_overflow t d w hd, by simp⟩

/-- C20. A payload of 10240 characters handed to any of the five delivery handlers is
copied with `strcpy` into the 10240-byte array `topicPayload`: the copy writes behind the
end of the array (undefined behaviour) and no event with a truncated text is pushed; the
same happens when `on_message` receives such a payload on the topic
`creoir/asr/intentRecognized`. -/
theorem C20_payload_overflow :
    longPayload.length = 10240 ∧
    (∀ a ∈ mqttActionRegister,
      a.function a.topic (some longPayload) startupQueue = .error .undefined) ∧
    on_message "creoir/asr/intentRecognized".toList (some longPayload) startupQueue =
      .error .undefined := by
  have hlen : longPayload.length = 10240 := by
    unfold longPayload
    rw [List.length_replicate]
  have hd : TOPIC_PAYLOAD_SIZE ≤ longPayload.length := by
    rw [hlen]
    decide
  refine And.intro hlen (And.intro ?_ ?_)
  · intro a ha
    exact register_overflow a.topic longPayload startupQueue hd a ha
  · have hloop := on_message_loop_entry (some longPayload) startupQueue mqttActionRegister
      mqttActionRegister_nodup mqttActionRegister_clean
      ⟨"creoir/asr/intentRecognized".toList, handle_MQTTintentRecognized⟩
      (by simp [mqttActionRegister])
    have hcall : handle_MQTTintentRecognized "creoir/asr/intentRecognized".toList
        (some longPayload) startupQueue = .error .undefined :=
      handle_MQTTintentRecognized_overflow _ _ _ hd
    simp only at hloop
    rw [hcall] at hloop
    exact hloop

/-! ## C28: mqtt_topic_compare is total and stays inside the two strings -/

theorem topicMatch_zero_or_one : ∀ (h n : CString), topicMatch h n = 0 ∨ topicMatch h n = 1
  | [], [] => Or.inr rfl
  | _ :: _, [] => Or.inl rfl
  | [], _ :: _ => Or.inl rfl
  | x :: h, c :: n => by
    simp only [topicMatch]
    split
    · exact Or.inl rfl
    · split
      · exact Or.inr rfl
      · exact topicMatch_zero_or_one h n

theorem topicMatch_self : ∀ (t : CString), topicMatch t t = 1
  | [] => rfl
  | x :: t => by
    simp only [topicMatch, ne_eq, not_true_eq_false, false_and, if_false]
    split
    · rfl
    · exact topicMatch_self t

/-- A read of `charAt` that returns a character is a read at or before the terminator. -/
theorem charAt_ok {s : CString} {i : Nat} {c : Char} (h : charAt s i = .ok c) :
    i ≤ s.length := by
  unfold charAt at h
  split at h
  · omega
  · split at h
    · omega
    · cases h

/-- C28. For every pattern and every topic (C strings) `mqtt_topic_compare` returns, and its
value is 0 or 1: the loop ends within `strlen(topic) + 1` passes and no read of a character
is behind the terminator of its string (such a read is `Stuck.undefined` in `charAt`). And
`mqtt_topic_compare(t, t)` is 1 for every string `t`. -/
theorem C28_total_in_bounds (p t : CString) (hp : NUL ∉ p) (ht : NUL ∉ t) :
    (∃ r, mqtt_topic_compare p t = .ok r ∧ (r = 0 ∨ r = 1)) ∧
    mqtt_topic_compare t t = .ok 1 ∧
    (∀ (s : CString) (i : Nat), s.length < i → charAt s i = .error .undefined) ∧
    (∀ (s : CString) (i : Nat) (c : Char), charAt s i = .ok c → i ≤ s.length) := by
  refine ⟨⟨topicMatch p t, mqtt_topic_compare_eq p t hp ht, topicMatch_zero_or_one p t⟩, ?_, ?_,
    fun s i c h => charAt_ok h⟩
  · rw [mqtt_topic_compare_eq t t ht ht, topicMatch_self]
  · intro s i hi
    have h1 : ¬ i < s.length := by omega
    have h2 : ¬ i = s.length := by omega
    simp [charAt, h1, h2]

/-- C28 at the pattern `creoir/#` and the topic `creoir/app/stop`. -/
theorem C28_total_in_bounds_witness :
    NUL ∉ "creoir/#".toList ∧ NUL ∉ "creoir/app/stop".toList ∧
    (∃ r, mqtt_topic_compare "creoir/#".toList "creoir/app/stop".toList = .ok r ∧
      (r = 0 ∨ r = 1)) ∧
    mqtt_topic_compare "creoir/app/stop".toList "creoir/app/stop".toList = .ok 1 :=
  ⟨by decide, by decide,
    (C28_total_in_bounds "creoir/#".toList "creoir/app/stop".toList (by decide) (by decide)).1,
    (C28_total_in_bounds "creoir/#".toList "creoir/app/stop".toList (by decide) (by decide)).2.1⟩

/-! ## C29: text behind the first wildcard -/

theorem topicMatch_mid (x : CString) (c : Char) (s : CString) : ∀ (p : CString), '#' ∉ p →
    topicMatch (p ++ '#' :: x) (p ++ c :: s) = 1
  | [], _ => by simp [topicMatch]
  | y :: p, hp => by
    have hy : y ≠ '#' := fun h => hp (h ▸ List.mem_cons_self _ _)
    have hrec := topicMatch_mid x c s p (fun h => hp (List.mem_cons_of_mem _ h))
    simp [topicMatch, hy, hrec]

/-- C29. Text after the first `#` of a pattern is ignored: for every prefix `p` without
`#`, every text `x` and every topic `t` (C strings) that starts with `p` and is longer than
`p`, `mqtt_topic_compare(p ++ "#" ++ x, t)` returns 1. -/
theorem C29_wildcard_inside (p x t : CString) (hp : '#' ∉ p) (hpn : NUL ∉ p) (hxn : NUL ∉ x)
    (htn : NUL ∉ t) (hpre : p <+: t) (hlen : p.length < t.length) :
    mqtt_topic_compare (p ++ "#".toList ++ x) t = .ok 1 := by
  have hn : NUL ∉ p ++ "#".toList ++ x := by
    intro h
    rcases List.mem_append.1 h with h | h
    · rcases List.mem_append.1 h with h | h
      · exact hpn h
      · revert h
        decide
    · exact hxn h
  rw [mqtt_topic_compare_eq _ t hn htn]
  obtain ⟨s, rfl⟩ := hpre
  cases s with
  | nil => simp at hlen
  | cons c s =>
    have e : p ++ "#".toList ++ x = p ++ '#' :: x := by
      show p ++ ['#'] ++ x = p ++ '#' :: x
      simp
    rw [e, topicMatch_mid x c s p hp]

/-- C29 at the pattern `creoir/#/stop` and the topic `creoir/app/start`. -/
theorem C29_wildcard_inside_witness :
    '#' ∉ "creoir/".toList ∧ NUL ∉ "creoir/".toList ∧ NUL ∉ "/stop".toList ∧
    NUL ∉ "creoir/app/start".toList ∧ "creoir/".toList <+: "creoir/app/start".toList ∧
    "creoir/".toList.length < "creoir/app/start".toList.length ∧
    mqtt_topic_compare ("creoir/".toList ++ "#".toList ++ "/stop".toList)
      "creoir/app/start".toList = .ok 1 :=
  ⟨by decide, by decide, by decide, by decide, ⟨"app/start".toList, rfl⟩, by decide,
    C29_wildcard_inside "creoir/".toList "/stop".toList "creoir/app/start".toList (by decide)
      (by decide) (by decide) (by decide) ⟨"app/start".toList, rfl⟩ (by decide)⟩

/-! ## C26: the structure of the event list -/

/-- On a well-formed list head and tail are `NULL` together, and a tail that is not `NULL`
points to the last node of the list, whose `next` is `NULL`. -/
theorem queueShape_structure {w : World} {as : List Nat} {L : List Event}
    (hq : QueueShape w as L) :
    (w.pGlobalData.eventListHead = none ↔ w.pGlobalData.eventListTail = none) ∧
    ∀ t, w.pGlobalData.eventListTail = some t →
      as.getLast? = some t ∧ ∃ node, w.node t = some node ∧ node.next = none := by
  obtain ⟨hc, _, htail, _⟩ := hq
  have hlen := chain_length hc
  constructor
  · constructor
    · intro h
      rw [h] at hc
      rw [htail, (chain_head_none hc).1]
      rfl
    · intro h
      rw [htail] at h
      have has : as = [] := by
        cases as with
        | nil => rfl
        | cons a as => simp [List.getLast?_eq_getLast] at h
      subst has
      cases L with
      | nil => exact hc
      | cons e L => simp at hlen
  · intro t ht
    rw [htail] at ht
    refine ⟨ht, ?_⟩
    have hne : as ≠ [] := by
      rintro rfl
      simp at ht
    obtain ⟨as0, rfl⟩ : ∃ as0, as = as0 ++ [t] := by
      refine ⟨as.dropLast, ?_⟩
      have h1 := List.dropLast_append_getLast hne
      have h2 : as.getLast hne = t := by
        rw [List.getLast?_eq_getLast _ hne] at ht
        exact Option.some.inj ht
      rw [h2] at h1
      exact h1.symm
    have hL : L ≠ [] := by
      rintro rfl
      simp at hlen
    obtain ⟨L0, e, rfl⟩ : ∃ L0 e, L = L0 ++ [e] :=
      ⟨L.dropLast, L.getLast hL, (List.dropLast_append_getLast hL).symm⟩
    exact ⟨_, chain_last hc, rfl⟩

/-- Calls of `pushEvent` and `popEvent` alone keep the structure of the list: head and tail
are `NULL` together and the tail is the last node. -/
theorem queue_structure_push_pop (ops : List QueueOp) (topic payload : CString) (w : World)
    (hnd : .drain ∉ ops) (h : QueueOp.calls ops (main_init topic payload) = .ok w) :
    (w.pGlobalData.eventListHead = none ↔ w.pGlobalData.eventListTail = none) ∧
    ∀ t, w.pGlobalData.eventListTail = some t → ∃ node, w.node t = some node ∧ node.next = none := by
  have h0 : QueueHolds (main_init topic payload) [] [] :=
    (queueHolds_nil_iff _).2 ⟨rfl, rfl, rfl⟩
  obtain ⟨as1, L1, hq⟩ := calls_holds ops hnd h0 h
  have hs := queueShape_structure ((queueHolds_iff_shape _ _ _).1 hq).1
  exact ⟨hs.1, fun t ht => (hs.2 t ht).2⟩

/-- C26. The structure invariant fails in a reachable state: after `pushEvent` of the
start-up event and `emptyEventList` the head is `NULL`, but `eventListTail` is not: it still
points to node 0, which has been freed. -/
theorem C26_dangling_tail :
    QueueOp.calls [.push .EVT_STARTUP ⟨none, []⟩, .drain] (main_init [] []) = .ok drainedQueue ∧
    QueueReachable drainedQueue ∧
    drainedQueue.pGlobalData.eventListHead = none ∧
    drainedQueue.pGlobalData.eventListTail = some 0 ∧
    drainedQueue.node 0 = none ∧
    ¬ (drainedQueue.pGlobalData.eventListHead = none ↔
      drainedQueue.pGlobalData.eventListTail = none) := by
  have hrun : QueueOp.calls [.push .EVT_STARTUP ⟨none, []⟩, .drain] (main_init [] []) =
      .ok drainedQueue := by decide
  exact ⟨hrun, calls_reachable _ (QueueReachable.init [] []) hrun, by decide, by decide,
    by decide, by decide⟩

/-! ## C27: popEvent on an empty list -/

/-- C27. When `popEvent` gets past the semaphore (wait-count at least 1) while the head is
`NULL`, it returns the two output parameters as they were and the state in which it passed
the semaphore: list, heap, mailbox and trace are untouched. The pass of `app_eventloop` that
made the call then runs the `switch` on the kind and data left in its local variables. -/
theorem C27_pop_empty_frame (handlers : Handlers) (fuel : Nat) (event : APPLICATION_EVENT)
    (eventData : APPLICATION_EVENTDATA) (w : World)
    (hhead : w.pGlobalData.eventListHead = none) (hsem : 1 ≤ w.pGlobalData.eventSemap) :
    ∃ w1, mt_semaphore_acquire w = .ok w1 ∧
      popEvent event eventData w = .ok (event, eventData, w1) ∧
      w1.heap = w.heap ∧ w1.trace = w.trace ∧
      w1.pGlobalData.eventListHead = none ∧
      w1.pGlobalData.eventListTail = w.pGlobalData.eventListTail ∧
      w1.pGlobalData.mqttSharedData = w.pGlobalData.mqttSharedData ∧
      app_eventloop handlers (fuel + 1) event eventData w =
        (dispatch handlers event eventData w1).bind (fun w2 =>
          if w2.pGlobalData.appExit ≠ 0 then
            .ok (LoopResult.mk 0 [(event, eventData)] w2)
          else
            (app_eventloop handlers fuel event eventData w2).map
              (fun r => { r with handled := (event, eventData) :: r.handled })) := by
  have hs : ¬ w.pGlobalData.eventSemap = 0 := by omega
  have hacq : mt_semaphore_acquire w =
      .ok { w with pGlobalData.eventSemap := w.pGlobalData.eventSemap - 1 } := by
    simp [mt_semaphore_acquire, hs]
  have hpop : popEvent event eventData w =
      .ok (event, eventData, { w with pGlobalData.eventSemap := w.pGlobalData.eventSemap - 1 }) := by
    simp [popEvent, hacq, hhead, bind, Except.bind, pure, Except.pure]
  refine ⟨_, hacq, hpop, rfl, rfl, hhead, rfl, rfl, ?_⟩
  simp only [app_eventloop, hpop, bind, Except.bind, pure, Except.pure]
  cases dispatch handlers event eventData
    { w with pGlobalData.eventSemap := w.pGlobalData.eventSemap - 1 } with
  | error x => rfl
  | ok w2 =>
    simp only
    split
    · rfl
    · cases app_eventloop handlers fuel event eventData w2 <;> rfl

/-- C27 at the drained queue (head `NULL`, wait-count 1) with a stop event left in the local
variables: the loop handles that event. -/
theorem C27_pop_empty_frame_witness :
    drainedQueue.pGlobalData.eventListHead = none ∧ 1 ≤ drainedQueue.pGlobalData.eventSemap ∧
    ∃ w1, mt_semaphore_acquire drainedQueue = .ok w1 ∧
      popEvent .EVT_APP_STOP ⟨none, "bye".toList⟩ drainedQueue =
        .ok (.EVT_APP_STOP, ⟨none, "bye".toList⟩, w1) ∧
      w1.heap = drainedQueue.heap ∧ w1.trace = drainedQueue.trace ∧
      w1.pGlobalData.eventListHead = none ∧
      w1.pGlobalData.eventListTail = drainedQueue.pGlobalData.eventListTail ∧
      w1.pGlobalData.mqttSharedData = drainedQueue.pGlobalData.mqttSharedData ∧
      app_eventloop dispatcherHandlers (0 + 1) .EVT_APP_STOP ⟨none, "bye".toList⟩ drainedQueue =
        (dispatch dispatcherHandlers .EVT_APP_STOP ⟨none, "bye".toList⟩ w1).bind (fun w2 =>
          if w2.pGlobalData.appExit ≠ 0 then
            .ok (LoopResult.mk 0 [(.EVT_APP_STOP, ⟨none, "bye".toList⟩)] w2)
          else
            (app_eventloop dispatcherHandlers 0 .EVT_APP_STOP ⟨none, "bye".toList⟩ w2).map
              (fun r =>
                { r with handled := (.EVT_APP_STOP, ⟨none, "bye".toList⟩) :: r.handled })) :=
  ⟨by decide, by decide,
    C27_pop_empty_frame dispatcherHandlers 0 .EVT_APP_STOP ⟨none, "bye".toList⟩ drainedQueue
      (by decide) (by decide)⟩

/-! ## C24: event kinds and the cases of the switch -/

theorem unknownEvents_append (a b : List Effect) :
    unknownEvents (a ++ b) = unknownEvents a + unknownEvents b := by
  simp [unknownEvents]

theorem unknownEvents_nil : unknownEvents [] = 0 := rfl

theorem unknownEvents_cons (e : Effect) (tr : List Effect) :
    unknownEvents (e :: tr) =
      (if e = .dbg_error "Unknown event received" then 1 else 0) + unknownEvents tr := by
  by_cases h : e = .dbg_error "Unknown event received" <;> simp [unknownEvents, h]
  omega

theorem getMQTTsendAccess_loop_unknown (me : Tid) (others : Nat → Interference) :
    ∀ (i k : Nat) (w : World) (rc : Int) (w1 : World),
      getMQTTsendAccess_loop me others i k w = .ok (rc, w1) →
      unknownEvents w1.trace = unknownEvents w.trace
  | 0, k, w, rc, w1, h => by
    simp only [getMQTTsendAccess_loop, countMutexError] at h
    split at h
    · cases h
      simp [unknownEvents_append, unknownEvents_cons, unknownEvents_nil]
    · cases h
  | i + 1, k, w, rc, w1, h => by
    simp only [getMQTTsendAccess_loop, request_mutex_lock, release_mutex_lock] at h
    split at h
    · cases h
    · simp only [bind, Except.bind] at h
      split at h
      · cases h
        simp [World.locked, unknownEvents_append, unknownEvents_cons, unknownEvents_nil]
      · simp only [locked_pGlobalData, if_true] at h
        have := getMQTTsendAccess_loop_unknown me others i (k + 1) _ rc w1 h
        rw [this]
        simp [World.locked, World.unlocked, unknownEvents_append, unknownEvents_cons, unknownEvents_nil]

theorem sendMQTTtopic_unknown {me : Tid} {w v : World} {r : Int}
    (h : sendMQTTtopic me w = .ok (r, v)) : unknownEvents v.trace = unknownEvents w.trace := by
  simp only [sendMQTTtopic, release_mutex_lock, bind, Except.bind] at h
  split at h
  · cases h
  · rename_i w3 hr
    split at hr
    · cases hr
      cases h
      simp [World.unlocked, wakeMQTTsender, unknownEvents_append, unknownEvents_cons,
        unknownEvents_nil]
    · cases hr

theorem action_JustRespondSpeech_unknown {me : Tid} {others : Nat → Interference}
    {objectOk : Bool} {json : cJSON_compose} {pUtterance : CString} {w v : World} {r : Int}
    (h : action_JustRespondSpeech me others objectOk json pUtterance w = .ok (r, v)) :
    unknownEvents v.trace = unknownEvents w.trace := by
  unfold action_JustRespondSpeech at h
  split at h
  · cases h
    simp [unknownEvents_append, unknownEvents_cons, unknownEvents_nil]
  · split at h
    · cases h
      simp [unknownEvents_append, unknownEvents_cons, unknownEvents_nil]
    · cases hg : getMQTTsendAccess me others w with
      | error e => simp [hg, bind, Except.bind] at h
      | ok r1 =>
        obtain ⟨rc1, w2⟩ := r1
        have f1 := getMQTTsendAccess_loop_unknown me others 100 0 w rc1 w2 hg
        simp only [hg, bind, Except.bind] at h
        split at h
        · cases h
          simp [unknownEvents_append, unknownEvents_cons, unknownEvents_nil, f1]
        · split at h
          · cases h
          · split at h
            · cases h
            · split at h
              · cases h
              · rename_i r2 hs
                cases h
                rw [sendMQTTtopic_unknown (r := r2.1) hs]
                exact f1

/-- The statements that every sending function of `action.c` ends with do not write the
message of the `default` branch. -/
theorem send_unknown {me : Tid} {others : Nat → Interference} {w v : World} {r c : Int}
    {msg : String} {t p : CString} (hmsg : msg ≠ "Unknown event received")
    (h : (do
      let (rc, w1) ← getMQTTsendAccess me others w
      if rc < 0 then
        pure (c, w1.emit (.dbg_error msg))
      else
        let topic ← strcpy MQTT_SEND_TOPIC_SIZE t
        let w2 : World := { w1 with pGlobalData.mqttSharedData.pTopic := topic }
        let payload ← strcpy MQTT_SEND_PAYLOAD_SIZE p
        let w3 : World := { w2 with pGlobalData.mqttSharedData.pPayload := payload }
        let (_, w4) ← sendMQTTtopic me w3
        pure (0, w4) : Except Stuck (Int × World)) = .ok (r, v)) :
    unknownEvents v.trace = unknownEvents w.trace := by
  cases hg : getMQTTsendAccess me others w with
  | error e => simp [hg, bind, Except.bind] at h
  | ok r1 =>
    obtain ⟨rc1, w2⟩ := r1
    have f1 := getMQTTsendAccess_loop_unknown me others 100 0 w rc1 w2 hg
    simp only [hg, bind, Except.bind] at h
    split at h
    · cases h
      simp [unknownEvents_append, unknownEvents_cons, unknownEvents_nil, f1, hmsg]
    · split at h
      · cases h
      · split at h
        · cases h
        · split at h
          · cases h
          · rename_i r2 hs
            cases h
            rw [sendMQTTtopic_unknown (r := r2.1) hs]
            exact f1

theorem emit_error_unknown (w : World) {msg : String} (hmsg : msg ≠ "Unknown event received") :
    unknownEvents (w.emit (.dbg_error msg)).trace = unknownEvents w.trace := by
  simp [unknownEvents_append, unknownEvents_cons, unknownEvents_nil, hmsg]

theorem action_saveTacticalSituation_unknown {me : Tid} {others : Nat → Interference}
    {objectOk : Bool} {json : cJSON_compose} {i : Int} {a : Option cJSON} {w v : World}
    {r : Int}
    (h : action_saveTacticalSituation me others objectOk json i a w = .ok (r, v)) :
    unknownEvents v.trace = unknownEvents w.trace := by
  unfold action_saveTacticalSituation at h
  split at h
  · cases h
    exact emit_error_unknown _ (by decide)
  · split at h
    · cases h
      exact emit_error_unknown _ (by decide)
    · exact send_unknown (by decide) h

theorem action_playLowConfidence_unknown {me : Tid} {others : Nat → Interference}
    {objectOk : Bool} {json : cJSON_compose} {w v : World} {r : Int}
    (h : action_playLowConfidence me others objectOk json w = .ok (r, v)) :
    unknownEvents v.trace = unknownEvents w.trace := by
  unfold action_playLowConfidence at h
  split at h
  · cases h
    exact emit_error_unknown _ (by decide)
  · split at h
    · cases h
      exact emit_error_unknown _ (by decide)
    · exact send_unknown (by decide) h

theorem setGrammar_unknown {me : Tid} {others : Nat → Interference}
    {objectOk : Bool} {print : cJSON_PrintUnformatted} {g a : CString} {t : Int} {w v : World}
    {r : Int}
    (h : setGrammar me others objectOk print g t a w = .ok (r, v)) :
    unknownEvents v.trace = unknownEvents w.trace := by
  unfold setGrammar at h
  split at h
  · cases h
    exact emit_error_unknown _ (by decide)
  · split at h
    · cases h
      exact emit_error_unknown _ (by decide)
    · exact send_unknown (by decide) h

theorem handleEvt_onWakeword_unknown {me : Tid} {others : Nat → Interference}
    {json : cJSON_compose} {d : Option APPLICATION_EVENTDATA} {w v : World} {r : Int}
    (h : handleEvt_onWakeword me others json d w = .ok (r, v)) :
    unknownEvents v.trace = unknownEvents w.trace := by
  unfold handleEvt_onWakeword at h
  simp only at h
  split at h
  · cases h
    cases d
    · rw [emit_error_unknown _ (by decide), emit_error_unknown _ (by decide)]
    · exact emit_error_unknown _ (by decide)
  · have := send_unknown (by decide) h
    cases d
    · rw [this, emit_error_unknown _ (by decide)]
    · exact this

theorem handleEvt_onStartup_unknown {me : Tid} {others : Nat → Interference}
    {json : cJSON_compose} {d : Option APPLICATION_EVENTDATA} {w v : World} {r : Int}
    (h : handleEvt_onStartup me others json d w = .ok (r, v)) :
    unknownEvents v.trace = unknownEvents w.trace := by
  unfold handleEvt_onStartup at h
  simp only at h
  split at h
  · cases h
    cases d
    · rw [emit_error_unknown _ (by decide), emit_error_unknown _ (by decide)]
    · exact emit_error_unknown _ (by decide)
  · have := send_unknown (by decide) h
    cases d
    · rw [this, emit_error_unknown _ (by decide)]
    · exact this

theorem handleEvt_intentNotRecognized_unknown {me : Tid} {others : Nat → Interference}
    {objectOk : Bool} {json : cJSON_compose} {parse : cJSON_Parse}
    {d : Option APPLICATION_EVENTDATA} {w v : World} {r : Int}
    (h : handleEvt_intentNotRecognized me others objectOk json parse d w = .ok (r, v)) :
    unknownEvents v.trace = unknownEvents w.trace := by
  unfold handleEvt_intentNotRecognized at h
  repeat' split at h
  all_goals first
    | (cases h; rfl)
    | (cases h; exact emit_error_unknown _ (by decide))
    | cases h
    | skip
  simp only [bind, Except.bind, pure, Except.pure] at h
  split at h
  · cases h
  · rename_i r1 hr
    cases h
    exact action_playLowConfidence_unknown (r := r1.1) hr

theorem handleEvt_intentRecognized_unknown {me : Tid} {others : Nat → Interference}
    {objectOk : Bool} {json : cJSON_compose} {parse : cJSON_Parse} {st s : IntentStatics}
    {d : Option APPLICATION_EVENTDATA} {w v : World} {r : Int}
    (h : handleEvt_intentRecognized me others objectOk json parse st d w = .ok (r, s, v)) :
    unknownEvents v.trace = unknownEvents w.trace := by
  unfold handleEvt_intentRecognized at h
  repeat' split at h
  all_goals first
    | (cases h; rfl)
    | (cases h; exact emit_error_unknown _ (by decide))
    | cases h
    | skip
  all_goals
    simp only [bind, Except.bind, pure, Except.pure] at h
    split at h
    · cases h
    · rename_i r1 hr
      cases h
      first
        | exact action_saveTacticalSituation_unknown (r := r1.1) hr
        | exact action_JustRespondSpeech_unknown (r := r1.1) hr

theorem handleEvt_MQTTuserIdentified_unknown {me : Tid} {others : Nat → Interference}
    {objectOk : Bool} {json : cJSON_compose} {parse : cJSON_Parse} {t p q : Int}
    {d : Option APPLICATION_EVENTDATA} {w v : World} {r : Int}
    (h : handleEvt_MQTTuserIdentified me others objectOk json parse t p d w = .ok (r, q, v)) :
    unknownEvents v.trace = unknownEvents w.trace := by
  unfold handleEvt_MQTTuserIdentified at h
  repeat' split at h
  all_goals first
    | (cases h; rfl)
    | (cases h; exact emit_error_unknown _ (by decide))
    | cases h
    | skip
  · simp only [bind, Except.bind, pure, Except.pure] at h
    split at h
    · cases h
    · cases h
      exact emit_error_unknown _ (by decide)
  · simp only [bind, Except.bind, pure, Except.pure] at h
    split at h
    · cases h
    · split at h
      · cases h
        exact emit_error_unknown _ (by decide)
      · cases hg : getMQTTsendAccess me others w with
        | error e => simp [hg] at h
        | ok r1 =>
          obtain ⟨rc1, w2⟩ := r1
          have f1 := getMQTTsendAccess_loop_unknown me others 100 0 w rc1 w2 hg
          simp only [hg] at h
          split at h
          · cases h
            rw [emit_error_unknown _ (by decide)]
            exact f1
          · split at h
            · cases h
            · split at h
              · cases h
              · split at h
                · cases h
                · rename_i r2 hs
                  cases h
                  rw [sendMQTTtopic_unknown (r := r2.1) hs]
                  exact f1

/-- The functions of `action.c` called from the loop never write the message of the
`default` branch. -/
theorem actionHandlers_keepUnknown (me : Tid) (others : Nat → Interference) (objectOk : Bool)
    (json : cJSON_compose) (print : cJSON_PrintUnformatted) (parse : cJSON_Parse)
    (clock : World → Int) :
    (actionHandlers me others objectOk json print parse clock).KeepUnknown := by
  intro c w r h
  obtain ⟨r1, v⟩ := r
  cases c <;> simp only [actionHandlers] at h
  case handleEvt_onWakeword d => exact handleEvt_onWakeword_unknown h
  case handleEvt_intentRecognized d =>
    simp only [bind, Except.bind, pure, Except.pure] at h
    split at h
    · cases h
    · rename_i r2 hr
      cases h
      exact handleEvt_intentRecognized_unknown (r := r2.1) (s := r2.2.1) (v := r2.2.2) hr
  case handleEvt_intentNotRecognized d => exact handleEvt_intentNotRecognized_unknown h
  case handleEvt_MQTTuserIdentified d =>
    simp only [bind, Except.bind, pure, Except.pure] at h
    split at h
    · cases h
    · rename_i r2 hr
      cases h
      exact handleEvt_MQTTuserIdentified_unknown (r := r2.1) (q := r2.2.1) (v := r2.2.2) hr
  case handleEvt_onStartup d => exact handleEvt_onStartup_unknown h
  case setGrammar g t a => exact setGrammar_unknown h

/-- The `switch` reports an unknown event exactly for the kinds without a `case`. -/
theorem dispatch_unknown {handlers : Handlers} (hu : handlers.KeepUnknown)
    {event : APPLICATION_EVENT} {eventData : APPLICATION_EVENTDATA} {w v : World}
    (h : dispatch handlers event eventData w = .ok v) :
    unknownEvents v.trace = unknownEvents w.trace + if noCase event then 1 else 0 := by
  cases event <;> simp only [dispatch, noCase] at h ⊢
  case EVT_KEYPRESS =>
    cases hc : handlers (.handleEvt_onWakeword eventData) w with
    | error e => simp [hc, bind, Except.bind] at h
    | ok r =>
      obtain ⟨r1, v1⟩ := r
      have h1 := hu _ _ _ hc
      simp only at h1
      simp only [hc, bind, Except.bind] at h
      split at h
      · obtain ⟨r2, h2⟩ := handler_call_ok h
        rw [hu _ _ _ h2, h1]
        simp
      · split at h
        · obtain ⟨r2, h2⟩ := handler_call_ok h
          rw [hu _ _ _ h2, h1]
          simp
        · cases h
          rw [h1]
          simp
  case EVT_APP_STOP =>
    cases h
    simp
  case EVT_MQTT_PING =>
    cases h
    simp [unknownEvents_append, unknownEvents_cons, unknownEvents_nil]
  case EVT_MQTT_PONG =>
    cases h
    simp [unknownEvents_append, unknownEvents_cons, unknownEvents_nil]
  all_goals
    obtain ⟨r, hr⟩ := handler_call_ok h
    rw [hu _ _ _ hr]
    simp

/-- The run `handleEvents` on events at the head of a well-formed queue: the `default`
branch is taken once for every event without a `case`. -/
theorem handleEvents_unknown {handlers : Handlers} (hk : handlers.KeepQueue)
    (hu : handlers.KeepUnknown) :
    ∀ (es post : List Event) (w v : World) (as : List Nat), QueueHolds w as (es ++ post) →
      handleEvents handlers es w = .ok v →
      unknownEvents v.trace =
        unknownEvents w.trace + (es.filter (fun e => noCase e.1)).length
  | [], _, w, v, _, _, h => by
    cases h
    simp
  | e :: es, post, w, v, [], hq, _ => by
    have := chain_length hq.1
    simp at this
  | e :: es, post, w, v, a :: as, hq, h => by
    obtain ⟨w1, hpop, hq1, _, _, _, _, htr⟩ := popEvent_holds (a := a) (w := w) e.1 e.2 hq
    simp only [handleEvents, hpop, bind, Except.bind] at h
    cases hd : dispatch handlers e.1 e.2 w1 with
    | error x => simp [hd] at h
    | ok w2 =>
      simp only [hd] at h
      obtain ⟨d1, d2, d3, d4, _⟩ := dispatch_keep hk hd
      have hrec := handleEvents_unknown hk hu es post w2 v as
        (queueHolds_congr d1 d2 d3 d4 hq1) h
      rw [hrec, dispatch_unknown hu hd, htr, List.filter_cons]
      by_cases hc : noCase e.1 = true
      · simp [hc]
        omega
      · simp [hc]

/-- C24 as stated fails: for a ping event the `switch` of `app_eventloop` calls no handler
and takes the `default` branch, which reports an unknown event; on the queue that holds a
ping, a pong and the stop event the loop takes that branch twice. -/
theorem C24_ping_unknown :
    dispatch dispatcherHandlers .EVT_MQTT_PING ⟨none, []⟩ (main_init [] []) =
      .ok ((main_init [] []).emit (.dbg_error "Unknown event received")) ∧
    (app_eventloop dispatcherHandlers 3 .EVT_STARTUP ⟨none, []⟩ pingPongQueue).map
        (fun r => (r.handled, unknownEvents r.world.trace)) =
      .ok ([(.EVT_MQTT_PING, ⟨none, []⟩), (.EVT_MQTT_PONG, ⟨none, []⟩),
        (.EVT_APP_STOP, ⟨none, []⟩)], 2) := by
  constructor
  · rfl
  · decide

/-- C24, amended. The `switch` of `app_eventloop` has a `case` of its own for seven of the
nine event kinds. Wakeword, intent recognised, intent not recognised, biometric
identification and start-up each make one call, of the handler of that kind, with the event
data. Key press calls `handleEvt_onWakeword` with the event data and then, when the first
character of the payload is a space, `setGrammar("MAIN_9LV", 4000, "resumeToIdle")`, when it
is `w` or `W`, `setGrammar("MAIN_9LV", 4000, "goToAutomaticMode")`, and nothing more
otherwise. Stop calls nothing and sets `appExit`. For `EVT_MQTT_PING` and `EVT_MQTT_PONG`
there is no `case`: the `default` branch reports an unknown event and nothing else happens.
In a run of the loop on a well-formed queue (the calls made for the events return) the
`default` branch is taken exactly once for every ping or pong event handled. -/
theorem C24_switch_cases (handlers : Handlers) (hk : handlers.KeepQueue)
    (hu : handlers.KeepUnknown) (w u : World) (as : List Nat) (pre post : List Event)
    (stopData : APPLICATION_EVENTDATA) (fuel : Nat) (applicationEvent : APPLICATION_EVENT)
    (eventData : APPLICATION_EVENTDATA) (hpre : ∀ e ∈ pre, e.1 ≠ .EVT_APP_STOP)
    (hq : QueueHolds w as (pre ++ (.EVT_APP_STOP, stopData) :: post))
    (hexit : w.pGlobalData.appExit = 0) (hfuel : pre.length + 1 ≤ fuel)
    (hrun : handleEvents handlers (pre ++ [(.EVT_APP_STOP, stopData)]) w = .ok u) :
    (∀ d v,
      dispatch handlers .EVT_MQTT_WAKEWORD d v =
        (handlers (.handleEvt_onWakeword d) v).map (fun r => r.2) ∧
      dispatch handlers .EVT_MQTT_INTENT_RECOGNIZED d v =
        (handlers (.handleEvt_intentRecognized d) v).map (fun r => r.2) ∧
      dispatch handlers .EVT_MQTT_INTENT_NOT_RECOGNIZED d v =
        (handlers (.handleEvt_intentNotRecognized d) v).map (fun r => r.2) ∧
      dispatch handlers .EVT_MQTT_BIOM_IDENTIFICATION d v =
        (handlers (.handleEvt_MQTTuserIdentified d) v).map (fun r => r.2) ∧
      dispatch handlers .EVT_STARTUP d v =
        (handlers (.handleEvt_onStartup d) v).map (fun r => r.2) ∧
      dispatch handlers .EVT_APP_STOP d v = .ok { v with pGlobalData.appExit := 1 } ∧
      dispatch handlers .EVT_KEYPRESS d v =
        (handlers (.handleEvt_onWakeword d) v).bind (fun r =>
          if ' ' = firstChar d.topicPayload then
            (handlers (.setGrammar "MAIN_9LV" 4000 "resumeToIdle") r.2).map (fun r1 => r1.2)
          else if 'w' = firstChar d.topicPayload ∨ 'W' = firstChar d.topicPayload then
            (handlers (.setGrammar "MAIN_9LV" 4000 "goToAutomaticMode") r.2).map
              (fun r1 => r1.2)
          else .ok r.2) ∧
      dispatch handlers .EVT_MQTT_PING d v =
        .ok (v.emit (.dbg_error "Unknown event received")) ∧
      dispatch handlers .EVT_MQTT_PONG d v =
        .ok (v.emit (.dbg_error "Unknown event received"))) ∧
    (∀ event d v v1, dispatch handlers event d v = .ok v1 →
      unknownEvents v1.trace = unknownEvents v.trace + if noCase event then 1 else 0) ∧
    ∃ r, app_eventloop handlers fuel applicationEvent eventData w = .ok r ∧
      r.handled = pre ++ [(.EVT_APP_STOP, stopData)] ∧ r.world = u ∧
      unknownEvents r.world.trace =
        unknownEvents w.trace + (pre.filter (fun e => noCase e.1)).length := by
  refine ⟨fun d v => ⟨?_, ?_, ?_, ?_, ?_, rfl, ?_, rfl, rfl⟩,
    fun event d v v1 h => dispatch_unknown hu h, ?_⟩
  · simp only [dispatch, bind, Except.bind, Except.map]
    cases handlers (.handleEvt_onWakeword d) v <;> rfl
  · simp only [dispatch, bind, Except.bind, Except.map]
    cases handlers (.handleEvt_intentRecognized d) v <;> rfl
  · simp only [dispatch, bind, Except.bind, Except.map]
    cases handlers (.handleEvt_intentNotRecognized d) v <;> rfl
  · simp only [dispatch, bind, Except.bind, Except.map]
    cases handlers (.handleEvt_MQTTuserIdentified d) v <;> rfl
  · simp only [dispatch, bind, Except.bind, Except.map]
    cases handlers (.handleEvt_onStartup d) v <;> rfl
  · simp only [dispatch, bind, Except.bind, Except.map]
    cases handlers (.handleEvt_onWakeword d) v with
    | error e => rfl
    | ok r =>
      simp only
      split
      · cases handlers (.setGrammar "MAIN_9LV" 4000 "resumeToIdle") r.2 <;> rfl
      · split
        · cases handlers (.setGrammar "MAIN_9LV" 4000 "goToAutomaticMode") r.2 <;> rfl
        · rfl
  · obtain ⟨r, hr, _, hhandled, hworld, _⟩ :=
      app_eventloop_holds hk stopData post pre w u as fuel applicationEvent eventData hpre hq
        hexit hfuel hrun
    refine ⟨r, hr, hhandled, hworld, ?_⟩
    have hq1 : QueueHolds w as ((pre ++ [(.EVT_APP_STOP, stopData)]) ++ post) := by
      simpa using hq
    rw [hworld, handleEvents_unknown hk hu _ post w u as hq1 hrun]
    simp [List.filter_append, noCase]

theorem keypressQueue_holds : QueueHolds keypressQueue [0, 1, 2]
    ([(.EVT_KEYPRESS, ⟨none, "w".toList⟩), (.EVT_MQTT_PING, ⟨none, []⟩)] ++
      (.EVT_APP_STOP, ⟨none, []⟩) :: []) := by
  refine ⟨?_, by decide, rfl, rfl, by decide⟩
  refine ⟨rfl, _, rfl, rfl, _, rfl, rfl, _, rfl, rfl⟩

/-- C24 (amended) at the queue that holds a key press of `w`, a ping and the stop event,
with the functions of `action.c` as handlers: the key press ends with the request for the
grammar that `setGrammar` sends, and the ping is reported once. -/
theorem C24_switch_cases_witness :
    dispatcherHandlers.KeepQueue ∧ dispatcherHandlers.KeepUnknown ∧
    keypressQueue.pGlobalData.appExit = 0 ∧
    ∃ u, handleEvents dispatcherHandlers
        ([(.EVT_KEYPRESS, ⟨none, "w".toList⟩), (.EVT_MQTT_PING, ⟨none, []⟩)] ++
          [(.EVT_APP_STOP, ⟨none, []⟩)]) keypressQueue = .ok u ∧
      u.pGlobalData.mqttSharedData.pTopic = "creoir/asr/setContext".toList ∧
      ∃ r, app_eventloop dispatcherHandlers 3 .EVT_STARTUP ⟨none, []⟩ keypressQueue = .ok r ∧
        r.handled = [(.EVT_KEYPRESS, ⟨none, "w".toList⟩), (.EVT_MQTT_PING, ⟨none, []⟩)] ++
          [(.EVT_APP_STOP, ⟨none, []⟩)] ∧ r.world = u ∧
        unknownEvents r.world.trace = unknownEvents keypressQueue.trace +
          (([(.EVT_KEYPRESS, ⟨none, "w".toList⟩), (.EVT_MQTT_PING, ⟨none, []⟩)] :
            List Event).filter (fun e => noCase e.1)).length :=
  ⟨actionHandlers_keepQueue _ _ _ _ _ _ _, actionHandlers_keepUnknown _ _ _ _ _ _ _, rfl,
    _, rfl, rfl,
    (C24_switch_cases dispatcherHandlers (actionHandlers_keepQueue _ _ _ _ _ _ _)
      (actionHandlers_keepUnknown _ _ _ _ _ _ _) keypressQueue _ [0, 1, 2]
      [(.EVT_KEYPRESS, ⟨none, "w".toList⟩), (.EVT_MQTT_PING, ⟨none, []⟩)] []
      ⟨none, []⟩ 3 .EVT_STARTUP ⟨none, []⟩ (by decide) keypressQueue_holds rfl
      (by decide) rfl).2.2⟩

/-! ## C25: getArg -/

theorem strchr_none : ∀ (s : CString) (c : Char), c ∉ s → strchr s c = none
  | [], _, _ => rfl
  | x :: s, c, h => by
    have hx : ¬ x = c := fun e => h (e ▸ List.mem_cons_self _ _)
    have := strchr_none s c (fun e => h (List.mem_cons_of_mem _ e))
    simp [strchr, hx, this]

/-- When `s` contains `c`, `strchr` finds the first one: `s` is a text `l` without `c`, then
`c`, then a text `r`, and the index returned is the length of `l`. -/
theorem strchr_some : ∀ (s : CString) (c : Char), c ∈ s →
    ∃ l r, s = l ++ c :: r ∧ c ∉ l ∧ strchr s c = some l.length
  | [], _, h => by simp at h
  | x :: s, c, h => by
    by_cases hx : x = c
    · subst hx
      exact ⟨[], s, rfl, by simp, by simp [strchr]⟩
    · have hs : c ∈ s := by
        rcases List.mem_cons.1 h with e | e
        · exact absurd e.symm hx
        · exact e
      obtain ⟨l, r, rfl, hl, hi⟩ := strchr_some s c hs
      refine ⟨x :: l, r, rfl, ?_, ?_⟩
      · intro e
        rcases List.mem_cons.1 e with e | e
        · exact hx e.symm
        · exact hl e
      · simp [strchr, hx, hi]

theorem takeWhile_append_stop (l r : List Char) (c : Char) (p : Char → Bool)
    (hl : ∀ x ∈ l, p x = true) (hc : p c = false) : (l ++ c :: r).takeWhile p = l := by
  induction l with
  | nil => simp [List.takeWhile, hc]
  | cons x l ih =>
    have hx := hl x (List.mem_cons_self _ _)
    simp [List.takeWhile, hx, ih (fun y hy => hl y (List.mem_cons_of_mem _ hy))]

theorem takeWhile_all (l : List Char) (p : Char → Bool) (hl : ∀ x ∈ l, p x = true) :
    l.takeWhile p = l := by
  induction l with
  | nil => rfl
  | cons x l ih =>
    have hx := hl x (List.mem_cons_self _ _)
    simp [List.takeWhile, hx, ih (fun y hy => hl y (List.mem_cons_of_mem _ hy))]

/-- C25. For every argument string `a` (a C string) that contains `=`, `getArg` returns 0;
`prop` then points to the text of `a` before the first `=` and `value` to the text after
it, so the text at `prop` contains no `=` and the two texts with `=` between them are `a`.
When `a` contains no `=` it returns 2, when the argument is `NULL` it returns 1, and in both
cases the array and the two output parameters are as before. -/
theorem C25_getArg (a : CString) (prop value : Option Nat) (ha : NUL ∉ a) :
    ('=' ∈ a → ∃ buf ip iv, getArg (some a) prop value = ⟨0, some buf, some ip, some iv⟩ ∧
      cstringAt buf ip = a.takeWhile (fun c => c ≠ '=') ∧
      cstringAt buf iv = (a.dropWhile (fun c => c ≠ '=')).tail ∧
      '=' ∉ cstringAt buf ip ∧
      cstringAt buf ip ++ "=".toList ++ cstringAt buf iv = a) ∧
    ('=' ∉ a → getArg (some a) prop value = ⟨2, some a, prop, value⟩) ∧
    getArg none prop value = ⟨1, none, prop, value⟩ := by
  refine ⟨?_, ?_, rfl⟩
  · intro h
    obtain ⟨l, r, rfl, hl, hi⟩ := strchr_some a '=' h
    have hln : ∀ x ∈ l, (decide (x ≠ NUL)) = true := fun x hx => by
      have : x ≠ NUL := fun e => ha (e ▸ List.mem_append_left _ hx)
      simpa using this
    have hrn : ∀ x ∈ r, (decide (x ≠ NUL)) = true := fun x hx => by
      have : x ≠ NUL := fun e =>
        ha (e ▸ List.mem_append_right _ (List.mem_cons_of_mem _ hx))
      simpa using this
    have hle : ∀ x ∈ l, (decide (x ≠ '=')) = true := fun x hx => by
      have : x ≠ '=' := fun e => hl (e ▸ hx)
      simpa using this
    have hset : (l ++ '=' :: r).set l.length NUL = l ++ NUL :: r := by
      simp [List.set_append_right]
    have hp : cstringAt (l ++ NUL :: r) 0 = l := by
      unfold cstringAt
      rw [List.drop_zero]
      exact takeWhile_append_stop l r NUL _ hln (by simp)
    have hv : cstringAt (l ++ NUL :: r) (l.length + 1) = r := by
      unfold cstringAt
      have : (l ++ NUL :: r).drop (l.length + 1) = r := by
        rw [List.drop_append_eq_append_drop]
        simp
      rw [this]
      exact takeWhile_all r _ hrn
    have ht : (l ++ '=' :: r).takeWhile (fun c => decide (c ≠ '=')) = l :=
      takeWhile_append_stop l r '=' _ hle (by simp)
    have hd : (l ++ '=' :: r).dropWhile (fun c => decide (c ≠ '=')) = '=' :: r := by
      rw [List.dropWhile_append_of_pos hle]
      simp [List.dropWhile]
    refine ⟨l ++ NUL :: r, 0, l.length + 1, ?_, ?_, ?_, ?_, ?_⟩
    · simp only [getArg, hi, hset]
    · rw [hp, ht]
    · rw [hv, hd]
      rfl
    · rw [hp]
      exact hl
    · rw [hp, hv]
      simp
  · intro h
    simp [getArg, strchr_none a '=' h]

/-- C25 at the argument `--mqttHost=10.0.0.1`. -/
theorem C25_getArg_witness :
    NUL ∉ "--mqttHost=10.0.0.1".toList ∧ '=' ∈ "--mqttHost=10.0.0.1".toList ∧
    ∃ buf ip iv, getArg (some "--mqttHost=10.0.0.1".toList) none none =
        ⟨0, some buf, some ip, some iv⟩ ∧
      cstringAt buf ip = "--mqttHost=10.0.0.1".toList.takeWhile (fun c => c ≠ '=') ∧
      cstringAt buf iv = ("--mqttHost=10.0.0.1".toList.dropWhile (fun c => c ≠ '=')).tail ∧
      '=' ∉ cstringAt buf ip ∧
      cstringAt buf ip ++ "=".toList ++ cstringAt buf iv = "--mqttHost=10.0.0.1".toList :=
  ⟨by decide, by decide,
    (C25_getArg "--mqttHost=10.0.0.1".toList none none (by decide)).1 (by decide)⟩

/-! ## C23: a send that does not get the slot -/

/-- When `getMQTTsendAccess` returns a negative value, all `i` attempts have found the slot
in use: the mailbox is as the other threads left it, nothing was signalled or published, the
caller does not own the mutex and `mutexError` has been increased by one. -/
theorem getMQTTsendAccess_loop_neg (me : Tid) (others : Nat → Interference) :
    ∀ (i k : Nat) (w : World) (rc : Int) (w1 : World),
      w.pGlobalData.mqttSendMutex ≠ some me →
      getMQTTsendAccess_loop me others i k w = .ok (rc, w1) → rc < 0 →
      rc = -1 ∧ w1.pGlobalData.mqttSharedData = seen others k i w.pGlobalData.mqttSharedData ∧
        w1.pGlobalData.mutexError = w.pGlobalData.mutexError + 1 ∧
        w1.pGlobalData.mqttSendMutex ≠ some me ∧
        signals w1.trace = signals w.trace ∧ publishes w1.trace = publishes w.trace
  | 0, k, w, rc, w1, hme, h, _ => by
    simp only [getMQTTsendAccess_loop, countMutexError] at h
    split at h
    · simp only [bind, Except.bind, pure, Except.pure, Except.ok.injEq, Prod.mk.injEq] at h
      obtain ⟨h1, h2⟩ := h
      subst h1 h2
      refine ⟨rfl, rfl, rfl, hme, ?_, ?_⟩
      · simp [signals_append, signals]
      · simp [publishes_append, publishes]
    · cases h
  | i + 1, k, w, rc, w1, hme, h, hneg => by
    have hl : request_mutex_lock me (w.interfere (others k)) =
        .ok ((w.interfere (others k)).locked me) := by
      simp [request_mutex_lock, hme]
    have hr : release_mutex_lock me ((w.interfere (others k)).locked me) =
        .ok (((w.interfere (others k)).locked me).unlocked me) := by
      simp [release_mutex_lock]
    simp only [getMQTTsendAccess_loop, hl, hr, bind, Except.bind, pure, Except.pure] at h
    split at h
    · simp only [Except.ok.injEq, Prod.mk.injEq] at h
      omega
    · obtain ⟨h1, h2, h3, h4, h5, h6⟩ := getMQTTsendAccess_loop_neg me others i (k + 1) _ rc w1
        (by simp) h hneg
      refine ⟨h1, ?_, ?_, h4, ?_, ?_⟩
      · simpa [seen] using h2
      · simpa using h3
      · rw [h5]
        simp [signals_append, signals]
      · rw [h6]
        simp [publishes_append, publishes]

theorem accessDenied_eq :
    getMQTTsendAccess (.producer 0) (fun _ m => m) senderBlocked = .ok (-1, accessDenied) := by
  obtain ⟨w1, h, _⟩ := getMQTTsendAccess_loop_fail (.producer 0) (fun _ m => m) 100 0
    senderBlocked (by decide) (by decide) (fun j _ _ => by rw [seen_id]; decide)
  have h1 : getMQTTsendAccess (.producer 0) (fun _ m => m) senderBlocked = .ok (-1, w1) := h
  have h2 : accessDenied = w1 := by
    unfold accessDenied
    rw [h1]
  rw [h2]
  exact h1

/-- C23. A send that does not get the slot is abandoned: whenever `getMQTTsendAccess`
returns a negative value inside `action_JustRespondSpeech`, `action_saveTacticalSituation`,
`action_playLowConfidence` or `setGrammar` (the payload text has been made), the function
reports the failure and returns -100; on return the mailbox is as the other threads left it
(unchanged when they do not touch it), the sender has not been signalled, nothing has been
published, the event queue is as before (nothing is queued for a retry), the caller does not
own the mutex and `mutexError` has been increased by one. -/
theorem C23_failed_send (me : Tid) (others : Nat → Interference) (json : cJSON_compose)
    (print : cJSON_PrintUnformatted) (pUtterance pGrammarName pActionAfterResult : CString)
    (iTimeout iConfidence : Int) (jsonSlotArray : Option cJSON) (w : World) (rc : Int)
    (w1 : World) (hjson : ∀ fields, json fields ≠ none)
    (hprint : ∀ members, print members ≠ none)
    (hme : w.pGlobalData.mqttSendMutex ≠ some me)
    (hacc : getMQTTsendAccess me others w = .ok (rc, w1)) (hneg : rc < 0) :
    action_JustRespondSpeech me others true json pUtterance w = .ok (-100, w1.emit (.dbg_error
      "Did not get mutex lock for action_JustRespondSpeech(). Aborting MQTT publish.")) ∧
    action_saveTacticalSituation me others true json iConfidence jsonSlotArray w =
      .ok (-100, w1.emit (.dbg_error
        "Did not get mutex lock for action_saveTacticalSituation(). Aborting MQTT publish.")) ∧
    action_playLowConfidence me others true json w = .ok (-100, w1.emit (.dbg_error
      "Did not get mutex lock for action_playLowConfidence(). Aborting MQTT publish.")) ∧
    setGrammar me others true print pGrammarName iTimeout pActionAfterResult w =
      .ok (-100, w1.emit (.dbg_error
        "Did not get mutex lock for setGrammar(). Aborting MQTT publish.")) ∧
    ∀ msg,
      (w1.emit (.dbg_error msg)).pGlobalData.mqttSharedData =
        seen others 0 100 w.pGlobalData.mqttSharedData ∧
      ((∀ k m, others k m = m) →
        (w1.emit (.dbg_error msg)).pGlobalData.mqttSharedData = w.pGlobalData.mqttSharedData) ∧
      signals (w1.emit (.dbg_error msg)).trace = signals w.trace ∧
      publishes (w1.emit (.dbg_error msg)).trace = publishes w.trace ∧
      QueueFrame w (w1.emit (.dbg_error msg)) ∧
      (w1.emit (.dbg_error msg)).pGlobalData.mutexError = w.pGlobalData.mutexError + 1 ∧
      (w1.emit (.dbg_error msg)).pGlobalData.mqttSendMutex ≠ some me := by
  obtain ⟨_, hm, herr, hmu, hsig, hpub⟩ :=
    getMQTTsendAccess_loop_neg me others 100 0 w rc w1 hme hacc hneg
  have hframe := getMQTTsendAccess_loop_frame me others 100 0 w rc w1 hacc
  refine ⟨?_, ?_, ?_, ?_, ?_⟩
  · cases hj : json [("utterance".toList, pUtterance)] with
    | none => exact absurd hj (hjson _)
    | some p =>
      unfold action_JustRespondSpeech
      rw [hj]
      simp [hacc, hneg, bind, Except.bind, pure, Except.pure]
  · cases hj : json [("utterance".toList, "Tactical situation dump saved.".toList)] with
    | none => exact absurd hj (hjson _)
    | some p =>
      unfold action_saveTacticalSituation
      rw [hj]
      simp [hacc, hneg, bind, Except.bind, pure, Except.pure]
  · cases hj : json [("file".toList, "/usr/share/creoir/low_confidence.wav".toList)] with
    | none => exact absurd hj (hjson _)
    | some p =>
      unfold action_playLowConfidence
      rw [hj]
      simp [hacc, hneg, bind, Except.bind, pure, Except.pure]
  · cases hj : print [("contextNames".toList, .stringArray [pGrammarName]),
        ("timeOut".toList, .number iTimeout),
        ("actionAfterResult".toList, .string pActionAfterResult)] with
    | none => exact absurd hj (hprint _)
    | some p =>
      unfold setGrammar
      rw [hj]
      simp [hacc, hneg, bind, Except.bind, pure, Except.pure]
  · intro msg
    refine ⟨hm, ?_, ?_, ?_, hframe, herr, hmu⟩
    · intro hid
      have : others = fun _ x => x := by
        funext k m
        exact hid k m
      subst this
      simpa [seen_id] using hm
    · rw [emit_trace, signals_append, hsig]
      simp [signals]
    · rw [emit_trace, publishes_append, hpub]
      simp [publishes]

/-- C23 at the blocked mailbox `senderBlocked` with a quiet environment. -/
theorem C23_failed_send_witness :
    (∀ fields, cJSON_plain fields ≠ none) ∧ (∀ members, cJSON_printPlain members ≠ none) ∧
    senderBlocked.pGlobalData.mqttSendMutex ≠ some (.producer 0) ∧
    getMQTTsendAccess (.producer 0) (fun _ m => m) senderBlocked = .ok (-1, accessDenied) ∧
    ((-1 : Int) < 0) ∧
    action_JustRespondSpeech (.producer 0) (fun _ m => m) true cJSON_plain
        "Routes are now visible.".toList senderBlocked =
      .ok (-100, accessDenied.emit (.dbg_error
        "Did not get mutex lock for action_JustRespondSpeech(). Aborting MQTT publish.")) ∧
    setGrammar (.producer 0) (fun _ m => m) true cJSON_printPlain "MAIN_9LV".toList 4000
        "resumeToIdle".toList senderBlocked =
      .ok (-100, accessDenied.emit (.dbg_error
        "Did not get mutex lock for setGrammar(). Aborting MQTT publish.")) ∧
    (accessDenied.emit (.dbg_error "")).pGlobalData.mqttSharedData =
      senderBlocked.pGlobalData.mqttSharedData :=
  have h := C23_failed_send (.producer 0) (fun _ m => m) cJSON_plain cJSON_printPlain
    "Routes are now visible.".toList "MAIN_9LV".toList "resumeToIdle".toList 4000 9000 none
    senderBlocked (-1) accessDenied (fun _ => by simp [cJSON_plain])
    (fun _ => by simp [cJSON_printPlain]) (by decide) accessDenied_eq (by decide)
  ⟨fun _ => by simp [cJSON_plain], fun _ => by simp [cJSON_printPlain], by decide,
    accessDenied_eq, by decide, h.1, h.2.2.2.1, ((h.2.2.2.2 "").2.1 (fun _ _ => rfl))⟩

/-! ## C21: the failure sites of the two intent handlers -/

/-- C21 as stated fails: in `handleEvt_intentRecognized` the site for a missing intent and
the site for a missing confidence return the same code -100, and so do the sites for a
missing reason code and a missing reason text in `handleEvt_intentNotRecognized`. -/
theorem C21_shared_code :
    (handleEvt_intentRecognized (.producer 0) (fun _ m => m) true cJSON_plain cJSON_sample
      IntentStatics.init (some ⟨none, "\x7b\"confidence\":9000\x7d".toList⟩)
      (main_init [] [])).map (fun r => r.1) = .ok (-100) ∧
    (handleEvt_intentRecognized (.producer 0) (fun _ m => m) true cJSON_plain cJSON_sample
      IntentStatics.init (some ⟨none, "\x7b\"intent\":\"DISPLAY_ROUTES\"\x7d".toList⟩)
      (main_init [] [])).map (fun r => r.1) = .ok (-100) ∧
    (handleEvt_intentNotRecognized (.producer 0) (fun _ m => m) true cJSON_plain cJSON_sample
      (some ⟨none, "\x7b\"reasonText\":\"noise\"\x7d".toList⟩)
      (main_init [] [])).map (fun r => r.1) = .ok (-100) ∧
    (handleEvt_intentNotRecognized (.producer 0) (fun _ m => m) true cJSON_plain cJSON_sample
      (some ⟨none, "\x7b\"reasonCode\":2\x7d".toList⟩)
      (main_init [] [])).map (fun r => r.1) = .ok (-100) := by
  decide

/-- C21, amended. In `handleEvt_intentRecognized` and in `handleEvt_intentNotRecognized`
every failure site for malformed input reports the error and returns early with a negative
code: -1 for `NULL` event data, -2 for a payload that cannot be parsed, and -100 for a
missing required member, the first as well as the second. The codes -1, -2 and -100 differ
from each other. At none of these sites is the mailbox written: the global data is
unchanged and nothing is signalled. -/
theorem C21_error_sites (me : Tid) (others : Nat → Interference) (objectOk : Bool)
    (json : cJSON_compose) (parse : cJSON_Parse) (st : IntentStatics)
    (d : APPLICATION_EVENTDATA) (w : World) :
    (handleEvt_intentRecognized me others objectOk json parse st none w =
      .ok (-1, st, w.emit
        (.dbg_error "handleEvt_intentRecognized() No payload. Nothing to parse!")) ∧
     (parse d.topicPayload = none →
      handleEvt_intentRecognized me others objectOk json parse st (some d) w =
        .ok (-2, st, w.emit
          (.dbg_error "handleEvt_intentRecognized() Cannot parse topic payload"))) ∧
     (∀ jsonAll, parse d.topicPayload = some jsonAll → jsonAll "intent".toList = none →
      handleEvt_intentRecognized me others objectOk json parse st (some d) w =
        .ok (-100, st, w.emit (.dbg_error "No intent in recognition result"))) ∧
     (∀ jsonAll jsonIntent, parse d.topicPayload = some jsonAll →
      jsonAll "intent".toList = some jsonIntent → jsonAll "confidence".toList = none →
      handleEvt_intentRecognized me others objectOk json parse st (some d) w =
        .ok (-100, st, w.emit (.dbg_error "No confidence in recognition result")))) ∧
    (handleEvt_intentNotRecognized me others objectOk json parse none w =
      .ok (-1, w.emit
        (.dbg_error "handleEvt_intentNotRecognized() No payload. Nothing to parse!")) ∧
     (parse d.topicPayload = none →
      handleEvt_intentNotRecognized me others objectOk json parse (some d) w =
        .ok (-2, w.emit
          (.dbg_error "handleEvt_intentNotRecognized() Cannot parse topic payload"))) ∧
     (∀ jsonAll, parse d.topicPayload = some jsonAll → jsonAll "reasonCode".toList = none →
      handleEvt_intentNotRecognized me others objectOk json parse (some d) w =
        .ok (-100, w.emit (.dbg_error "No reasonCode in intentNotRecognized"))) ∧
     (∀ jsonAll jsonReasonCode, parse d.topicPayload = some jsonAll →
      jsonAll "reasonCode".toList = some jsonReasonCode →
      jsonAll "reasonText".toList = none →
      handleEvt_intentNotRecognized me others objectOk json parse (some d) w =
        .ok (-100, w.emit (.dbg_error "No reasonText in intentNotRecognized")))) ∧
    ((-1 : Int) < 0 ∧ (-2 : Int) < 0 ∧ (-100 : Int) < 0 ∧
      (-1 : Int) ≠ -2 ∧ (-1 : Int) ≠ -100 ∧ (-2 : Int) ≠ -100) ∧
    ∀ msg, (w.emit (.dbg_error msg)).pGlobalData = w.pGlobalData ∧
      signals (w.emit (.dbg_error msg)).trace = signals w.trace ∧
      publishes (w.emit (.dbg_error msg)).trace = publishes w.trace := by
  refine ⟨⟨rfl, ?_, ?_, ?_⟩, ⟨rfl, ?_, ?_, ?_⟩, by decide, ?_⟩
  · intro h
    unfold handleEvt_intentRecognized
    simp only [h]
  · intro jsonAll h h1
    unfold handleEvt_intentRecognized
    simp only [h, h1]
  · intro jsonAll jsonIntent h h1 h2
    unfold handleEvt_intentRecognized
    simp only [h, h1, h2]
  · intro h
    unfold handleEvt_intentNotRecognized
    simp only [h]
  · intro jsonAll h h1
    unfold handleEvt_intentNotRecognized
    simp only [h, h1]
  · intro jsonAll jsonReasonCode h h1 h2
    unfold handleEvt_intentNotRecognized
    simp only [h, h1, h2]
  · intro msg
    refine ⟨rfl, ?_, ?_⟩
    · rw [emit_trace, signals_append]
      simp [signals]
    · rw [emit_trace, publishes_append]
      simp [publishes]

/-- Witness for C21: the sample parser on an unparsable text, on a text without an intent
and on a text without a confidence. -/
theorem C21_error_sites_witness :
    cJSON_sample "junk".toList = none ∧
    handleEvt_intentRecognized (.producer 0) (fun _ m => m) true cJSON_plain cJSON_sample
      IntentStatics.init (some ⟨none, "junk".toList⟩) (main_init [] []) =
      .ok (-2, IntentStatics.init, (main_init [] []).emit
        (.dbg_error "handleEvt_intentRecognized() Cannot parse topic payload")) ∧
    handleEvt_intentNotRecognized (.producer 0) (fun _ m => m) true cJSON_plain cJSON_sample
      (some ⟨none, "junk".toList⟩) (main_init [] []) =
      .ok (-2, (main_init [] []).emit
        (.dbg_error "handleEvt_intentNotRecognized() Cannot parse topic payload")) :=
  ⟨by simp [cJSON_sample],
   (C21_error_sites (.producer 0) (fun _ m => m) true cJSON_plain cJSON_sample
      IntentStatics.init ⟨none, "junk".toList⟩ (main_init [] [])).1.2.1
      (by simp [cJSON_sample]),
   (C21_error_sites (.producer 0) (fun _ m => m) true cJSON_plain cJSON_sample
      IntentStatics.init ⟨none, "junk".toList⟩ (main_init [] [])).2.1.2.1
      (by simp [cJSON_sample])⟩

/-! ## C22: an intent that is not a string -/

/-- When the payload parses and holds both members but the intent member is not a string,
`handleEvt_intentRecognized` hands the `NULL` value string to `dbg_out` and `strcmp`. -/
theorem handleEvt_intentRecognized_undefined (me : Tid) (others : Nat → Interference)
    (objectOk : Bool) (json : cJSON_compose) (parse : cJSON_Parse) (st : IntentStatics)
    (d : APPLICATION_EVENTDATA) (w : World) (jsonAll : cJSON_object)
    (jsonIntent jsonConfidence : cJSON)
    (h : parse d.topicPayload = some jsonAll)
    (h1 : jsonAll "intent".toList = some jsonIntent)
    (h2 : jsonAll "confidence".toList = some jsonConfidence)
    (h3 : jsonIntent.valuestring = none) :
    handleEvt_intentRecognized me others objectOk json parse st (some d) w =
      .error .undefined := by
  unfold handleEvt_intentRecognized
  simp only [h, h1, h2, h3]

/-- C22 fails on a payload whose intent member is a number. The payload
`\x7b"intent":42,"confidence":9000\x7d` parses and holds both required members, so no
failure site is taken; the value string of the intent is `NULL` and is passed to `dbg_out`
for `%s` and to `strcmp`, which is undefined: the handler neither returns 0 nor a negative
code. An unparsable text does return -2, and the sibling handler
`handleEvt_MQTTuserIdentified` tests the value string and returns -100 on
`\x7b"name":7\x7d`. -/
theorem C22_intent_not_a_string :
    handleEvt_intentRecognized (.producer 0) (fun _ m => m) true cJSON_plain cJSON_sample
      IntentStatics.init (some ⟨none, "\x7b\"intent\":42,\"confidence\":9000\x7d".toList⟩)
      (main_init [] []) = .error .undefined ∧
    (handleEvt_intentRecognized (.producer 0) (fun _ m => m) true cJSON_plain cJSON_sample
      IntentStatics.init (some ⟨none, "junk".toList⟩)
      (main_init [] [])).map (fun r => r.1) = .ok (-2) ∧
    (handleEvt_MQTTuserIdentified (.producer 0) (fun _ m => m) true cJSON_plain cJSON_sample
      1700000000 0 (some ⟨none, "\x7b\"name\":7\x7d".toList⟩)
      (main_init [] [])).map (fun r => r.1) = .ok (-100) := by
  decide

/-! ## C30: the greeting of `handleEvt_MQTTuserIdentified` -/

/-- The function `handleEvt_MQTTuserIdentified` never assigns its `static` variable
`previousSpeech`: whatever it returns, the value after the call is the value before. -/
theorem handleEvt_MQTTuserIdentified_previousSpeech (me : Tid) (others : Nat → Interference)
    (objectOk : Bool) (json : cJSON_compose) (parse : cJSON_Parse) (timeNow p : Int)
    (eventData : Option APPLICATION_EVENTDATA) (w : World) (r : Int × Int × World)
    (h : handleEvt_MQTTuserIdentified me others objectOk json parse timeNow p eventData w =
      .ok r) : r.2.1 = p := by
  unfold handleEvt_MQTTuserIdentified at h
  repeat' split at h
  all_goals first
    | (cases h; rfl)
    | skip
  all_goals simp only [bind, Except.bind, pure, Except.pure] at h
  all_goals repeat' split at h
  all_goals first
    | (cases h; rfl)
    | cases h

/-- With `previousSpeech` at 0, the value returned by `time(NULL)` plays no part once it is
10000 or more: the test of the limiter is false. -/
theorem handleEvt_MQTTuserIdentified_time (me : Tid) (others : Nat → Interference)
    (objectOk : Bool) (json : cJSON_compose) (parse : cJSON_Parse) (timeNow : Int)
    (eventData : Option APPLICATION_EVENTDATA) (w : World) (h : 10000 ≤ timeNow) :
    handleEvt_MQTTuserIdentified me others objectOk json parse timeNow 0 eventData w =
      handleEvt_MQTTuserIdentified me others objectOk json parse 10000 0 eventData w := by
  unfold handleEvt_MQTTuserIdentified
  have h1 : ¬ (timeNow - 0 < 10000) := by omega
  have h2 : ¬ ((10000 : Int) - 0 < 10000) := by decide
  simp only [h1, h2, if_false]

/-- Whatever two values of 10000 or more `time(NULL)` returns at the two identification
events, however close to each other, the run is the same: the limiter plays no part. -/
theorem twoIdentifications_time (t1 t2 : Int) (h1 : 10000 ≤ t1) (h2 : 10000 ≤ t2) :
    twoIdentifications t1 t2 = twoIdentifications 1700000000 1700000001 := by
  unfold twoIdentifications
  rw [handleEvt_MQTTuserIdentified_time _ _ _ _ _ t1 _ _ h1,
    handleEvt_MQTTuserIdentified_time _ _ _ _ _ 1700000000 _ _ (by decide)]
  cases hr : handleEvt_MQTTuserIdentified (.producer 0) (fun _ m => m) true
      cJSON_plain cJSON_sample 10000 0 (some identificationAnn) (main_init [] []) with
  | error e => rfl
  | ok r =>
    obtain ⟨r1, p1, w1⟩ := r
    have hp := handleEvt_MQTTuserIdentified_previousSpeech _ _ _ _ _ _ _ _ _ _ hr
    simp only at hp
    subst hp
    simp only [bind, Except.bind]
    cases mqtt_sender_iteration (fun m => m) MOSQ_ERR_SUCCESS w1 with
    | error e => rfl
    | ok w2 =>
      simp only
      rw [handleEvt_MQTTuserIdentified_time _ _ _ _ _ t2 _ _ h2,
        handleEvt_MQTTuserIdentified_time _ _ _ _ _ 1700000001 _ _ (by decide)]

/-- C30 fails. Two identification events for Ann, the second one second after the first
(`time(NULL)` returns 1700000000 and 1700000001): both calls of
`handleEvt_MQTTuserIdentified` return 0 and both write the greeting to the mailbox, the
condition variable is signalled twice and the sender publishes the greeting twice. The
`static` variable `previousSpeech` is 0 before and after. -/
theorem C30_two_greetings :
    (twoIdentifications 1700000000 1700000001).map
        (fun r => (r.1, r.2.1, signals r.2.2.trace, publishes r.2.2.trace)) =
      .ok ((0, 0), 0, 2,
        [("creoir/talk/speak".toList,
          "\x7b\"utterance\":\"Well hello my friend Ann. How are you today?\"\x7d".toList),
         ("creoir/talk/speak".toList,
          "\x7b\"utterance\":\"Well hello my friend Ann. How are you today?\"\x7d".toList)]) := by
  rfl

/-! ## C10: a handler that does not return -/

/-- The loop does not get past a recognised intent whose member `intent` is not a string:
`app_eventloop` calls `handleEvt_intentRecognized`, which passes the `NULL` value string to
`strcmp`, whatever the environment is and whatever follows in the queue. -/
theorem app_eventloop_intent_undefined (me : Tid) (others : Nat → Interference)
    (objectOk : Bool) (json : cJSON_compose) (print : cJSON_PrintUnformatted)
    (parse : cJSON_Parse) (clock : World → Int) {w : World} {a : Nat} {as : List Nat}
    {d : APPLICATION_EVENTDATA} {L : List Event} {jsonAll : cJSON_object}
    {jsonIntent jsonConfidence : cJSON}
    (hq : QueueHolds w (a :: as) ((.EVT_MQTT_INTENT_RECOGNIZED, d) :: L))
    (h : parse d.topicPayload = some jsonAll)
    (h1 : jsonAll "intent".toList = some jsonIntent)
    (h2 : jsonAll "confidence".toList = some jsonConfidence)
    (h3 : jsonIntent.valuestring = none) (fuel : Nat) (event : APPLICATION_EVENT)
    (eventData : APPLICATION_EVENTDATA) :
    app_eventloop (actionHandlers me others objectOk json print parse clock) (fuel + 1) event
      eventData w = .error .undefined := by
  obtain ⟨w1, hpop, _⟩ := popEvent_holds event eventData hq
  simp only [app_eventloop, hpop, bind, Except.bind, dispatch, actionHandlers,
    handleEvt_intentRecognized_undefined me others objectOk json parse _ d w1 jsonAll
      jsonIntent jsonConfidence h h1 h2 h3]

/-- C10 fails on the queue that holds a recognised intent with the payload
`\x7b"intent":42,"confidence":9000\x7d` and then the stop event. The queue is well formed and
`appExit` is 0, but `app_eventloop` does not handle the stop event and does not return 0:
the first pass calls `handleEvt_intentRecognized`, which passes the `NULL` value string of
the intent to `strcmp`; whatever number of passes is allowed and whatever the two local
variables hold, the loop does not return. On scenario A (Startup, Wakeword, Stop and one
more event) the loop does what the claim says: it handles the three events in order, sets
`appExit` and returns 0. -/
theorem C10_stuck_handler :
    QueueHolds intentNumber_queue [0, 1]
      ([(.EVT_MQTT_INTENT_RECOGNIZED,
          ⟨none, "\x7b\"intent\":42,\"confidence\":9000\x7d".toList⟩)] ++
        (.EVT_APP_STOP, ⟨none, []⟩) :: []) ∧
    intentNumber_queue.pGlobalData.appExit = 0 ∧
    (∀ fuel event eventData,
      app_eventloop dispatcherHandlers (fuel + 1) event eventData intentNumber_queue =
        .error .undefined) ∧
    (∀ fuel event eventData r,
      app_eventloop dispatcherHandlers fuel event eventData intentNumber_queue ≠ .ok r) ∧
    (app_eventloop dispatcherHandlers 3 .EVT_MQTT_PING ⟨none, []⟩ scenarioA_queue).map
        (fun r => (r.ret, r.handled, r.world.pGlobalData.appExit)) =
      .ok (0, [(.EVT_STARTUP, ⟨none, []⟩), (.EVT_MQTT_WAKEWORD, ⟨none, "hey".toList⟩),
        (.EVT_APP_STOP, ⟨none, []⟩)], 1) := by
  have hq : QueueHolds intentNumber_queue [0, 1]
      ([(.EVT_MQTT_INTENT_RECOGNIZED,
          ⟨none, "\x7b\"intent\":42,\"confidence\":9000\x7d".toList⟩)] ++
        (.EVT_APP_STOP, ⟨none, []⟩) :: []) := by
    refine ⟨?_, by decide, rfl, rfl, by decide⟩
    refine ⟨rfl, _, rfl, rfl, _, rfl, rfl⟩
  have hrun : ∀ fuel event eventData,
      app_eventloop dispatcherHandlers (fuel + 1) event eventData intentNumber_queue =
        .error .undefined := fun fuel event eventData => rfl
  refine ⟨hq, rfl, hrun, ?_, by decide⟩
  intro fuel event eventData r h
  cases fuel with
  | zero => cases h
  | succ n =>
    rw [hrun] at h
    cases h

end Biometric
